import Mathlib

/-!
# Curved-mesh validity repair (`crv/crvShape.cc`)

A shallow embedding of the defect classifier `markEdges`, of the two cavity
operators `EdgeSwapper` and `EdgeReshaper`, of the marking pass
`markEdgesToFix`, of the boundary-angle detector and of the two drivers
`fixLargeBoundaryAngles` and `fixInvalidEdges`, followed by the properties
established about them.

Conventions of the embedding.

* A mesh entity handle (`apf::MeshEntity*`) is a natural number, `0` being the
  null pointer.
* A C array of handles (`ma::Entity* edges[6]`, `apf::Downward`) is a map from
  slot index to handle.  A local array that the source leaves uninitialised
  starts from an arbitrary map given as an argument.
* `int` values are integers; `/` and `%` are the truncating C operators.  The
  only subtraction on a tag, `tag-2`, is evaluated after the guard `tag <= 1`
  has been passed, so it cannot overflow.
* `fail` and `PCU_ALWAYS_ASSERT` end the process; they are the error results.
* Floating-point arithmetic is abstracted to an ordered field `R` together with
  the functions `sqrt` and `sin` and the constant `pi` (`Numerics`).
* A `do ... while` loop carries a bound on its number of passes and yields
  `none` when the bound is used up; that a bound of two passes is enough is
  proved.
* A driver returns, next to its result, the list of the calls it has made to
  its stages, in order.
-/

namespace crv

deriving instance DecidableEq for Except

/-- Handle of a mesh entity; `0` is the null pointer. -/
abbrev Entity := Nat

/-- Array of entity handles, addressed by slot index. -/
abbrev Buffer := Nat → Entity

/-- Assignment `buf[i] = v`. -/
def Buffer.set (buf : Buffer) (i : Nat) (v : Entity) : Buffer :=
  fun k => if k = i then v else buf k

/-- Copy of the entries of `l` into the leading slots of `buf`; the slots from
`l.length` on keep their content. -/
def Buffer.fill (buf : Buffer) (l : List Entity) : Buffer :=
  fun k => (l[k]?).getD (buf k)

/-- The content of the `k` slots `i, i+1, ..., i+k-1` of `buf`, in this order. -/
def Buffer.slice (buf : Buffer) : Nat → Nat → List Entity
  | 0, _ => []
  | k + 1, i => buf i :: Buffer.slice buf k (i + 1)

/-- The ways in which the process is ended. -/
inductive Abort where
  /-- `fail("invalid quality tag in markEdges\n")`, line 104. -/
  | invalidQualityTag
  /-- `PCU_ALWAYS_ASSERT(index < 4)`, line 71. -/
  | assertIndexLt4
  /-- `PCU_ALWAYS_ASSERT(pivotIndex >= 0)`, line 232. -/
  | assertPivotIndex
  /-- `PCU_ALWAYS_ASSERT(index >= 0)`, line 241. -/
  | assertIndex
  /-- `PCU_ALWAYS_ASSERT(edge)`, line 546. -/
  | assertEdge
  /-- `PCU_ALWAYS_ASSERT(m->getType(edge) == 1)`, lines 484 and 512. -/
  | assertEdgeType
  /-- `PCU_ALWAYS_ASSERT(checkFlagConsistency(a,1,ma::COLLAPSE))`, line 581. -/
  | assertFlagConsistency
  deriving DecidableEq, Repr

/-- The part of the mesh interface (`apf::Mesh`) that the repair code queries. -/
structure Mesh where
  /-- Result of `getDimension()`. -/
  dimension : Int
  /-- Downward adjacency: `down e d` lists the entities of dimension `d`
  bounding `e`, in the order of the mesh store. -/
  down : Entity → Int → List Entity
  /-- Result of `getAdjacent(e,d,·)`. -/
  adjacent : Entity → Int → List Entity
  /-- Result of `getModelType(toModel(e))`. -/
  modelType : Entity → Int
  /-- Result of `getShape()->getOrder()`. -/
  order : Int
  /-- Result of `isOwned(e)`. -/
  owned : Entity → Bool
  /-- Entities of each dimension in iteration order (`begin(d)`, `iterate`). -/
  entities : Int → List Entity
  /-- Result of `getUp(e,·)`: the entities one dimension up that `e` bounds. -/
  up : Entity → List Entity := fun _ => []
  /-- Result of `getType(e)`; the type of an edge is `1`. -/
  type : Entity → Int := fun _ => 0

/-- Call `m->getDownward(e,d,buf)`: the adjacent entities are written to the
leading slots of `buf` and their number is returned. -/
def Mesh.getDownward (m : Mesh) (e : Entity) (d : Int) (buf : Buffer) : Int × Buffer :=
  (((m.down e d).length : Int), buf.fill (m.down e d))

/-- The lookup tables of `crvTables.h`; the header is not part of the sources
at hand, so the tables are arguments. -/
structure Tables where
  /-- Table `vertEdges[4][3]`. -/
  vertEdges : Nat → Nat → Nat
  /-- Table `edgeFaces[6][2]`. -/
  edgeFaces : Nat → Nat → Nat
  /-- Table `oppEdges[6]`. -/
  oppEdges : Nat → Nat

/-- Decoded defect dimension, `(tag-2)/6`. -/
def tagDim (tag : Int) : Int := (tag - 2).tdiv 6

/-- Decoded index within the element, `(tag-2) % 6`. -/
def tagIndex (tag : Int) : Int := (tag - 2).tmod 6

/-- Function `markEdges` (lines 50-109).  `edges` is the buffer of the caller;
`ed0` and `faces0` are the initial contents of the locals `ed` and `faces`.
The result is the returned count with the buffer after the call. -/
def markEdges (T : Tables) (m : Mesh) (e : Entity) (tag : Int) (edges : Buffer)
    (ed0 faces0 : Buffer) : Except Abort (Int × Buffer) :=
  if tag ≤ 1 then .ok (0, edges)
  else
    let dim := tagDim tag
    let index := (tagIndex tag).toNat
    let md := m.dimension
    if dim = 0 then
      let ed := (m.getDownward e 1 ed0).2
      if md = 2 then
        .ok (md, (edges.set 0 (ed index)).set 1 (ed ((index + 2) % 3)))
      else if tagIndex tag < 4 then
        .ok (md, ((edges.set 0 (ed (T.vertEdges index 0))).set 1
                    (ed (T.vertEdges index 1))).set 2 (ed (T.vertEdges index 2)))
      else .error .assertIndexLt4
    else if dim = 1 then
      let ed := (m.getDownward e 1 ed0).2
      .ok (1, edges.set 0 (ed index))
    else if dim = 2 then
      let faces := (m.getDownward e 2 faces0).2
      let ed := (m.getDownward (faces index) 1 ed0).2
      .ok (3, ((edges.set 0 (ed 0)).set 1 (ed 1)).set 2 (ed 2))
    else if dim = 3 then
      .ok (6, (m.getDownward e 1 edges).2)
    else .error .invalidQualityTag

/-- The array reads of `markEdges` on a tag above `1`, branch by branch: each
pair holds an index the function uses and the number of entries behind it, that
is the number of entities the adjacency query that filled the array returned
(for the row index of `vertEdges`, the 4 rows of the table). For dimension 3,
where the function reports six filled slots, the pair holds the last of these
slots and the number of edges the query wrote. -/
def markEdges.indexChecks (T : Tables) (m : Mesh) (e : Entity) (tag : Int)
    (faces0 : Buffer) : List (Nat × Nat) :=
  if tag ≤ 1 then []
  else
    let dim := tagDim tag
    let index := (tagIndex tag).toNat
    let ne := (m.down e 1).length
    if dim = 0 then
      if m.dimension = 2 then [(index, ne), ((index + 2) % 3, ne)]
      else if tagIndex tag < 4 then
        [(index, 4), (T.vertEdges index 0, ne), (T.vertEdges index 1, ne),
          (T.vertEdges index 2, ne)]
      else []
    else if dim = 1 then [(index, ne)]
    else if dim = 2 then
      let faces := (m.getDownward e 2 faces0).2
      let nf := (m.down (faces index) 1).length
      [(index, (m.down e 2).length), (0, nf), (1, nf), (2, nf)]
    else if dim = 3 then [(5, ne)]
    else []

/-! ## Tags and flags of the adapter -/

/-- The per-edge markers used by the repair stages. -/
inductive Flag where
  | SPLIT
  | COLLAPSE
  | BAD_QUALITY
  deriving DecidableEq, Repr

/-- The adapter (`crv::Adapt`): the mesh with the tag and flag stores. -/
structure Adapt where
  /-- The mesh `a->mesh`. -/
  mesh : Mesh
  /-- The invalidity tag attached to each element, `none` once cleared. -/
  tags : Entity → Option Int
  /-- The flag bits of each entity. -/
  flags : Entity → Flag → Bool

/-- Modelled from the spec: `crv::getTag` is not part of the sources at hand.
The tag is the integer attached to the element; an element whose tag has been
cleared reads as unchecked (`0`, a value `≤ 1`). -/
def getTag (a : Adapt) (e : Entity) : Int := (a.tags e).getD 0

/-- Modelled from the spec: `crv::clearTag` is not part of the sources at hand.
It removes the invalidity tag of the element. -/
def clearTag (a : Adapt) (e : Entity) : Adapt :=
  { a with tags := fun x => if x = e then none else a.tags x }

/-- Modelled from the spec: `ma::getFlag` is not part of the sources at hand.
It tells whether some bit of the mask is set on the entity. -/
def getFlag (a : Adapt) (e : Entity) (mask : List Flag) : Bool :=
  mask.any (fun f => a.flags e f)

/-- Modelled from the spec: `ma::setFlag` is not part of the sources at hand.
It sets every bit of the mask on the entity. -/
def setFlag (a : Adapt) (e : Entity) (mask : List Flag) : Adapt :=
  { a with flags := fun x f => if x = e ∧ f ∈ mask then true else a.flags x f }

/-- Modelled from the spec: `ma::clearFlag` is not part of the sources at hand.
It clears every bit of the mask on the entity. -/
def clearFlag (a : Adapt) (e : Entity) (mask : List Flag) : Adapt :=
  { a with flags := fun x f => if x = e ∧ f ∈ mask then false else a.flags x f }

/-! ## Edge swapper -/

/-- The fields of `EdgeSwapper` that change while it runs. -/
structure EdgeSwapper where
  /-- Field `simplex`. -/
  simplex : Entity
  /-- Field `edges[6]`. -/
  edges : Buffer
  /-- Field `ne`. -/
  ne : Int
  /-- Field `ns`. -/
  ns : Int

/-- Number of slots of the field `ma::Entity* edges[6]` of `EdgeSwapper`
(line 155). -/
def EdgeSwapper.edgesCapacity : Nat := 6

/-- Method `EdgeSwapper::shouldApply` (lines 129-135). -/
def EdgeSwapper.shouldApply (T : Tables) (a : Adapt) (sw : EdgeSwapper) (e : Entity)
    (ed0 faces0 : Buffer) : Except Abort (Bool × EdgeSwapper) :=
  let tag := getTag a e
  match markEdges T a.mesh e tag sw.edges ed0 faces0 with
  | .error x => .error x
  | .ok (n, buf) => .ok (decide (n > 0), { sw with ne := n, edges := buf, simplex := e })

/-- The loop of `EdgeSwapper::apply` from index `i` on, with `k` iterations
left.  `run` is the external swap operator `edgeSwap->run`, which acts on the
adapter and reports success.  The third component of the result lists, in
order, the edges on which `run` has been called. -/
def EdgeSwapper.applyFrom (run : Entity → Adapt → Bool × Adapt) (sw : EdgeSwapper) :
    Nat → Nat → Adapt → EdgeSwapper × Adapt × List Entity
  | 0, _, a => (sw, a, [])
  | k + 1, i, a =>
    let r := run (sw.edges i) a
    if r.1 then
      ({ sw with ns := sw.ns + 1 },
        clearFlag (clearTag r.2 sw.simplex) (sw.edges i) [Flag.COLLAPSE, Flag.BAD_QUALITY],
        [sw.edges i])
    else
      let rest := EdgeSwapper.applyFrom run sw k (i + 1) r.2
      (rest.1, rest.2.1, sw.edges i :: rest.2.2)

/-- Method `EdgeSwapper::apply` (lines 140-150). -/
def EdgeSwapper.apply (run : Entity → Adapt → Bool × Adapt) (sw : EdgeSwapper) (a : Adapt) :
    EdgeSwapper × Adapt × List Entity :=
  EdgeSwapper.applyFrom run sw sw.ne.toNat 0 a

/-- The adapter reached from `a` after `run` has been called on the slots
`i, i+1, ..., i+k-1` of the buffer, one after the other. -/
def afterRuns (run : Entity → Adapt → Bool × Adapt) (edges : Buffer) : Nat → Nat → Adapt → Adapt
  | 0, _, a => a
  | k + 1, i, a => afterRuns run edges k (i + 1) (run (edges i) a).2

/-! ## Marking pass -/

/-- Number of slots of the local `ma::Entity* edges[3]` of `markEdgesToFix`
(line 538). -/
def markEdgesToFix.edgesCapacity : Nat := 3

/-- The inner loop of `markEdgesToFix` (lines 544-553) from index `i` on, with
`k` iterations left. -/
def markEdgesToFix.inner (flag : List Flag) (edges : Buffer) :
    Nat → Nat → Adapt × Int → Except Abort (Adapt × Int)
  | 0, _, s => .ok s
  | k + 1, i, (a, count) =>
    let edge := edges i
    if edge = 0 then .error .assertEdge
    else if !getFlag a edge flag then
      markEdgesToFix.inner flag edges k (i + 1)
        (setFlag a edge flag, if a.mesh.owned edge then count + 1 else count)
    else markEdgesToFix.inner flag edges k (i + 1) (a, count)

/-- The loop of `markEdgesToFix` over the elements (lines 540-554).  The state
is the adapter, the running count and the local buffer `edges`; `ed0 e` and
`faces0 e` are the initial contents of the locals of the call of `markEdges`
made for `e`.  The buffer stands for the memory from `edges[0]` on, of which the
array `edges[3]` owns the slots below `markEdgesToFix.edgesCapacity`: when a
call of `markEdges` returns more than that, the source writes or reads past the
array, and what the loop then computes is the outcome on that memory only. -/
def markEdgesToFix.sweep (T : Tables) (ed0 faces0 : Entity → Buffer) (flag : List Flag) :
    List Entity → Adapt × Int × Buffer → Except Abort (Adapt × Int × Buffer)
  | [], s => .ok s
  | e :: es, (a, count, edges) =>
    match markEdges T a.mesh e (getTag a e) edges (ed0 e) (faces0 e) with
    | .error x => .error x
    | .ok (n, buf) =>
      match markEdgesToFix.inner flag buf n.toNat 0 (a, count) with
      | .error x => .error x
      | .ok (a', count') => markEdgesToFix.sweep T ed0 faces0 flag es (a', count', buf)

/-- The collaborators of the marking pass that are not part of the sources at
hand: the invalidity-tagging pass and the sum over the processes. -/
structure Collaborators where
  /-- Pass `markInvalidEntities`: tags the invalid elements, returns their number. -/
  markInvalidEntities : Adapt → Int × Adapt
  /-- Reduction `PCU_Add_Long`: the sum of the argument over all processes. -/
  PCU_Add_Long : Int → Int

/-- Function `markEdgesToFix` (lines 528-558); `edges0` is the initial content
of the memory from its local array `edges[3]` on (see `markEdgesToFix.sweep`). -/
def markEdgesToFix (C : Collaborators) (T : Tables) (ed0 faces0 : Entity → Buffer)
    (edges0 : Buffer) (a : Adapt) (flag : List Flag) : Except Abort (Int × Adapt) :=
  let r := C.markInvalidEntities a
  if r.1 = 0 then .ok (0, r.2)
  else
    match markEdgesToFix.sweep T ed0 faces0 flag (r.2.mesh.entities r.2.mesh.dimension)
        (r.2, 0, edges0) with
    | .error x => .error x
    | .ok (a', count, _) => .ok (C.PCU_Add_Long count, a')

/-! ## Edge reshaper -/

/-- A point or vector of space (`apf::Vector3`). -/
structure Vec3 (R : Type) where
  /-- First component. -/
  x : R
  /-- Second component. -/
  y : R
  /-- Third component. -/
  z : R

section Geometry

variable {R : Type} [LinearOrderedField R]

/-- Sum of two vectors. -/
def Vec3.add (a b : Vec3 R) : Vec3 R := ⟨a.x + b.x, a.y + b.y, a.z + b.z⟩

/-- Difference of two vectors. -/
def Vec3.sub (a b : Vec3 R) : Vec3 R := ⟨a.x - b.x, a.y - b.y, a.z - b.z⟩

/-- Product of a vector with a scalar. -/
def Vec3.scale (a : Vec3 R) (s : R) : Vec3 R := ⟨a.x * s, a.y * s, a.z * s⟩

/-- Quotient of a vector by a scalar. -/
def Vec3.divide (a : Vec3 R) (s : R) : Vec3 R := ⟨a.x / s, a.y / s, a.z / s⟩

/-- Dot product (`operator*` on two vectors). -/
def Vec3.dot (a b : Vec3 R) : R := a.x * b.x + a.y * b.y + a.z * b.z

/-- Cross product `apf::cross`. -/
def Vec3.cross (a b : Vec3 R) : Vec3 R :=
  ⟨a.y * b.z - a.z * b.y, a.z * b.x - a.x * b.z, a.x * b.y - a.y * b.x⟩

/-- The functions of `<cmath>` and the constant `apf::pi` used by the code. -/
structure Numerics (R : Type) where
  /-- Square root. -/
  sqrt : R → R
  /-- Sine. -/
  sin : R → R
  /-- The constant `apf::pi`. -/
  pi : R

/-- Method `getLength`. -/
def Vec3.getLength (N : Numerics R) (a : Vec3 R) : R := N.sqrt (a.dot a)

/-- The coordinates stored on the entities: `pts e` is node `0` of `e`, read by
`getPoint(e,0,·)` and `ma::getPosition`, written by `setPoint(e,0,·)`. -/
abbrev Points (R : Type) := Entity → Vec3 R

/-- Call `mesh->setPoint(e,0,v)`. -/
def setPoint (pts : Points R) (e : Entity) (v : Vec3 R) : Points R :=
  fun x => if x = e then v else pts x

/-- The quality collaborators, which are not part of the sources at hand; both
read the mesh with its current coordinates. -/
structure Quality (R : Type) where
  /-- Determinant of the Jacobian of the element at its vertex of local index
  `i`, that is `getJacobianDeterminant` after `getJacobian` at
  `elem_vert_xi[TET][i]`. -/
  vertexJacobianDet : Mesh → Points R → Entity → Nat → R
  /-- Method `qual->checkValidity`. -/
  checkValidity : Mesh → Points R → Entity → Int

/-- The search `apf::findIn(a,n,x)` from slot `i` on, with `k` slots left. -/
def findInFrom (a : Buffer) (x : Entity) : Nat → Nat → Int
  | 0, _ => -1
  | k + 1, i => if a i = x then (i : Int) else findInFrom a x k (i + 1)

/-- Modelled from the spec: `apf::findIn` is not part of the sources at hand.
It returns the first index below `n` at which `x` is stored, and `-1` when
there is none. -/
def findIn (a : Buffer) (n : Nat) (x : Entity) : Int := findInFrom a x n 0

/-- Initial contents of the local arrays of `repositionEdge`. -/
structure Locals where
  /-- The local `verts[4]`. -/
  verts : Buffer
  /-- The local `edges[6]`. -/
  edges : Buffer
  /-- The local `edgeVerts[2]`. -/
  edgeVerts : Buffer

/-- The quantities `repositionEdge` has computed when it reaches the test of
`validity` (line 269). -/
structure Configuration (R : Type) where
  /-- The local `pivotPoint`. -/
  pivotPoint : Vec3 R
  /-- The vector `edgeVectors[edgeIndex]`. -/
  flagged : Vec3 R
  /-- The local `normal`. -/
  normal : Vec3 R
  /-- The local `length`. -/
  length : R
  /-- The local `validity`. -/
  validity : R

/-- Lines 214-267 of `repositionEdge`: the choice of the pivot and the vectors
at the pivot. -/
def EdgeReshaper.configuration (T : Tables) (N : Numerics R) (Q : Quality R) (m : Mesh)
    (simplex : Entity) (L : Locals) (pts : Points R) (edge : Entity) :
    Except Abort (Configuration R) :=
  let verts := (m.getDownward simplex 0 L.verts).2
  let edges := (m.getDownward simplex 1 L.edges).2
  let edgeVerts := (m.getDownward edge 0 L.edgeVerts).2
  let pivotIndex0 := findIn verts 4 (edgeVerts 0)
  if pivotIndex0 < 0 then .error .assertPivotIndex
  else
    let j := Q.vertexJacobianDet m pts simplex pivotIndex0.toNat
    let index := findIn verts 4 (edgeVerts 1)
    if index < 0 then .error .assertIndex
    else
      let worse : Bool := decide (Q.vertexJacobianDet m pts simplex index.toNat < j)
      let pivotVert := if worse then edgeVerts 1 else edgeVerts 0
      let pivotIndex := if worse then index.toNat else pivotIndex0.toNat
      let pivotPoint := pts pivotVert
      let edgeVectors : Nat → Vec3 R :=
        fun i => (pts (edges (T.vertEdges pivotIndex i))).sub pivotPoint
      let edgeIndex : Nat :=
        if edges (T.vertEdges pivotIndex 2) = edge then 2
        else if edges (T.vertEdges pivotIndex 1) = edge then 1
        else 0
      let normal := (edgeVectors ((1 + edgeIndex) % 3)).cross (edgeVectors ((2 + edgeIndex) % 3))
      .ok { pivotPoint := pivotPoint
            flagged := edgeVectors edgeIndex
            normal := normal
            length := normal.getLength N
            validity := (edgeVectors edgeIndex).dot normal }

/-- The new control point of lines 276-279. -/
def EdgeReshaper.newPoint (N : Numerics R) (c : Configuration R) : Vec3 R :=
  let angle := N.pi / 9
  (c.flagged.add c.pivotPoint).add
    ((c.normal.divide c.length).scale
      (-c.validity / c.length + c.flagged.getLength N * N.sin angle))

/-- Method `EdgeReshaper::repositionEdge` (lines 207-291): the returned flag
with the coordinates after the call. -/
def EdgeReshaper.repositionEdge (T : Tables) (N : Numerics R) (Q : Quality R) (m : Mesh)
    (simplex : Entity) (L : Locals) (pts : Points R) (edge : Entity) :
    Except Abort (Bool × Points R) :=
  if m.order ≠ 2 then .ok (false, pts)
  else
    match EdgeReshaper.configuration T N Q m simplex L pts edge with
    | .error x => .error x
    | .ok c =>
      if c.validity > 1 / 10 ^ 10 then .ok (false, pts)
      else
        let oldPoint := pts edge
        let adjacent := m.adjacent edge 3
        let pts1 := setPoint pts edge (EdgeReshaper.newPoint N c)
        if adjacent.any (fun r => decide (Q.checkValidity m pts1 r > 0)) then
          .ok (false, setPoint pts1 edge oldPoint)
        else .ok (true, pts1)

/-- Function `isBoundaryEntity` (lines 23-26). -/
def isBoundaryEntity (m : Mesh) (e : Entity) : Bool := decide (m.modelType e < m.dimension)

/-- The fields of `EdgeReshaper` that change while it runs. -/
structure EdgeReshaper where
  /-- Field `simplex`. -/
  simplex : Entity
  /-- Field `edges[6]`. -/
  edges : Buffer
  /-- Field `ne`. -/
  ne : Int
  /-- Field `nr`. -/
  nr : Int

/-- Number of slots of the field `ma::Entity* edges[6]` of `EdgeReshaper`
(line 296). -/
def EdgeReshaper.edgesCapacity : Nat := 6

/-- Method `EdgeReshaper::shouldApply` (lines 181-187). -/
def EdgeReshaper.shouldApply (T : Tables) (a : Adapt) (rs : EdgeReshaper) (e : Entity)
    (ed0 faces0 : Buffer) : Except Abort (Bool × EdgeReshaper) :=
  let tag := getTag a e
  match markEdges T a.mesh e tag rs.edges ed0 faces0 with
  | .error x => .error x
  | .ok (n, buf) => .ok (decide (n > 0), { rs with ne := n, edges := buf, simplex := e })

/-- The loop of `EdgeReshaper::apply` (lines 194-202) from index `i` on, with
`k` iterations left; `L i` holds the initial contents of the local arrays of the
call of `repositionEdge` made at index `i`. -/
def EdgeReshaper.applyFrom (T : Tables) (N : Numerics R) (Q : Quality R) (L : Nat → Locals)
    (rs : EdgeReshaper) : Nat → Nat → Adapt × Points R →
    Except Abort (EdgeReshaper × Adapt × Points R)
  | 0, _, (a, pts) => .ok (rs, a, pts)
  | k + 1, i, (a, pts) =>
    if isBoundaryEntity a.mesh (rs.edges i) then
      EdgeReshaper.applyFrom T N Q L rs k (i + 1) (a, pts)
    else
      match EdgeReshaper.repositionEdge T N Q a.mesh rs.simplex (L i) pts (rs.edges i) with
      | .error x => .error x
      | .ok (true, pts1) =>
        .ok ({ rs with nr := rs.nr + 1 },
          clearFlag (clearTag a rs.simplex) (rs.edges i) [Flag.COLLAPSE, Flag.BAD_QUALITY], pts1)
      | .ok (false, pts1) => EdgeReshaper.applyFrom T N Q L rs k (i + 1) (a, pts1)

/-- Method `EdgeReshaper::apply` (lines 192-203). -/
def EdgeReshaper.apply (T : Tables) (N : Numerics R) (Q : Quality R) (L : Nat → Locals)
    (rs : EdgeReshaper) (a : Adapt) (pts : Points R) :
    Except Abort (EdgeReshaper × Adapt × Points R) :=
  EdgeReshaper.applyFrom T N Q L rs rs.ne.toNat 0 (a, pts)

/-! ## Boundary-angle detector -/

/-- The loop of `hasTwoEntitiesOnBoundary` (lines 38-43) over the entities the
adjacency query returned, with the running value of `count`. -/
def hasTwoEntitiesOnBoundaryFrom (m : Mesh) : List Entity → Int → Bool
  | [], _ => false
  | x :: xs, count =>
    let count1 := if isBoundaryEntity m x then count + 1 else count
    if count1 = 2 then true else hasTwoEntitiesOnBoundaryFrom m xs count1

/-- Function `hasTwoEntitiesOnBoundary` (lines 33-45). -/
def hasTwoEntitiesOnBoundary (m : Mesh) (e : Entity) (dimension : Int) : Bool :=
  hasTwoEntitiesOnBoundaryFrom m (m.down e dimension) 0

/-- The geometric quantities the detector reads; they come from collaborators
that are not part of the sources at hand and do not depend on tags or flags. -/
structure AngleGeometry (R : Type) where
  /-- Control points of a face, `getVectorNodes` on its coordinate element. -/
  nodes : Entity → Int → Vec3 R
  /-- Normal of the straight-sided face, `ma::getTriNormal`. -/
  triNormal : Entity → Vec3 R
  /-- The threshold `a->input->validQuality`. -/
  validQuality : R
  /-- Determinant of the Jacobian of a region at its vertex of local index `i`
  (`getJacobianDeterminant` after `getJacobian` at `elem_vert_xi[TET][i]`). -/
  vertexJacobianDet : Entity → Int → R
  /-- Unit normal of the face `f` at sample point number `i` of its edge `e`:
  the normalised cross product of the two rows of the Jacobian of `f` at
  `boundaryToElementXi(m,e,f,nodeXi[i])`. -/
  sampleNormal : Entity → Entity → Nat → Vec3 R

/-- Initial contents of the local arrays of the detector functions. -/
structure AngleLocals where
  /-- The local `triVerts[3]` of `isCornerTriAngleLarge`. -/
  triVerts : Buffer
  /-- The local `verts[4]` of `isCornerTriAngleLarge`. -/
  verts : Buffer
  /-- The local `edges[3]` of `isLargeAngleTri`. -/
  triEdges : Buffer
  /-- The local `faces[4]` of `isLargeAngleTet`. -/
  faces : Buffer
  /-- The local `edges[6]` of `isLargeAngleTet`. -/
  tetEdges : Buffer

/-- Function `isCornerTriAngleLarge` (lines 303-355). -/
def isCornerTriAngleLarge (G : AngleGeometry R) (m : Mesh) (L : AngleLocals) (tri : Entity)
    (index : Nat) : Bool :=
  let normal := G.triNormal tri
  let P := m.order
  let r : Int := (index : Int) * (P - 1) + 3
  let l : Int := (((index + 2) % 3 : Nat) : Int) * (P - 1) + 3 + P - 2
  let cornerNormal := ((G.nodes tri r).sub (G.nodes tri index)).cross
    ((G.nodes tri l).sub (G.nodes tri index))
  if cornerNormal.dot normal < G.validQuality then true
  else if m.dimension = 3 ∧ isBoundaryEntity m tri = false then
    let triVerts := (m.getDownward tri 0 L.triVerts).2
    (m.up tri).any (fun u =>
      let verts := (m.getDownward u 0 L.verts).2
      let tetIndex := findIn verts 4 (triVerts index)
      decide (G.vertexJacobianDet u tetIndex < G.validQuality))
  else false

/-- The loop of `isLargeAngleTri` (lines 367-380) from index `i` on, with `k`
iterations left; the result `0` is the null handle. -/
def isLargeAngleTriFrom (G : AngleGeometry R) (a : Adapt) (L : AngleLocals) (e : Entity)
    (edges : Buffer) : Nat → Nat → Entity
  | 0, _ => 0
  | k + 1, i =>
    let e0 := edges i
    let e1 := edges ((i + 1) % 3)
    if isBoundaryEntity a.mesh e0 = true ∧ isBoundaryEntity a.mesh e1 = true then
      if isCornerTriAngleLarge G a.mesh L e ((i + 1) % 3) = true then
        let edge := edges ((i + 2) % 3)
        if getFlag a edge [Flag.SPLIT] = false ∧ isBoundaryEntity a.mesh edge = false then edge
        else isLargeAngleTriFrom G a L e edges k (i + 1)
      else isLargeAngleTriFrom G a L e edges k (i + 1)
    else isLargeAngleTriFrom G a L e edges k (i + 1)

/-- The conjunction of the tests `isLargeAngleTri` makes at index `i` (lines
371-375): both edges at the corner on the boundary, the corner judged large, the
opposite edge neither flagged `SPLIT` nor on the boundary. -/
def isLargeAngleTri.passes (G : AngleGeometry R) (a : Adapt) (L : AngleLocals) (e : Entity)
    (edges : Buffer) (i : Nat) : Bool :=
  isBoundaryEntity a.mesh (edges i) && isBoundaryEntity a.mesh (edges ((i + 1) % 3)) &&
    isCornerTriAngleLarge G a.mesh L e ((i + 1) % 3) &&
    !getFlag a (edges ((i + 2) % 3)) [Flag.SPLIT] &&
    !isBoundaryEntity a.mesh (edges ((i + 2) % 3))

/-- Function `isLargeAngleTri` (lines 362-382). -/
def isLargeAngleTri (G : AngleGeometry R) (a : Adapt) (L : AngleLocals) (e : Entity) : Entity :=
  isLargeAngleTriFrom G a L e (a.mesh.getDownward e 1 L.triEdges).2 3 0

/-- The search of lines 404-410 from index `i` on, with `k` iterations left:
the first edge index whose two faces are on the boundary, `-1` when none is. -/
def findBoundaryFacePair (T : Tables) (m : Mesh) (faces : Buffer) : Nat → Nat → Int
  | 0, _ => -1
  | k + 1, i =>
    if isBoundaryEntity m (faces (T.edgeFaces i 0)) = true ∧
        isBoundaryEntity m (faces (T.edgeFaces i 1)) = true then (i : Int)
    else findBoundaryFacePair T m faces k (i + 1)

/-- The sampling loop of lines 433-450 from sample `i` on, with `k` samples
left: whether some sample has `|leftN * rightN| > 0.9`. -/
def nearlyCoplanarFrom (G : AngleGeometry R) (edge leftFace rightFace : Entity) :
    Nat → Nat → Bool
  | 0, _ => false
  | k + 1, i =>
    if |(G.sampleNormal leftFace edge i).dot (G.sampleNormal rightFace edge i)| > 9 / 10 then true
    else nearlyCoplanarFrom G edge leftFace rightFace k (i + 1)

/-- Function `isLargeAngleTet` (lines 394-455); the result `0` is the null
handle. -/
def isLargeAngleTet (T : Tables) (G : AngleGeometry R) (m : Mesh) (L : AngleLocals)
    (e : Entity) : Entity :=
  let faces := (m.getDownward e 2 L.faces).2
  let index := findBoundaryFacePair T m faces 6 0
  if index < 0 then 0
  else
    let edges := (m.getDownward e 1 L.tetEdges).2
    if isBoundaryEntity m (edges index.toNat) = false then 0
    else
      let leftFace := faces (T.edgeFaces index.toNat 0)
      let rightFace := faces (T.edgeFaces index.toNat 1)
      if nearlyCoplanarFrom G (edges index.toNat) leftFace rightFace (m.order + 1).toNat 0 then
        edges (T.oppEdges index.toNat)
      else 0

/-- One pass of `markEdgesOppLargeAnglesTri` over the faces (lines 478-490),
on the adapter and the running count; `L e` holds the initial contents of the
local arrays of the calls made for the face `e`. -/
def markEdgesOppLargeAnglesTri.sweep (G : AngleGeometry R) (L : Entity → AngleLocals) :
    List Entity → Adapt × Int → Except Abort (Adapt × Int)
  | [], s => .ok s
  | e :: es, (a, count) =>
    if hasTwoEntitiesOnBoundary a.mesh e 1 = false then
      markEdgesOppLargeAnglesTri.sweep G L es (a, count)
    else
      let edge := isLargeAngleTri G a (L e) e
      if edge ≠ 0 then
        if a.mesh.type edge ≠ 1 then .error .assertEdgeType
        else
          markEdgesOppLargeAnglesTri.sweep G L es
            (setFlag (setFlag a edge [Flag.SPLIT]) edge [Flag.BAD_QUALITY],
              if a.mesh.owned edge then count + 1 else count)
      else markEdgesOppLargeAnglesTri.sweep G L es (a, count)

/-- The `do ... while(count > prev_count)` loop of `markEdgesOppLargeAnglesTri`
(lines 475-492) with a bound on the number of passes; `none` when the bound is
used up. -/
def markEdgesOppLargeAnglesTri.loop (G : AngleGeometry R) (L : Entity → AngleLocals) :
    Nat → Adapt × Int → Option (Except Abort (Adapt × Int))
  | 0, _ => none
  | fuel + 1, (a, count) =>
    match markEdgesOppLargeAnglesTri.sweep G L (a.mesh.entities 2) (a, count) with
    | .error x => some (.error x)
    | .ok (a1, count1) =>
      if count1 > count then markEdgesOppLargeAnglesTri.loop G L fuel (a1, count1)
      else some (.ok (a1, count1))

/-- Function `markEdgesOppLargeAnglesTri` (lines 467-494): the returned sum
with the adapter after the call. -/
def markEdgesOppLargeAnglesTri (C : Collaborators) (G : AngleGeometry R)
    (L : Entity → AngleLocals) (fuel : Nat) (a : Adapt) : Option (Except Abort (Int × Adapt)) :=
  (markEdgesOppLargeAnglesTri.loop G L fuel (a, 0)).map
    (Except.map (fun s => (C.PCU_Add_Long s.2, s.1)))

/-- One pass of `markEdgesOppLargeAnglesTet` over the regions (lines 507-518). -/
def markEdgesOppLargeAnglesTet.sweep (T : Tables) (G : AngleGeometry R)
    (L : Entity → AngleLocals) : List Entity → Adapt × Int → Except Abort (Adapt × Int)
  | [], s => .ok s
  | e :: es, (a, count) =>
    let edge := isLargeAngleTet T G a.mesh (L e) e
    if edge ≠ 0 ∧ getFlag a edge [Flag.SPLIT] = false then
      if a.mesh.type edge ≠ 1 then .error .assertEdgeType
      else
        markEdgesOppLargeAnglesTet.sweep T G L es
          (setFlag (setFlag a edge [Flag.SPLIT]) edge [Flag.BAD_QUALITY],
            if a.mesh.owned edge then count + 1 else count)
    else markEdgesOppLargeAnglesTet.sweep T G L es (a, count)

/-- The `do ... while(count > prev_count)` loop of `markEdgesOppLargeAnglesTet`
(lines 504-520) with a bound on the number of passes; `none` when the bound is
used up. -/
def markEdgesOppLargeAnglesTet.loop (T : Tables) (G : AngleGeometry R)
    (L : Entity → AngleLocals) : Nat → Adapt × Int → Option (Except Abort (Adapt × Int))
  | 0, _ => none
  | fuel + 1, (a, count) =>
    match markEdgesOppLargeAnglesTet.sweep T G L (a.mesh.entities 3) (a, count) with
    | .error x => some (.error x)
    | .ok (a1, count1) =>
      if count1 > count then markEdgesOppLargeAnglesTet.loop T G L fuel (a1, count1)
      else some (.ok (a1, count1))

/-- Function `markEdgesOppLargeAnglesTet` (lines 496-522): the returned sum
with the adapter after the call. -/
def markEdgesOppLargeAnglesTet (C : Collaborators) (T : Tables) (G : AngleGeometry R)
    (L : Entity → AngleLocals) (fuel : Nat) (a : Adapt) : Option (Except Abort (Int × Adapt)) :=
  (markEdgesOppLargeAnglesTet.loop T G L fuel (a, 0)).map
    (Except.map (fun s => (C.PCU_Add_Long s.2, s.1)))

/-- The loop of `EdgeReshaper::apply` as in `EdgeReshaper.applyFrom`, together
with the list, in order, of the edges on which `repositionEdge` is called. -/
def EdgeReshaper.applyFromTraced (T : Tables) (N : Numerics R) (Q : Quality R)
    (L : Nat → Locals) (rs : EdgeReshaper) : Nat → Nat → Adapt × Points R →
    Except Abort (EdgeReshaper × Adapt × Points R) × List Entity
  | 0, _, (a, pts) => (.ok (rs, a, pts), [])
  | k + 1, i, (a, pts) =>
    if isBoundaryEntity a.mesh (rs.edges i) then
      EdgeReshaper.applyFromTraced T N Q L rs k (i + 1) (a, pts)
    else
      match EdgeReshaper.repositionEdge T N Q a.mesh rs.simplex (L i) pts (rs.edges i) with
      | .error x => (.error x, [rs.edges i])
      | .ok (true, pts1) =>
        (.ok ({ rs with nr := rs.nr + 1 },
          clearFlag (clearTag a rs.simplex) (rs.edges i) [Flag.COLLAPSE, Flag.BAD_QUALITY], pts1),
          [rs.edges i])
      | .ok (false, pts1) =>
        let rest := EdgeReshaper.applyFromTraced T N Q L rs k (i + 1) (a, pts1)
        (rest.1, rs.edges i :: rest.2)

/-! ## Fix driver -/

/-- The state the driver works on: the adapter and whatever else the external
engines read and change (coordinates included). -/
structure World (X : Type) where
  /-- The adapter with its mesh, tags and flags. -/
  adapt : Adapt
  /-- The remaining state of the external engines. -/
  rest : X

/-- The mesh-modification collaborators of the driver, which are not part of
the sources at hand. -/
structure Engines (X : Type) where
  /-- Operator `splitEdges`. -/
  splitEdges : World X → World X
  /-- Call `ma::applyOperator(a,&es)` on an `EdgeReshaper`. -/
  applyReshaper : World X → Except Abort (World X)
  /-- Call `ma::applyOperator(a,&es)` on an `EdgeSwapper`. -/
  applySwapper : World X → Except Abort (World X)
  /-- Query `checkFlagConsistency(a,dimension,flag)`. -/
  checkFlagConsistency : World X → Int → List Flag → Bool
  /-- Pass `checkAllEdgeCollapses(a,modelDimension)`. -/
  checkAllEdgeCollapses : World X → Int → World X
  /-- Pass `findIndependentSet(a)`. -/
  findIndependentSet : World X → World X
  /-- Pass `ma::collapseAllEdges(a,modelDimension)` with its success count. -/
  collapseAllEdges : World X → Int → Int × World X

/-- The calls a driver makes, as recorded in its trace. -/
inductive Event where
  /-- Call of `markEdgesOppLargeAnglesTet`. -/
  | markTet
  /-- Call of `markEdgesOppLargeAnglesTri`. -/
  | markTri
  /-- Call of `splitEdges`. -/
  | split
  /-- Call of `repositionInvalidEdges`. -/
  | reposition
  /-- Call of `collapseInvalidEdges`. -/
  | collapse
  /-- Call of `swapInvalidEdges`. -/
  | swap
  deriving DecidableEq, Repr

/-- Function `fixLargeBoundaryAngles` (lines 560-574): the returned value with
the state after the call, and the calls made, in order. `fuel` bounds the
passes of each of the two marking loops. -/
def fixLargeBoundaryAngles {X : Type} (C : Collaborators) (T : Tables) (G : AngleGeometry R)
    (L : Entity → AngleLocals) (E : Engines X) (fuel : Nat) (w : World X) :
    Option (Except Abort (Int × World X) × List Event) :=
  match markEdgesOppLargeAnglesTet C T G L fuel w.adapt with
  | none => none
  | some (.error x) => some (.error x, [Event.markTet])
  | some (.ok (n1, a1)) =>
    match markEdgesOppLargeAnglesTri C G L fuel a1 with
    | none => none
    | some (.error x) => some (.error x, [Event.markTet, Event.markTri])
    | some (.ok (n2, a2)) =>
      let count := n1 + n2
      if count = 0 then some (.ok (0, { w with adapt := a2 }), [Event.markTet, Event.markTri])
      else
        some (.ok (0, E.splitEdges { w with adapt := a2 }),
          [Event.markTet, Event.markTri, Event.split])

/-- The loop of `collapseInvalidEdges` (lines 583-588) from `modelDimension`
on, with `k` iterations left, on the state and the local `successCount`. -/
def collapseInvalidEdges.loop {X : Type} (E : Engines X) :
    Nat → Int → World X × Int → World X × Int
  | 0, _, s => s
  | k + 1, modelDimension, (w, successCount) =>
    let w1 := E.checkAllEdgeCollapses w modelDimension
    let w2 := E.findIndependentSet w1
    let r := E.collapseAllEdges w2 modelDimension
    collapseInvalidEdges.loop E k (modelDimension + 1) (r.2, successCount + r.1)

/-- Function `collapseInvalidEdges` (lines 576-593); the success count is only
printed. -/
def collapseInvalidEdges {X : Type} (E : Engines X) (w : World X) : Except Abort (World X) :=
  let maxDimension := w.adapt.mesh.dimension
  if E.checkFlagConsistency w 1 [Flag.COLLAPSE] = false then .error .assertFlagConsistency
  else .ok (collapseInvalidEdges.loop E maxDimension.toNat 1 (w, 0)).1

/-- Function `swapInvalidEdges` (lines 595-603). -/
def swapInvalidEdges {X : Type} (E : Engines X) (w : World X) : Except Abort (World X) :=
  E.applySwapper w

/-- Function `repositionInvalidEdges` (lines 605-613). -/
def repositionInvalidEdges {X : Type} (E : Engines X) (w : World X) : Except Abort (World X) :=
  E.applyReshaper w

/-- Function `fixInvalidEdges` (lines 615-627): the returned value with the
state after the call, and the stages called, in order. -/
def fixInvalidEdges {X : Type} (C : Collaborators) (T : Tables) (ed0 faces0 : Entity → Buffer)
    (edges0 : Buffer) (E : Engines X) (w : World X) :
    Except Abort (Int × World X) × List Event :=
  match markEdgesToFix C T ed0 faces0 edges0 w.adapt [Flag.BAD_QUALITY, Flag.COLLAPSE] with
  | .error x => (.error x, [])
  | .ok (count, a1) =>
    let w1 : World X := { w with adapt := a1 }
    if count = 0 then (.ok (0, w1), [])
    else
      let r1 : Except Abort (World X) × List Event :=
        if w1.adapt.mesh.order = 2 then (repositionInvalidEdges E w1, [Event.reposition])
        else (.ok w1, [])
      match r1.1 with
      | .error x => (.error x, r1.2)
      | .ok w2 =>
        match collapseInvalidEdges E w2 with
        | .error x => (.error x, r1.2 ++ [Event.collapse])
        | .ok w3 =>
          match swapInvalidEdges E w3 with
          | .error x => (.error x, r1.2 ++ [Event.collapse, Event.swap])
          | .ok w4 => (.ok (count, w4), r1.2 ++ [Event.collapse, Event.swap])

end Geometry

end crv

/-! ## Block keys of the solver output (`phasta/phBlock.cc`)

`int` values are integers. The one expression evaluated in `double`,
`0.5*(p-1)*(p-2)`, is evaluated in the rationals and converted to `int` by
truncation toward zero, as the conversion of C does; this is the machine result
as long as the product is small enough to be held exactly. -/

namespace ph

/-- The fields of `BlockKey` that the code at hand reads and writes. -/
structure BlockKey where
  /-- Field `nElementVertices`. -/
  nElementVertices : Int
  /-- Field `polynomialOrder`. -/
  polynomialOrder : Int
  /-- Field `nBoundaryFaceEdges`. -/
  nBoundaryFaceEdges : Int
  /-- Field `elementType`. -/
  elementType : Int
  /-- Field `edgeModeN`. -/
  edgeModeN : Int
  /-- Field `faceModeN`. -/
  faceModeN : Int
  /-- Field `regionModeN`. -/
  regionModeN : Int
  /-- Field `nElementDOF`. -/
  nElementDOF : Int
  deriving DecidableEq, Repr

/-- Operator `BlockKey::operator<` (lines 10-19). -/
def BlockKey.lt (k other : BlockKey) : Bool :=
  if k.nElementVertices ≠ other.nElementVertices then
    decide (k.nElementVertices < other.nElementVertices)
  else if k.elementType ≠ other.elementType then
    decide (k.elementType < other.elementType)
  else if k.nBoundaryFaceEdges ≠ other.nBoundaryFaceEdges then
    decide (k.nBoundaryFaceEdges < other.nBoundaryFaceEdges)
  else decide (k.polynomialOrder < other.polynomialOrder)

/-- The element type codes of `phBlock.h`; the header is not part of the sources
at hand, so the codes are arguments. -/
structure ElementTypes where
  /-- Code `TETRAHEDRON`. -/
  TETRAHEDRON : Int
  /-- Code `HEXAHEDRON`. -/
  HEXAHEDRON : Int
  /-- Code `WEDGE`. -/
  WEDGE : Int
  /-- Code `PYRAMID`. -/
  PYRAMID : Int

/-- Function `getPhastaType` (lines 28-40), on the mesh type `m->getType(e)`;
the table has the 8 entries of `apf::Mesh::TYPES`. -/
def getPhastaType (K : ElementTypes) (type : Nat) : Int :=
  ([-1, -1, -1, -1, K.TETRAHEDRON, K.HEXAHEDRON, K.WEDGE, K.PYRAMID][type]?).getD (-1)

/-- Conversion of a `double` value to `int`: truncation toward zero. -/
def truncToInt (q : ℚ) : Int := q.num.tdiv q.den

/-- Function `getBlockKeyCommon` (lines 72-89) on the mesh type `type` of the
element; `adjacentCount` is the table `apf::Mesh::adjacentCount`, which is not
part of the sources at hand. -/
def getBlockKeyCommon (K : ElementTypes) (adjacentCount : Nat → Nat → Int) (type : Nat)
    (k : BlockKey) (p : Int) : BlockKey :=
  let nv := adjacentCount type 0
  let NodeNumE := adjacentCount type 1
  let NodeNumF := adjacentCount type 2
  let edgeMode := p - 1
  let faceMode := truncToInt ((1 / 2 : ℚ) * ((p - 1 : Int) : ℚ) * ((p - 2 : Int) : ℚ))
  let regionMode := (1 : Int).tdiv 3 * (p - 1) * (p - 2) * (p - 3)
  { k with
    elementType := getPhastaType K type
    nElementVertices := adjacentCount type 0
    polynomialOrder := p
    edgeModeN := edgeMode
    faceModeN := faceMode
    regionModeN := regionMode
    nElementDOF := nv + NodeNumE * edgeMode + NodeNumF * faceMode + regionMode }

/-- Sample type codes. -/
def sampleTypes : ElementTypes where
  TETRAHEDRON := 1
  HEXAHEDRON := 2
  WEDGE := 3
  PYRAMID := 5

/-- Sample table of adjacent counts: a tetrahedron (mesh type `4`) has 4
vertices, 6 edges and 4 faces. -/
def sampleAdjacentCount (type d : Nat) : Int :=
  if type = 4 then (if d = 0 then 4 else if d = 1 then 6 else if d = 2 then 4 else 1) else 0

/-- A key with every field `0`. -/
def zeroKey : BlockKey := ⟨0, 0, 0, 0, 0, 0, 0, 0⟩

end ph

namespace crv

/-- Coordinates on `tetMesh` over any field: the vertex `1` at the origin and
the nodes of its three edges `11`, `13` and `14` at the given points. -/
def pivotPoints {R : Type} [LinearOrderedField R] (p11 p13 p14 : Vec3 R) : Points R := fun e =>
  if e = 11 then p11 else if e = 13 then p13 else if e = 14 then p14 else ⟨0, 0, 0⟩

/-- A quality collaborator over any field whose Jacobian determinant is `1` at
every vertex and whose validity check returns the code `v`. -/
def unitQuality {R : Type} [LinearOrderedField R] (v : Int) : Quality R where
  vertexJacobianDet := fun _ _ _ _ => 1
  checkValidity := fun _ _ _ => v

/-! ## Sample data

One tetrahedron and one triangle, with the local numbering in which the edges
of a tetrahedron join the vertex pairs `(0,1) (1,2) (2,0) (0,3) (1,3) (2,3)`
and its faces are `(0,1,2) (0,1,3) (1,2,3) (0,2,3)`. -/

/-- Entry `i` of a list of indices, `0` past its end. -/
def entry (l : List Nat) (i : Nat) : Nat := (l[i]?).getD 0

/-- Tables for the numbering above: the three edges at each vertex, the two
faces at each edge, the edge opposite to each edge. -/
def sampleTables : Tables where
  vertEdges := fun v k => entry (([[3, 0, 2], [0, 4, 1], [1, 5, 2], [3, 5, 4]][v]?).getD []) k
  edgeFaces := fun e k => entry (([[0, 1], [0, 2], [0, 3], [1, 3], [1, 2], [2, 3]][e]?).getD []) k
  oppEdges := entry [5, 3, 4, 1, 2, 0]

/-- A buffer holding the same handle in every slot. -/
def constBuffer (v : Entity) : Buffer := fun _ => v

/-- A 3-D mesh of order 2 made of the tetrahedron `100`, with vertices `1..4`,
edges `11..16` and faces `21..24`. -/
def tetMesh : Mesh where
  dimension := 3
  down := fun e d =>
    if e = 100 ∧ d = 0 then [1, 2, 3, 4]
    else if e = 100 ∧ d = 1 then [11, 12, 13, 14, 15, 16]
    else if e = 100 ∧ d = 2 then [21, 22, 23, 24]
    else if e = 21 ∧ d = 1 then [11, 12, 13]
    else if e = 22 ∧ d = 1 then [11, 15, 14]
    else if e = 23 ∧ d = 1 then [12, 16, 15]
    else if e = 24 ∧ d = 1 then [13, 14, 16]
    else if e = 11 ∧ d = 0 then [1, 2]
    else if e = 12 ∧ d = 0 then [2, 3]
    else if e = 13 ∧ d = 0 then [3, 1]
    else if e = 14 ∧ d = 0 then [1, 4]
    else if e = 15 ∧ d = 0 then [2, 4]
    else if e = 16 ∧ d = 0 then [3, 4]
    else []
  adjacent := fun e d => if 11 ≤ e ∧ e ≤ 16 ∧ d = 3 then [100] else []
  modelType := fun _ => 3
  order := 2
  owned := fun _ => true
  entities := fun d => if d = 3 then [100] else []

/-- A 2-D mesh of order 2 made of the triangle `50`, with vertices `1..3` and
edges `11..13`. -/
def triMesh : Mesh where
  dimension := 2
  down := fun e d =>
    if e = 50 ∧ d = 0 then [1, 2, 3]
    else if e = 50 ∧ d = 1 then [11, 12, 13]
    else if e = 50 ∧ d = 2 then [50]
    else if e = 11 ∧ d = 0 then [1, 2]
    else if e = 12 ∧ d = 0 then [2, 3]
    else if e = 13 ∧ d = 0 then [3, 1]
    else []
  adjacent := fun _ _ => []
  modelType := fun _ => 2
  order := 2
  owned := fun _ => true
  entities := fun d => if d = 2 then [50] else []

/-- A swapper that has classified the tetrahedron `100` with all six edges
`11..16` as candidates and has not swapped yet. -/
def sampleSwapper : EdgeSwapper where
  simplex := 100
  edges := (constBuffer 0).fill [11, 12, 13, 14, 15, 16]
  ne := 6
  ns := 0

/-- A swap operator that succeeds on the edge `13` only and leaves the adapter
as it is. -/
def swapOnly13 (x : Entity) (a : Adapt) : Bool × Adapt := (decide (x = 13), a)

/-- A swap operator that never succeeds and leaves the adapter as it is. -/
def swapNever (_ : Entity) (a : Adapt) : Bool × Adapt := (false, a)

/-- Rational stand-ins for the numerical functions: the square root that is
exact on squares of rationals, and rational approximations of the sine of 20
degrees and of pi. -/
def sampleNumerics : Numerics ℚ where
  sqrt := Rat.sqrt
  sin := fun _ => 171 / 500
  pi := 355 / 113

/-- Coordinates on `tetMesh`: the vertices `1..4` at the origin and at distance
`2` along the three axes, each edge node at the middle of its edge, except that
the node of the edge `11` is placed at `(x,0,0)`. -/
def samplePoints (x : ℚ) : Points ℚ := fun e =>
  if e = 2 then ⟨2, 0, 0⟩
  else if e = 3 then ⟨0, 2, 0⟩
  else if e = 4 then ⟨0, 0, 2⟩
  else if e = 11 then ⟨x, 0, 0⟩
  else if e = 12 then ⟨1, 1, 0⟩
  else if e = 13 then ⟨0, 1, 0⟩
  else if e = 14 then ⟨0, 0, 1⟩
  else if e = 15 then ⟨1, 0, 1⟩
  else if e = 16 then ⟨0, 1, 1⟩
  else ⟨0, 0, 0⟩

/-- A quality collaborator whose Jacobian determinant is `1` at every vertex and
whose validity check returns the code `v` for every element. -/
def constQuality (v : Int) : Quality ℚ where
  vertexJacobianDet := fun _ _ _ _ => 1
  checkValidity := fun _ _ _ => v

/-- Local arrays holding the handle `77` in every slot. -/
def sampleLocals : Locals where
  verts := constBuffer 77
  edges := constBuffer 77
  edgeVerts := constBuffer 77

/-- An adapter on `tetMesh` in which the tetrahedron carries the tag `20`
(defect of dimension 3) and no flag is set. -/
def tetAdapt : Adapt where
  mesh := tetMesh
  tags := fun e => if e = 100 then some 20 else none
  flags := fun _ _ => false

/-- Collaborators of a run on one process in which the tagging pass leaves the
tags as they are and reports one invalid element. -/
def sampleCollaborators : Collaborators where
  markInvalidEntities := fun a => (1, a)
  PCU_Add_Long := fun n => n

/-- A 2-D mesh of order 2 made of the triangle `50` whose edges `11` and `12`
lie on the model boundary and whose edge `13` is interior. -/
def reflexTriMesh : Mesh where
  dimension := 2
  down := fun e d =>
    if e = 50 ∧ d = 0 then [1, 2, 3]
    else if e = 50 ∧ d = 1 then [11, 12, 13]
    else if e = 11 ∧ d = 0 then [1, 2]
    else if e = 12 ∧ d = 0 then [2, 3]
    else if e = 13 ∧ d = 0 then [3, 1]
    else []
  adjacent := fun _ _ => []
  modelType := fun e => if e = 11 ∨ e = 12 then 1 else 2
  order := 2
  owned := fun _ => true
  entities := fun d => if d = 2 then [50] else []
  type := fun e => if 11 ≤ e ∧ e ≤ 13 then 1 else if e = 50 then 2 else 0

/-- A 3-D mesh of order 2 made of the tetrahedron `100` of `tetMesh`, whose
faces `21` and `22` and their common edge `11` lie on the model boundary. -/
def wedgeTetMesh : Mesh where
  dimension := 3
  down := tetMesh.down
  adjacent := tetMesh.adjacent
  modelType := fun e => if e = 21 ∨ e = 22 ∨ e = 11 then 2 else 3
  order := 2
  owned := fun _ => true
  entities := fun d => if d = 3 then [100] else if d = 2 then [21, 22, 23, 24] else []
  up := fun e => if 21 ≤ e ∧ e ≤ 24 then [100] else []
  type := fun e => if 11 ≤ e ∧ e ≤ 16 then 1 else if e = 100 then 4 else 0

/-- Geometry in which the corner at the vertex of local index `1` of the
triangle `50` is reflex (the corner normal is opposite to the face normal) and
all sampled face normals are equal. -/
def reflexGeometry : AngleGeometry ℚ where
  nodes := fun _ i => if i = 4 then ⟨0, 1, 0⟩ else if i = 3 then ⟨1, 0, 0⟩ else ⟨0, 0, 0⟩
  triNormal := fun _ => ⟨0, 0, 1⟩
  validQuality := 0
  vertexJacobianDet := fun _ _ => 1
  sampleNormal := fun _ _ _ => ⟨0, 0, 1⟩

/-- Local arrays of the detector holding the handle `77` in every slot. -/
def sampleAngleLocals : Entity → AngleLocals := fun _ =>
  { triVerts := constBuffer 77, verts := constBuffer 77, triEdges := constBuffer 77,
    faces := constBuffer 77, tetEdges := constBuffer 77 }

/-- An adapter on `reflexTriMesh` without tags and flags. -/
def reflexAdapt : Adapt where
  mesh := reflexTriMesh
  tags := fun _ => none
  flags := fun _ _ => false

/-- An adapter on `wedgeTetMesh` without tags and flags. -/
def wedgeAdapt : Adapt where
  mesh := wedgeTetMesh
  tags := fun _ => none
  flags := fun _ _ => false

/-- The mesh `tetMesh` with shape order 3. -/
def cubicTetMesh : Mesh := { tetMesh with order := 3 }

/-- An adapter on `cubicTetMesh` in which the tetrahedron carries the tag `20`. -/
def cubicTetAdapt : Adapt where
  mesh := cubicTetMesh
  tags := fun e => if e = 100 then some 20 else none
  flags := fun _ _ => false

/-- The mesh `tetMesh` with the edge `12` classified on the model boundary. -/
def boundaryTetMesh : Mesh := { tetMesh with modelType := fun e => if e = 12 then 1 else 3 }

/-- An adapter on `boundaryTetMesh` in which the tetrahedron carries the tag
`20` and the edges `11` and `12` carry `BAD_QUALITY`. -/
def boundaryTetAdapt : Adapt where
  mesh := boundaryTetMesh
  tags := fun e => if e = 100 then some 20 else none
  flags := fun e f => decide ((e = 11 ∨ e = 12) ∧ f = Flag.BAD_QUALITY)

/-- A reshaper that has classified the tetrahedron `100` with the candidate
edges `12` and `11`, in this order, and has not repositioned yet. -/
def sampleReshaper : EdgeReshaper where
  simplex := 100
  edges := (constBuffer 0).fill [12, 11]
  ne := 2
  nr := 0

/-- Collaborators of a run on one process in which the tagging pass finds no
invalid element. -/
def quietCollaborators : Collaborators where
  markInvalidEntities := fun a => (0, a)
  PCU_Add_Long := fun n => n

/-- Engines that leave the state as it is, find the flags consistent and
collapse nothing. -/
def sampleEngines : Engines Unit where
  splitEdges := fun w => w
  applyReshaper := fun w => .ok w
  applySwapper := fun w => .ok w
  checkFlagConsistency := fun _ _ _ => true
  checkAllEdgeCollapses := fun w _ => w
  findIndependentSet := fun w => w
  collapseAllEdges := fun w _ => (0, w)

/-- The adapter `tetAdapt` after the six edges `11..16` of the tetrahedron have
been flagged `BAD_QUALITY|COLLAPSE`. -/
def markedTetAdapt : Adapt :=
  [11, 12, 13, 14, 15, 16].foldl
    (fun a x => setFlag a x [Flag.BAD_QUALITY, Flag.COLLAPSE]) tetAdapt

theorem tagDim_eq (tag : Int) (h : 1 < tag) : tagDim tag = (tag - 2) / 6 := by
  unfold tagDim
  exact Int.tdiv_eq_ediv (by omega) (by decide)

theorem tagIndex_eq (tag : Int) (h : 1 < tag) : tagIndex tag = (tag - 2) % 6 := by
  unfold tagIndex
  exact Int.tmod_eq_emod (by omega) (by decide)

theorem Buffer.fill_of_getElem? (buf : Buffer) (l : List Entity) (k : Nat) (x : Entity)
    (h : l[k]? = some x) : buf.fill l k = x := by
  simp [Buffer.fill, h]

theorem Buffer.set_of_ne (buf : Buffer) (i k : Nat) (v : Entity) (h : k ≠ i) :
    buf.set i v k = buf k := by
  simp [Buffer.set, h]

/-- C1. For a tag `≤ 1` (negative tags included) `markEdges` returns `0` and
hands back the buffer of the caller with every slot as it was, whatever the
element and whatever the buffer held. -/
theorem markEdges_valid_tag (T : Tables) (m : Mesh) (e : Entity) (tag : Int)
    (edges ed0 faces0 : Buffer) (h : tag ≤ 1) :
    markEdges T m e tag edges ed0 faces0 = .ok (0, edges) := by
  simp [markEdges, h]

theorem markEdges_valid_tag_witness :
    ((-7 : Int) ≤ 1) ∧
      markEdges sampleTables tetMesh 100 (-7) (constBuffer 9) (constBuffer 77) (constBuffer 78)
        = .ok (0, constBuffer 9) :=
  ⟨by decide, markEdges_valid_tag sampleTables tetMesh 100 (-7) (constBuffer 9) (constBuffer 77)
    (constBuffer 78) (by decide)⟩

/-- C2, as amended. For an element with more than `k` downward edges (`k` in
`0..5`), `markEdges` called with the tag `8 + k` returns `1` and stores the
`k`-th downward edge of the element in slot `0`; every other slot of the buffer
keeps its content. -/
theorem markEdges_edge_tag (T : Tables) (m : Mesh) (e : Entity) (k : Nat)
    (edges ed0 faces0 : Buffer) (hk : k < 6) (hlen : k < (m.down e 1).length) :
    ∃ x buf, (m.down e 1)[k]? = some x ∧
      markEdges T m e (8 + (k : Int)) edges ed0 faces0 = .ok (1, buf) ∧
      buf 0 = x ∧ ∀ i, i ≠ 0 → buf i = edges i := by
  obtain ⟨x, hx⟩ : ∃ x, (m.down e 1)[k]? = some x :=
    ⟨(m.down e 1).get ⟨k, hlen⟩, by simp⟩
  have htag : (1 : Int) < 8 + (k : Int) := by omega
  have hdim : tagDim (8 + (k : Int)) = 1 := by rw [tagDim_eq _ htag]; omega
  have hidx : (tagIndex (8 + (k : Int))).toNat = k := by rw [tagIndex_eq _ htag]; omega
  refine ⟨x, edges.set 0 (ed0.fill (m.down e 1) k), hx, ?_, ?_, ?_⟩
  · have h1 : ¬ (8 + (k : Int) ≤ 1) := by omega
    simp [markEdges, h1, hdim, hidx, Mesh.getDownward]
  · simp [Buffer.set, Buffer.fill, hx]
  · intro i hi
    exact Buffer.set_of_ne _ _ _ _ hi

theorem markEdges_edge_tag_witness :
    ∃ x buf, (tetMesh.down 100 1)[4]? = some x ∧
      markEdges sampleTables tetMesh 100 (8 + ((4 : Nat) : Int)) (constBuffer 9) (constBuffer 77)
        (constBuffer 78) = .ok (1, buf) ∧
      buf 0 = x ∧ ∀ i, i ≠ 0 → buf i = constBuffer 9 i :=
  markEdges_edge_tag sampleTables tetMesh 100 4 (constBuffer 9) (constBuffer 77) (constBuffer 78)
    (by decide) (by decide)

/-- C2, as stated, fails on an element with fewer than `k+1` edges. On the
triangle `50`, whose downward edges are `11, 12, 13`, the tag `8 + 3` makes
`markEdges` return `1` and store in slot `0` the content of slot `3` of its
local array `ed`, which the adjacency query has not filled (here the handle
`77` the array held before): the triangle has no edge of index `3`, and what is
stored is none of its edges. -/
theorem markEdges_edge_tag_short_element :
    (markEdges sampleTables triMesh 50 (8 + 3) (constBuffer 9) (constBuffer 77)
        (constBuffer 78)).map (fun r => (r.1, r.2 0)) = .ok (1, 77) ∧
      (triMesh.down 50 1)[3]? = none ∧ 77 ∉ triMesh.down 50 1 := by
  decide

/-- C3. On a tag in `2..25` on which `markEdges` completes, the returned count
follows from the decoded dimension `(tag-2)/6`, which is one of `0, 1, 2, 3`:
for `0` it is the mesh dimension (`2` on a 2-D mesh, `3` on a 3-D mesh), for
`1` it is `1`, for `2` it is `3`, for `3` it is `6`; on a 2-D or 3-D mesh it
lies between `1` and `6`. -/
theorem markEdges_count (T : Tables) (m : Mesh) (e : Entity) (tag : Int)
    (edges ed0 faces0 : Buffer) (n : Int) (buf : Buffer) (h2 : 2 ≤ tag) (h25 : tag ≤ 25)
    (hok : markEdges T m e tag edges ed0 faces0 = .ok (n, buf)) :
    tagDim tag = (tag - 2) / 6 ∧ 0 ≤ tagDim tag ∧ tagDim tag ≤ 3 ∧
      (tagDim tag = 0 → m.dimension = 2 → n = 2) ∧
      (tagDim tag = 0 → m.dimension = 3 → n = 3) ∧
      (tagDim tag = 1 → n = 1) ∧
      (tagDim tag = 2 → n = 3) ∧
      (tagDim tag = 3 → n = 6) ∧
      (m.dimension = 2 ∨ m.dimension = 3 → 1 ≤ n ∧ n ≤ 6) := by
  have hd := tagDim_eq tag (by omega)
  have h1 : ¬ tag ≤ 1 := by omega
  have hlo : 0 ≤ tagDim tag := by rw [hd]; omega
  have hhi : tagDim tag ≤ 3 := by rw [hd]; omega
  refine ⟨hd, hlo, hhi, ?_⟩
  simp only [markEdges, h1, if_false] at hok
  by_cases d0 : tagDim tag = 0
  · simp only [d0, if_true] at hok
    by_cases hmd : m.dimension = 2
    · simp only [hmd, if_true, Except.ok.injEq, Prod.mk.injEq] at hok
      have hn : n = 2 := hok.1.symm
      simp [d0, hmd, hn]
    · simp only [hmd, if_false] at hok
      by_cases hi : tagIndex tag < 4
      · simp only [hi, if_true, Except.ok.injEq, Prod.mk.injEq] at hok
        have hn : n = m.dimension := hok.1.symm
        simp only [d0, hn]
        refine ⟨fun _ h => absurd h hmd, fun _ h => h, by omega, by omega, by omega, ?_⟩
        rintro (h | h)
        · exact absurd h hmd
        · omega
      · simp [hi] at hok
  · simp only [d0, if_false] at hok
    by_cases d1 : tagDim tag = 1
    · simp only [d1, if_true, Except.ok.injEq, Prod.mk.injEq] at hok
      have hn : n = 1 := hok.1.symm
      simp [d1, hn]
    · simp only [d1, if_false] at hok
      by_cases d2 : tagDim tag = 2
      · simp only [d2, if_true, Except.ok.injEq, Prod.mk.injEq] at hok
        have hn : n = 3 := hok.1.symm
        simp [d2, hn]
      · simp only [d2, if_false] at hok
        by_cases d3 : tagDim tag = 3
        · simp only [d3, if_true, Except.ok.injEq, Prod.mk.injEq] at hok
          have hn : n = 6 := hok.1.symm
          simp [d3, hn]
        · omega

theorem markEdges_count_witness :
    ((2 : Int) ≤ 20) ∧ ((20 : Int) ≤ 25) ∧
      markEdges sampleTables tetMesh 100 20 (constBuffer 9) (constBuffer 77) (constBuffer 78)
        = .ok (6, (tetMesh.getDownward 100 1 (constBuffer 9)).2) ∧
      (tagDim 20 = (20 - 2) / 6 ∧ 0 ≤ tagDim 20 ∧ tagDim 20 ≤ 3 ∧
        (tagDim 20 = 0 → tetMesh.dimension = 2 → (6 : Int) = 2) ∧
        (tagDim 20 = 0 → tetMesh.dimension = 3 → (6 : Int) = 3) ∧
        (tagDim 20 = 1 → (6 : Int) = 1) ∧
        (tagDim 20 = 2 → (6 : Int) = 3) ∧
        (tagDim 20 = 3 → (6 : Int) = 6) ∧
        (tetMesh.dimension = 2 ∨ tetMesh.dimension = 3 → 1 ≤ (6 : Int) ∧ (6 : Int) ≤ 6)) :=
  ⟨by decide, by decide, rfl,
    markEdges_count sampleTables tetMesh 100 20 (constBuffer 9) (constBuffer 77) (constBuffer 78)
      6 (tetMesh.getDownward 100 1 (constBuffer 9)).2 (by decide) (by decide) rfl⟩

/-- C4. `markEdges` ends with the fatal error "invalid quality tag" exactly when
the tag is `≥ 26`, which is exactly when the tag exceeds `1` and the decoded
dimension `(tag-2)/6` is none of `0, 1, 2, 3`; no tag `≤ 25` raises it. -/
theorem markEdges_fatal_iff (T : Tables) (m : Mesh) (e : Entity) (tag : Int)
    (edges ed0 faces0 : Buffer) :
    (markEdges T m e tag edges ed0 faces0 = .error .invalidQualityTag ↔ 26 ≤ tag) ∧
      (markEdges T m e tag edges ed0 faces0 = .error .invalidQualityTag ↔
        1 < tag ∧ tagDim tag ≠ 0 ∧ tagDim tag ≠ 1 ∧ tagDim tag ≠ 2 ∧ tagDim tag ≠ 3) := by
  by_cases h1 : tag ≤ 1
  · have hlt : ¬ (1 < tag) := by omega
    have h26 : ¬ (26 ≤ tag) := by omega
    simp [markEdges, h1, hlt, h26]
  · have hd := tagDim_eq tag (by omega)
    have key : markEdges T m e tag edges ed0 faces0 = .error .invalidQualityTag ↔
        tagDim tag ≠ 0 ∧ tagDim tag ≠ 1 ∧ tagDim tag ≠ 2 ∧ tagDim tag ≠ 3 := by
      simp only [markEdges, h1, if_false]
      by_cases d0 : tagDim tag = 0
      · simp only [d0, if_true]
        split_ifs <;> simp
      · by_cases d1 : tagDim tag = 1
        · simp [d1]
        · by_cases d2 : tagDim tag = 2
          · simp [d2]
          · by_cases d3 : tagDim tag = 3
            · simp [d3]
            · simp [d0, d1, d2, d3]
    constructor
    · rw [key, hd]; omega
    · rw [key]
      constructor
      · intro h; exact ⟨by omega, h⟩
      · intro h; exact h.2

theorem Buffer.fill_of_le (buf : Buffer) (l : List Entity) (i : Nat) (h : l.length ≤ i) :
    buf.fill l i = buf i := by
  simp [Buffer.fill, List.getElem?_eq_none h]

/-- On a 2-D or 3-D mesh whose element has at most six edges, a call of
`markEdges` that completes returns at most `6` and leaves every slot from `6` on
untouched: a buffer of six slots, as the two operators pass, is large enough. -/
theorem markEdges_within_six (T : Tables) (m : Mesh) (e : Entity) (tag : Int)
    (edges ed0 faces0 : Buffer) (n : Int) (buf : Buffer)
    (hmd : m.dimension = 2 ∨ m.dimension = 3) (hlen : (m.down e 1).length ≤ 6)
    (hok : markEdges T m e tag edges ed0 faces0 = .ok (n, buf)) :
    n ≤ 6 ∧ ∀ i, 6 ≤ i → buf i = edges i := by
  have hset1 : ∀ (b : Buffer) (v : Entity) (i : Nat), 6 ≤ i → (b.set 0 v) i = b i :=
    fun b v i hi => Buffer.set_of_ne b 0 i v (by omega)
  have hset2 : ∀ (b : Buffer) (v w : Entity) (i : Nat), 6 ≤ i →
      ((b.set 0 v).set 1 w) i = b i :=
    fun b v w i hi => (Buffer.set_of_ne _ 1 i w (by omega)).trans (hset1 b v i hi)
  have hset3 : ∀ (b : Buffer) (u v w : Entity) (i : Nat), 6 ≤ i →
      (((b.set 0 u).set 1 v).set 2 w) i = b i :=
    fun b u v w i hi => (Buffer.set_of_ne _ 2 i w (by omega)).trans (hset2 b u v i hi)
  simp only [markEdges] at hok
  by_cases h1 : tag ≤ 1
  · simp only [h1, if_true, Except.ok.injEq, Prod.mk.injEq] at hok
    obtain ⟨hn, hb⟩ := hok
    subst hn; subst hb
    exact ⟨by omega, fun _ _ => rfl⟩
  · simp only [h1, if_false] at hok
    by_cases d0 : tagDim tag = 0
    · simp only [d0, if_true] at hok
      by_cases h2 : m.dimension = 2
      · simp only [h2, if_true, Except.ok.injEq, Prod.mk.injEq] at hok
        obtain ⟨hn, hb⟩ := hok
        subst hn; subst hb
        exact ⟨by omega, fun i hi => hset2 _ _ _ i hi⟩
      · simp only [h2, if_false] at hok
        by_cases hi4 : tagIndex tag < 4
        · simp only [hi4, if_true, Except.ok.injEq, Prod.mk.injEq] at hok
          obtain ⟨hn, hb⟩ := hok
          subst hn; subst hb
          exact ⟨by omega, fun i hi => hset3 _ _ _ _ i hi⟩
        · simp [hi4] at hok
    · simp only [d0, if_false] at hok
      by_cases d1 : tagDim tag = 1
      · simp only [d1, if_true, Except.ok.injEq, Prod.mk.injEq] at hok
        obtain ⟨hn, hb⟩ := hok
        subst hn; subst hb
        exact ⟨by omega, fun i hi => hset1 _ _ i hi⟩
      · simp only [d1, if_false] at hok
        by_cases d2 : tagDim tag = 2
        · simp only [d2, if_true, Except.ok.injEq, Prod.mk.injEq] at hok
          obtain ⟨hn, hb⟩ := hok
          subst hn; subst hb
          exact ⟨by omega, fun i hi => hset3 _ _ _ _ i hi⟩
        · simp only [d2, if_false] at hok
          by_cases d3 : tagDim tag = 3
          · simp only [d3, if_true, Except.ok.injEq, Prod.mk.injEq] at hok
            obtain ⟨hn, hb⟩ := hok
            subst hn; subst hb
            exact ⟨by omega, fun i hi => Buffer.fill_of_le _ _ _ (by omega)⟩
          · simp [d3] at hok

/-- C5 fails in `markEdgesToFix`. Its local buffer has 3 slots, while on a
tetrahedron tagged `20` (defect of dimension 3) the call of `markEdges` it makes
returns `6` and writes the slots `3, 4, 5` as well; the loop that follows reads
all six entries, so that the six edges `11..16` end up flagged and counted. -/
theorem markEdgesToFix_buffer_overrun :
    markEdgesToFix.edgesCapacity = 3 ∧ EdgeSwapper.edgesCapacity = 6 ∧
      getTag tetAdapt 100 = 20 ∧
      (markEdges sampleTables tetAdapt.mesh 100 (getTag tetAdapt 100) (constBuffer 0)
          (constBuffer 77) (constBuffer 78)).map (fun r => (r.1, [r.2 3, r.2 4, r.2 5]))
        = .ok (6, [14, 15, 16]) ∧
      (markEdgesToFix sampleCollaborators sampleTables (fun _ => constBuffer 77)
          (fun _ => constBuffer 78) (constBuffer 0) tetAdapt
          [Flag.BAD_QUALITY, Flag.COLLAPSE]).map
          (fun r => (r.1, [14, 15, 16].map (fun x => getFlag r.2 x [Flag.BAD_QUALITY])))
        = .ok (6, [true, true, true]) := by
  decide

/-! ## Properties of the edge swapper -/

theorem Buffer.slice_length (buf : Buffer) (k i : Nat) : (buf.slice k i).length = k := by
  induction k generalizing i with
  | zero => rfl
  | succ k ih => simp [Buffer.slice, ih]

theorem afterRuns_succ (run : Entity → Adapt → Bool × Adapt) (edges : Buffer) (k i : Nat)
    (a : Adapt) :
    afterRuns run edges (k + 1) i a = (run (edges (i + k)) (afterRuns run edges k i a)).2 := by
  induction k generalizing i a with
  | zero => rfl
  | succ k ih =>
    have h := ih (i + 1) (run (edges i) a).2
    have e : i + 1 + k = i + (k + 1) := by omega
    rw [e] at h
    exact h

/-- The loop of `apply` when the first success is `j` iterations ahead. -/
theorem EdgeSwapper.applyFrom_first_success (run : Entity → Adapt → Bool × Adapt)
    (sw : EdgeSwapper) (j : Nat) : ∀ (k i : Nat) (a : Adapt), j < k →
    (∀ t, t < j → (run (sw.edges (i + t)) (afterRuns run sw.edges t i a)).1 = false) →
    (run (sw.edges (i + j)) (afterRuns run sw.edges j i a)).1 = true →
    EdgeSwapper.applyFrom run sw k i a =
      ({ sw with ns := sw.ns + 1 },
        clearFlag (clearTag (afterRuns run sw.edges (j + 1) i a) sw.simplex) (sw.edges (i + j))
          [Flag.COLLAPSE, Flag.BAD_QUALITY],
        sw.edges.slice (j + 1) i) := by
  induction j with
  | zero =>
    intro k i a hk _ hs
    obtain ⟨k, rfl⟩ : ∃ n, k = n + 1 := ⟨k - 1, by omega⟩
    have hs1 : (run (sw.edges i) a).1 = true := hs
    simp [EdgeSwapper.applyFrom, hs1, afterRuns, Buffer.slice]
  | succ j ih =>
    intro k i a hk hf hs
    obtain ⟨k, rfl⟩ : ∃ n, k = n + 1 := ⟨k - 1, by omega⟩
    have h0 : (run (sw.edges i) a).1 = false := hf 0 (by omega)
    have hf1 : ∀ t, t < j →
        (run (sw.edges (i + 1 + t)) (afterRuns run sw.edges t (i + 1) (run (sw.edges i) a).2)).1
          = false := by
      intro t ht
      have h := hf (t + 1) (by omega)
      have e : i + (t + 1) = i + 1 + t := by omega
      rw [e] at h
      exact h
    have hs1 : (run (sw.edges (i + 1 + j))
        (afterRuns run sw.edges j (i + 1) (run (sw.edges i) a).2)).1 = true := by
      have e : i + (j + 1) = i + 1 + j := by omega
      rw [e] at hs
      exact hs
    have hrec := ih k (i + 1) (run (sw.edges i) a).2 (by omega) hf1 hs1
    have e : i + 1 + j = i + (j + 1) := by omega
    rw [e] at hrec
    have hunf : EdgeSwapper.applyFrom run sw (k + 1) i a =
        ((EdgeSwapper.applyFrom run sw k (i + 1) (run (sw.edges i) a).2).1,
          (EdgeSwapper.applyFrom run sw k (i + 1) (run (sw.edges i) a).2).2.1,
          sw.edges i :: (EdgeSwapper.applyFrom run sw k (i + 1) (run (sw.edges i) a).2).2.2) := by
      simp [EdgeSwapper.applyFrom, h0]
    rw [hunf, hrec]
    rfl

/-- The loop of `apply` when none of the remaining swaps succeeds. -/
theorem EdgeSwapper.applyFrom_no_success (run : Entity → Adapt → Bool × Adapt)
    (sw : EdgeSwapper) : ∀ (k i : Nat) (a : Adapt),
    (∀ t, t < k → (run (sw.edges (i + t)) (afterRuns run sw.edges t i a)).1 = false) →
    EdgeSwapper.applyFrom run sw k i a =
      (sw, afterRuns run sw.edges k i a, sw.edges.slice k i) := by
  intro k
  induction k with
  | zero => intro i a _; rfl
  | succ k ih =>
    intro i a hf
    have h0 : (run (sw.edges i) a).1 = false := hf 0 (by omega)
    have hf1 : ∀ t, t < k →
        (run (sw.edges (i + 1 + t)) (afterRuns run sw.edges t (i + 1) (run (sw.edges i) a).2)).1
          = false := by
      intro t ht
      have h := hf (t + 1) (by omega)
      have e : i + (t + 1) = i + 1 + t := by omega
      rw [e] at h
      exact h
    have hrec := ih (i + 1) (run (sw.edges i) a).2 hf1
    simp [EdgeSwapper.applyFrom, h0, hrec, afterRuns, Buffer.slice]

/-- A sequence of failed swaps that each leave tags and flags as they were leaves
them as they were. -/
theorem afterRuns_frame (run : Entity → Adapt → Bool × Adapt) (edges : Buffer)
    (hframe : ∀ x s, (run x s).1 = false →
      (run x s).2.tags = s.tags ∧ (run x s).2.flags = s.flags) :
    ∀ (k i : Nat) (a : Adapt),
    (∀ t, t < k → (run (edges (i + t)) (afterRuns run edges t i a)).1 = false) →
    (afterRuns run edges k i a).tags = a.tags ∧ (afterRuns run edges k i a).flags = a.flags := by
  intro k
  induction k with
  | zero => intro i a _; exact ⟨rfl, rfl⟩
  | succ k ih =>
    intro i a hf
    have hprev := ih i a (fun t ht => hf t (by omega))
    have hk := hf k (by omega)
    have hfr := hframe _ _ hk
    rw [afterRuns_succ]
    exact ⟨hfr.1.trans hprev.1, hfr.2.trans hprev.2⟩

/-- C6. `EdgeSwapper::apply` tries the candidate edges in buffer order and stops
at the first success. If `j < ne` is the lowest index at which the swap
succeeds (each swap running on the adapter its predecessors left), then the
swap operator has been called on the slots `0..j` in this order and on nothing
else, `ns` has grown by exactly `1`, and the adapter is the one the `j+1` swap
calls produced with the tag of the element cleared and `COLLAPSE|BAD_QUALITY`
cleared on `edges[j]`: the other flag of that edge and every flag of every
other entity are as the swap calls left them. -/
theorem EdgeSwapper_apply_first_success (run : Entity → Adapt → Bool × Adapt)
    (sw : EdgeSwapper) (a : Adapt) (j : Nat) (hj : (j : Int) < sw.ne)
    (hfail : ∀ i, i < j → (run (sw.edges i) (afterRuns run sw.edges i 0 a)).1 = false)
    (hsucc : (run (sw.edges j) (afterRuns run sw.edges j 0 a)).1 = true) :
    (EdgeSwapper.apply run sw a).2.2 = sw.edges.slice (j + 1) 0 ∧
      (EdgeSwapper.apply run sw a).2.2.length = j + 1 ∧
      (EdgeSwapper.apply run sw a).1.ns = sw.ns + 1 ∧
      (EdgeSwapper.apply run sw a).2.1 =
        clearFlag (clearTag (afterRuns run sw.edges (j + 1) 0 a) sw.simplex) (sw.edges j)
          [Flag.COLLAPSE, Flag.BAD_QUALITY] ∧
      (EdgeSwapper.apply run sw a).2.1.tags sw.simplex = none ∧
      (EdgeSwapper.apply run sw a).2.1.flags (sw.edges j) Flag.COLLAPSE = false ∧
      (EdgeSwapper.apply run sw a).2.1.flags (sw.edges j) Flag.BAD_QUALITY = false ∧
      (EdgeSwapper.apply run sw a).2.1.flags (sw.edges j) Flag.SPLIT =
        (afterRuns run sw.edges (j + 1) 0 a).flags (sw.edges j) Flag.SPLIT ∧
      ∀ x f, x ≠ sw.edges j →
        (EdgeSwapper.apply run sw a).2.1.flags x f =
          (afterRuns run sw.edges (j + 1) 0 a).flags x f := by
  have hk : j < sw.ne.toNat := by omega
  have hf : ∀ t, t < j →
      (run (sw.edges (0 + t)) (afterRuns run sw.edges t 0 a)).1 = false := by
    intro t ht
    rw [Nat.zero_add]
    exact hfail t ht
  have hs : (run (sw.edges (0 + j)) (afterRuns run sw.edges j 0 a)).1 = true := by
    rw [Nat.zero_add]
    exact hsucc
  have h := EdgeSwapper.applyFrom_first_success run sw j sw.ne.toNat 0 a hk hf hs
  rw [Nat.zero_add] at h
  unfold EdgeSwapper.apply
  rw [h]
  refine ⟨rfl, Buffer.slice_length _ _ _, rfl, rfl, ?_, ?_, ?_, ?_, ?_⟩
  · simp [clearFlag, clearTag]
  · simp [clearFlag]
  · simp [clearFlag]
  · simp [clearFlag, clearTag]
  · intro x f hx
    simp [clearFlag, clearTag, hx]

theorem EdgeSwapper_apply_first_success_witness :
    (((2 : Nat) : Int) < sampleSwapper.ne) ∧
      (∀ i, i < 2 → (swapOnly13 (sampleSwapper.edges i)
        (afterRuns swapOnly13 sampleSwapper.edges i 0 tetAdapt)).1 = false) ∧
      ((swapOnly13 (sampleSwapper.edges 2)
        (afterRuns swapOnly13 sampleSwapper.edges 2 0 tetAdapt)).1 = true) ∧
      ((EdgeSwapper.apply swapOnly13 sampleSwapper tetAdapt).2.2
          = sampleSwapper.edges.slice (2 + 1) 0 ∧
        (EdgeSwapper.apply swapOnly13 sampleSwapper tetAdapt).2.2.length = 2 + 1 ∧
        (EdgeSwapper.apply swapOnly13 sampleSwapper tetAdapt).1.ns = sampleSwapper.ns + 1 ∧
        (EdgeSwapper.apply swapOnly13 sampleSwapper tetAdapt).2.1 =
          clearFlag (clearTag (afterRuns swapOnly13 sampleSwapper.edges (2 + 1) 0 tetAdapt)
            sampleSwapper.simplex) (sampleSwapper.edges 2) [Flag.COLLAPSE, Flag.BAD_QUALITY] ∧
        (EdgeSwapper.apply swapOnly13 sampleSwapper tetAdapt).2.1.tags sampleSwapper.simplex
          = none ∧
        (EdgeSwapper.apply swapOnly13 sampleSwapper tetAdapt).2.1.flags (sampleSwapper.edges 2)
          Flag.COLLAPSE = false ∧
        (EdgeSwapper.apply swapOnly13 sampleSwapper tetAdapt).2.1.flags (sampleSwapper.edges 2)
          Flag.BAD_QUALITY = false ∧
        (EdgeSwapper.apply swapOnly13 sampleSwapper tetAdapt).2.1.flags (sampleSwapper.edges 2)
          Flag.SPLIT =
          (afterRuns swapOnly13 sampleSwapper.edges (2 + 1) 0 tetAdapt).flags
            (sampleSwapper.edges 2) Flag.SPLIT ∧
        ∀ x f, x ≠ sampleSwapper.edges 2 →
          (EdgeSwapper.apply swapOnly13 sampleSwapper tetAdapt).2.1.flags x f =
            (afterRuns swapOnly13 sampleSwapper.edges (2 + 1) 0 tetAdapt).flags x f) :=
  ⟨by decide, by decide, by decide,
    EdgeSwapper_apply_first_success swapOnly13 sampleSwapper tetAdapt 2 (by decide) (by decide)
      (by decide)⟩

/-- C7. If the swap fails on every one of the `ne` candidate edges,
`EdgeSwapper::apply` returns the swapper as it was (`ns` unchanged) and the
adapter exactly as the `ne` failed swap calls left it: it clears no tag and no
flag itself. Hence, when a failed swap leaves tags and flags as they were, the
tag of the element is still set and every flag of every entity is as before. -/
theorem EdgeSwapper_apply_no_success (run : Entity → Adapt → Bool × Adapt)
    (sw : EdgeSwapper) (a : Adapt)
    (hfail : ∀ i : Nat, (i : Int) < sw.ne →
      (run (sw.edges i) (afterRuns run sw.edges i 0 a)).1 = false) :
    (EdgeSwapper.apply run sw a).1 = sw ∧
      (EdgeSwapper.apply run sw a).1.ns = sw.ns ∧
      (EdgeSwapper.apply run sw a).2.1 = afterRuns run sw.edges sw.ne.toNat 0 a ∧
      ((∀ x s, (run x s).1 = false →
          (run x s).2.tags = s.tags ∧ (run x s).2.flags = s.flags) →
        (EdgeSwapper.apply run sw a).2.1.tags = a.tags ∧
        (EdgeSwapper.apply run sw a).2.1.tags sw.simplex = a.tags sw.simplex ∧
        (EdgeSwapper.apply run sw a).2.1.flags = a.flags) := by
  have hf : ∀ t, t < sw.ne.toNat →
      (run (sw.edges (0 + t)) (afterRuns run sw.edges t 0 a)).1 = false := by
    intro t ht
    rw [Nat.zero_add]
    exact hfail t (by omega)
  have h := EdgeSwapper.applyFrom_no_success run sw sw.ne.toNat 0 a hf
  unfold EdgeSwapper.apply
  rw [h]
  refine ⟨rfl, rfl, rfl, ?_⟩
  intro hframe
  have hfr := afterRuns_frame run sw.edges hframe sw.ne.toNat 0 a hf
  exact ⟨hfr.1, congrFun hfr.1 sw.simplex, hfr.2⟩

theorem EdgeSwapper_apply_no_success_witness :
    (∀ i : Nat, (i : Int) < sampleSwapper.ne →
      (swapNever (sampleSwapper.edges i)
        (afterRuns swapNever sampleSwapper.edges i 0 tetAdapt)).1 = false) ∧
      ((EdgeSwapper.apply swapNever sampleSwapper tetAdapt).1 = sampleSwapper ∧
        (EdgeSwapper.apply swapNever sampleSwapper tetAdapt).1.ns = sampleSwapper.ns ∧
        (EdgeSwapper.apply swapNever sampleSwapper tetAdapt).2.1 =
          afterRuns swapNever sampleSwapper.edges sampleSwapper.ne.toNat 0 tetAdapt ∧
        ((∀ x s, (swapNever x s).1 = false →
            (swapNever x s).2.tags = s.tags ∧ (swapNever x s).2.flags = s.flags) →
          (EdgeSwapper.apply swapNever sampleSwapper tetAdapt).2.1.tags = tetAdapt.tags ∧
          (EdgeSwapper.apply swapNever sampleSwapper tetAdapt).2.1.tags sampleSwapper.simplex
            = tetAdapt.tags sampleSwapper.simplex ∧
          (EdgeSwapper.apply swapNever sampleSwapper tetAdapt).2.1.flags = tetAdapt.flags)) :=
  ⟨fun _ _ => rfl,
    EdgeSwapper_apply_no_success swapNever sampleSwapper tetAdapt (fun _ _ => rfl)⟩

/-! ## Properties of the edge reshaper -/

section Reshaper

variable {R : Type} [LinearOrderedField R]

omit [LinearOrderedField R] in
theorem setPoint_restore (pts : Points R) (e : Entity) (v : Vec3 R) :
    setPoint (setPoint pts e v) e (pts e) = pts := by
  funext x
  by_cases h : x = e
  · simp [setPoint, h]
  · simp [setPoint, h]

theorem sample_sqrt_one : Rat.sqrt 1 = 1 := by
  have h : Rat.sqrt (1 * 1) = |1| := Rat.sqrt_eq 1
  rw [mul_one, abs_one] at h
  exact h

/-- The configuration `repositionEdge` computes for the edge `11` of the sample
tetrahedron: pivot at the origin, normal `(1,0,0)`, validity `x`. -/
theorem sample_configuration (x : ℚ) (v : Int) :
    EdgeReshaper.configuration sampleTables sampleNumerics (constQuality v) tetMesh 100
        sampleLocals (samplePoints x) 11
      = .ok ⟨⟨0, 0, 0⟩, ⟨x, 0, 0⟩, ⟨1, 0, 0⟩, 1, x⟩ := by
  simp [EdgeReshaper.configuration, findIn, findInFrom, Mesh.getDownward, Buffer.fill, tetMesh,
    sampleLocals, constBuffer, samplePoints, sampleTables, entry, constQuality, Vec3.sub,
    Vec3.cross, Vec3.dot, Vec3.getLength, sampleNumerics, sample_sqrt_one]

/-- C8. On a mesh of order 2, for every edge and pivot configuration whose
`validity` (the dot product of the flagged edge vector with the normal) exceeds
`1e-10`, `repositionEdge` returns failure and hands back the coordinates it was
given: no point has been written, the control point of the edge is as before. -/
theorem repositionEdge_positive_validity (T : Tables) (N : Numerics R) (Q : Quality R)
    (m : Mesh) (simplex : Entity) (L : Locals) (pts : Points R) (edge : Entity)
    (c : Configuration R) (hP : m.order = 2)
    (hc : EdgeReshaper.configuration T N Q m simplex L pts edge = .ok c)
    (hv : c.validity > 1 / 10 ^ 10) :
    EdgeReshaper.repositionEdge T N Q m simplex L pts edge = .ok (false, pts) := by
  simp only [EdgeReshaper.repositionEdge, hP, hc]
  rw [if_neg (by decide), if_pos hv]

theorem repositionEdge_positive_validity_witness :
    tetMesh.order = 2 ∧
      EdgeReshaper.configuration sampleTables sampleNumerics (constQuality 0) tetMesh 100
          sampleLocals (samplePoints 1) 11
        = .ok ⟨⟨0, 0, 0⟩, ⟨1, 0, 0⟩, ⟨1, 0, 0⟩, 1, 1⟩ ∧
      ((1 : ℚ) > 1 / 10 ^ 10) ∧
      EdgeReshaper.repositionEdge sampleTables sampleNumerics (constQuality 0) tetMesh 100
          sampleLocals (samplePoints 1) 11
        = .ok (false, samplePoints 1) :=
  ⟨rfl, sample_configuration 1 0, by norm_num,
    repositionEdge_positive_validity sampleTables sampleNumerics (constQuality 0) tetMesh 100
      sampleLocals (samplePoints 1) 11 ⟨⟨0, 0, 0⟩, ⟨1, 0, 0⟩, ⟨1, 0, 0⟩, 1, 1⟩ rfl
      (sample_configuration 1 0) (by norm_num)⟩

/-- C9. Once the new control point has been written (order 2, configuration
computed, `validity` not above `1e-10`), if the validity check flags some
element adjacent to the edge, that is returns a positive code for it, which is
the test of line 284, then `repositionEdge` returns failure and the coordinates
after the call are those before the call: the control point of the edge is
restored to its old coordinate and no other entity has moved. -/
theorem repositionEdge_rollback (T : Tables) (N : Numerics R) (Q : Quality R)
    (m : Mesh) (simplex : Entity) (L : Locals) (pts : Points R) (edge : Entity)
    (c : Configuration R) (r : Entity) (hP : m.order = 2)
    (hc : EdgeReshaper.configuration T N Q m simplex L pts edge = .ok c)
    (hv : ¬ c.validity > 1 / 10 ^ 10)
    (hr : r ∈ m.adjacent edge 3)
    (hbad : Q.checkValidity m (setPoint pts edge (EdgeReshaper.newPoint N c)) r > 0) :
    EdgeReshaper.repositionEdge T N Q m simplex L pts edge = .ok (false, pts) := by
  have hany : (m.adjacent edge 3).any
      (fun r => decide (Q.checkValidity m (setPoint pts edge (EdgeReshaper.newPoint N c)) r > 0))
      = true := by
    rw [List.any_eq_true]
    exact ⟨r, hr, by simpa using hbad⟩
  simp only [EdgeReshaper.repositionEdge, hP, hc]
  rw [if_neg (by decide), if_neg hv, if_pos hany, setPoint_restore]

theorem repositionEdge_rollback_witness :
    tetMesh.order = 2 ∧
      EdgeReshaper.configuration sampleTables sampleNumerics (constQuality 8) tetMesh 100
          sampleLocals (samplePoints (-1)) 11
        = .ok ⟨⟨0, 0, 0⟩, ⟨-1, 0, 0⟩, ⟨1, 0, 0⟩, 1, -1⟩ ∧
      (¬ ((-1 : ℚ) > 1 / 10 ^ 10)) ∧
      (100 ∈ tetMesh.adjacent 11 3) ∧
      ((constQuality 8).checkValidity tetMesh
          (setPoint (samplePoints (-1)) 11
            (EdgeReshaper.newPoint sampleNumerics ⟨⟨0, 0, 0⟩, ⟨-1, 0, 0⟩, ⟨1, 0, 0⟩, 1, -1⟩))
          100 > 0) ∧
      EdgeReshaper.repositionEdge sampleTables sampleNumerics (constQuality 8) tetMesh 100
          sampleLocals (samplePoints (-1)) 11
        = .ok (false, samplePoints (-1)) :=
  ⟨rfl, sample_configuration (-1) 8, by norm_num, by decide, by decide,
    repositionEdge_rollback sampleTables sampleNumerics (constQuality 8) tetMesh 100
      sampleLocals (samplePoints (-1)) 11 ⟨⟨0, 0, 0⟩, ⟨-1, 0, 0⟩, ⟨1, 0, 0⟩, 1, -1⟩ 100 rfl
      (sample_configuration (-1) 8) (by norm_num) (by decide) (by decide)⟩

/-- C10, as amended. Whenever `repositionEdge` reports success, the new control
point has been written and kept, and for every element adjacent to the edge the
validity check evaluated with the new control point returned a code that is not
positive: a positive code is what the code takes for the invalid result, and
none is returned. -/
theorem repositionEdge_success_codes (T : Tables) (N : Numerics R) (Q : Quality R)
    (m : Mesh) (simplex : Entity) (L : Locals) (pts pts1 : Points R) (edge : Entity)
    (hok : EdgeReshaper.repositionEdge T N Q m simplex L pts edge = .ok (true, pts1)) :
    (∃ c, EdgeReshaper.configuration T N Q m simplex L pts edge = .ok c ∧
        pts1 = setPoint pts edge (EdgeReshaper.newPoint N c)) ∧
      ∀ r, r ∈ m.adjacent edge 3 → ¬ Q.checkValidity m pts1 r > 0 ∧
        Q.checkValidity m pts1 r ≤ 0 := by
  unfold EdgeReshaper.repositionEdge at hok
  by_cases hP : m.order ≠ 2
  · simp [hP] at hok
  · rw [if_neg hP] at hok
    cases hcfg : EdgeReshaper.configuration T N Q m simplex L pts edge with
    | error x => simp [hcfg] at hok
    | ok c =>
      simp only [hcfg] at hok
      by_cases hv : c.validity > 1 / 10 ^ 10
      · rw [if_pos hv] at hok
        simp at hok
      · rw [if_neg hv] at hok
        by_cases hany : (m.adjacent edge 3).any
            (fun r => decide
              (Q.checkValidity m (setPoint pts edge (EdgeReshaper.newPoint N c)) r > 0)) = true
        · rw [if_pos hany] at hok
          simp at hok
        · rw [if_neg hany] at hok
          have hpts : setPoint pts edge (EdgeReshaper.newPoint N c) = pts1 := by
            simpa using hok
          refine ⟨⟨c, rfl, hpts.symm⟩, ?_⟩
          intro r hr
          have hnot : ¬ Q.checkValidity m pts1 r > 0 := by
            intro hpos
            apply hany
            rw [List.any_eq_true]
            exact ⟨r, hr, by rw [hpts]; simpa using hpos⟩
          exact ⟨hnot, by omega⟩

theorem repositionEdge_success_codes_witness :
    EdgeReshaper.repositionEdge sampleTables sampleNumerics (constQuality (-3)) tetMesh 100
        sampleLocals (samplePoints (-1)) 11
      = .ok (true, setPoint (samplePoints (-1)) 11
          (EdgeReshaper.newPoint sampleNumerics ⟨⟨0, 0, 0⟩, ⟨-1, 0, 0⟩, ⟨1, 0, 0⟩, 1, -1⟩)) ∧
      ((∃ c, EdgeReshaper.configuration sampleTables sampleNumerics (constQuality (-3)) tetMesh
            100 sampleLocals (samplePoints (-1)) 11 = .ok c ∧
          setPoint (samplePoints (-1)) 11
              (EdgeReshaper.newPoint sampleNumerics ⟨⟨0, 0, 0⟩, ⟨-1, 0, 0⟩, ⟨1, 0, 0⟩, 1, -1⟩)
            = setPoint (samplePoints (-1)) 11 (EdgeReshaper.newPoint sampleNumerics c)) ∧
        ∀ r, r ∈ tetMesh.adjacent 11 3 →
          ¬ (constQuality (-3)).checkValidity tetMesh
              (setPoint (samplePoints (-1)) 11
                (EdgeReshaper.newPoint sampleNumerics ⟨⟨0, 0, 0⟩, ⟨-1, 0, 0⟩, ⟨1, 0, 0⟩, 1, -1⟩))
              r > 0 ∧
            (constQuality (-3)).checkValidity tetMesh
              (setPoint (samplePoints (-1)) 11
                (EdgeReshaper.newPoint sampleNumerics ⟨⟨0, 0, 0⟩, ⟨-1, 0, 0⟩, ⟨1, 0, 0⟩, 1, -1⟩))
              r ≤ 0) :=
  have h : EdgeReshaper.repositionEdge sampleTables sampleNumerics (constQuality (-3)) tetMesh
      100 sampleLocals (samplePoints (-1)) 11
      = .ok (true, setPoint (samplePoints (-1)) 11
          (EdgeReshaper.newPoint sampleNumerics ⟨⟨0, 0, 0⟩, ⟨-1, 0, 0⟩, ⟨1, 0, 0⟩, 1, -1⟩)) := by
    unfold EdgeReshaper.repositionEdge
    rw [sample_configuration]
    simp [tetMesh, constQuality]
    norm_num
  ⟨h, repositionEdge_success_codes sampleTables sampleNumerics (constQuality (-3)) tetMesh 100
    sampleLocals (samplePoints (-1)) _ 11 h⟩

/-- C10, as stated, fails. On the sample tetrahedron with the node of the edge
`11` at `(-1,0,0)` and a validity check that returns the code `0` for every
element, `repositionEdge` reports success and moves the node to `(171/500,0,0)`,
while the check on the adjacent tetrahedron `100`, evaluated with the new
control point, returns `0`, a value `≤ 0`. -/
theorem repositionEdge_success_with_nonpositive_code :
    (EdgeReshaper.repositionEdge sampleTables sampleNumerics (constQuality 0) tetMesh 100
        sampleLocals (samplePoints (-1)) 11).map
        (fun r => (r.1, (r.2 11).x, (r.2 11).y, (r.2 11).z,
          (constQuality 0).checkValidity tetMesh r.2 100))
      = .ok (true, 171 / 500, 0, 0, 0) ∧
      100 ∈ tetMesh.adjacent 11 3 ∧
      ¬ (∀ pts1, EdgeReshaper.repositionEdge sampleTables sampleNumerics (constQuality 0) tetMesh
            100 sampleLocals (samplePoints (-1)) 11 = .ok (true, pts1) →
          ∀ r, r ∈ tetMesh.adjacent 11 3 →
            ¬ (constQuality 0).checkValidity tetMesh pts1 r ≤ 0) := by
  have h : EdgeReshaper.repositionEdge sampleTables sampleNumerics (constQuality 0) tetMesh
      100 sampleLocals (samplePoints (-1)) 11
      = .ok (true, setPoint (samplePoints (-1)) 11
          (EdgeReshaper.newPoint sampleNumerics ⟨⟨0, 0, 0⟩, ⟨-1, 0, 0⟩, ⟨1, 0, 0⟩, 1, -1⟩)) := by
    unfold EdgeReshaper.repositionEdge
    rw [sample_configuration]
    simp [tetMesh, constQuality]
    norm_num
  refine ⟨?_, by decide, ?_⟩
  · rw [h]
    simp [Except.map, setPoint, EdgeReshaper.newPoint, Vec3.add, Vec3.scale, Vec3.divide,
      Vec3.getLength, Vec3.dot, sampleNumerics, sample_sqrt_one, constQuality]
  · intro hall
    exact hall _ h 100 (by decide) (by simp [constQuality])

end Reshaper

/-! ## Properties of the boundary-angle detector -/

section Detector

variable {R : Type} [LinearOrderedField R]

theorem setFlag_mesh (a : Adapt) (x : Entity) (mask : List Flag) :
    (setFlag a x mask).mesh = a.mesh := rfl

/-- The SPLIT bit of `y` after SPLIT and then BAD_QUALITY have been set on `x`. -/
theorem getFlag_split_marked (a : Adapt) (x y : Entity) :
    getFlag (setFlag (setFlag a x [Flag.SPLIT]) x [Flag.BAD_QUALITY]) y [Flag.SPLIT]
      = (decide (y = x) || getFlag a y [Flag.SPLIT]) := by
  by_cases hy : y = x
  · subst hy; simp [getFlag, setFlag]
  · simp [getFlag, setFlag, hy]

/-- One iteration of the loop of `isLargeAngleTri`. -/
theorem isLargeAngleTriFrom_succ (G : AngleGeometry R) (a : Adapt) (L : AngleLocals)
    (e : Entity) (edges : Buffer) (k i : Nat) :
    isLargeAngleTriFrom G a L e edges (k + 1) i =
      if isLargeAngleTri.passes G a L e edges i = true then edges ((i + 2) % 3)
      else isLargeAngleTriFrom G a L e edges k (i + 1) := by
  simp only [isLargeAngleTriFrom, isLargeAngleTri.passes, Bool.and_eq_true, Bool.not_eq_true']
  split_ifs <;> first | rfl | (exfalso; tauto)

/-- A non-null result of the loop comes from an index at which the tests pass. -/
theorem isLargeAngleTriFrom_sound (G : AngleGeometry R) (a : Adapt) (L : AngleLocals)
    (e : Entity) (edges : Buffer) : ∀ (k i : Nat),
    isLargeAngleTriFrom G a L e edges k i ≠ 0 →
    ∃ j, i ≤ j ∧ j < i + k ∧ isLargeAngleTri.passes G a L e edges j = true ∧
      isLargeAngleTriFrom G a L e edges k i = edges ((j + 2) % 3) := by
  intro k
  induction k with
  | zero => intro i h; exact absurd rfl h
  | succ k ih =>
    intro i h
    rw [isLargeAngleTriFrom_succ] at h ⊢
    by_cases hp : isLargeAngleTri.passes G a L e edges i = true
    · rw [if_pos hp]
      exact ⟨i, le_refl i, by omega, hp, rfl⟩
    · rw [if_neg hp] at h ⊢
      obtain ⟨j, h1, h2, h3, h4⟩ := ih (i + 1) h
      exact ⟨j, by omega, by omega, h3, h4⟩

/-- The loop returns the opposite edge of the first index at which the tests
pass. -/
theorem isLargeAngleTriFrom_first (G : AngleGeometry R) (a : Adapt) (L : AngleLocals)
    (e : Entity) (edges : Buffer) : ∀ (k i j : Nat), i ≤ j → j < i + k →
    isLargeAngleTri.passes G a L e edges j = true →
    (∀ t, i ≤ t → t < j → isLargeAngleTri.passes G a L e edges t = false) →
    isLargeAngleTriFrom G a L e edges k i = edges ((j + 2) % 3) := by
  intro k
  induction k with
  | zero => intro i j h1 h2; omega
  | succ k ih =>
    intro i j h1 h2 hp hnone
    rw [isLargeAngleTriFrom_succ]
    by_cases hij : i = j
    · subst hij
      rw [if_pos hp]
    · have hf := hnone i (le_refl i) (by omega)
      rw [if_neg (by simp [hf])]
      exact ih (i + 1) j (by omega) (by omega) hp (fun t ht1 ht2 => hnone t (by omega) ht2)

/-- The tests can pass at one index below `3` at most, whatever the flags: the
opposite edge of one index is a corner edge of the two others. -/
theorem isLargeAngleTri_passes_unique (G : AngleGeometry R) (a b : Adapt) (L : AngleLocals)
    (e : Entity) (edges : Buffer) (i j : Nat) (hi : i < 3) (hj : j < 3)
    (hm : b.mesh = a.mesh)
    (h1 : isLargeAngleTri.passes G a L e edges i = true)
    (h2 : isLargeAngleTri.passes G b L e edges j = true) : i = j := by
  simp only [isLargeAngleTri.passes, hm, Bool.and_eq_true, Bool.not_eq_true'] at h1 h2
  obtain ⟨⟨⟨⟨a0, a1⟩, _⟩, _⟩, a2⟩ := h1
  obtain ⟨⟨⟨⟨b0, b1⟩, _⟩, _⟩, b2⟩ := h2
  interval_cases i <;> interval_cases j <;> simp_all

/-- Once the edge `isLargeAngleTri` returned carries `SPLIT`, the function
returns the null handle on that face. -/
theorem isLargeAngleTri_after_mark (G : AngleGeometry R) (a b : Adapt) (L : AngleLocals)
    (e : Entity) (hm : b.mesh = a.mesh) (hx : isLargeAngleTri G a L e ≠ 0)
    (hs : getFlag b (isLargeAngleTri G a L e) [Flag.SPLIT] = true) :
    isLargeAngleTri G b L e = 0 := by
  by_contra hb
  obtain ⟨i, hi0, hi3, hpi, hri⟩ := isLargeAngleTriFrom_sound G a L e _ 3 0 hx
  obtain ⟨j, hj0, hj3, hpj, hrj⟩ := isLargeAngleTriFrom_sound G b L e _ 3 0 hb
  rw [hm] at hpj hrj
  have hij := isLargeAngleTri_passes_unique G a b L e _ i j (by omega) (by omega) hm hpi hpj
  subst hij
  have hflag : getFlag b ((a.mesh.getDownward e 1 L.triEdges).2 ((i + 2) % 3)) [Flag.SPLIT]
      = false := by
    simp only [isLargeAngleTri.passes, Bool.and_eq_true, Bool.not_eq_true'] at hpj
    exact hpj.1.2
  have hres : isLargeAngleTri G a L e = (a.mesh.getDownward e 1 L.triEdges).2 ((i + 2) % 3) := hri
  rw [hres, hflag] at hs
  exact Bool.false_ne_true hs

/-- A face on which `isLargeAngleTri` returns the null handle keeps doing so
when further `SPLIT` bits are set. -/
theorem isLargeAngleTri_stable (G : AngleGeometry R) (a b : Adapt) (L : AngleLocals)
    (e : Entity) (hm : b.mesh = a.mesh)
    (hmono : ∀ y, getFlag a y [Flag.SPLIT] = true → getFlag b y [Flag.SPLIT] = true)
    (h0 : isLargeAngleTri G a L e = 0) : isLargeAngleTri G b L e = 0 := by
  by_contra hb
  obtain ⟨j, hj0, hj3, hpj, hrj⟩ := isLargeAngleTriFrom_sound G b L e _ 3 0 hb
  rw [hm] at hpj hrj
  have hpa : isLargeAngleTri.passes G a L e (a.mesh.getDownward e 1 L.triEdges).2 j = true := by
    simp only [isLargeAngleTri.passes, hm, Bool.and_eq_true, Bool.not_eq_true'] at hpj ⊢
    refine ⟨⟨hpj.1.1, ?_⟩, hpj.2⟩
    cases hf : getFlag a ((a.mesh.getDownward e 1 L.triEdges).2 ((j + 2) % 3)) [Flag.SPLIT]
    · rfl
    · rw [hmono _ hf] at hpj
      exact absurd hpj.1.2 (by simp)
  have hfirst := isLargeAngleTriFrom_first G a L e (a.mesh.getDownward e 1 L.triEdges).2 3 0 j
    (by omega) (by omega) hpa (by
      intro t _ ht
      cases hpt : isLargeAngleTri.passes G a L e (a.mesh.getDownward e 1 L.triEdges).2 t
      · rfl
      · have := isLargeAngleTri_passes_unique G a a L e _ t j (by omega) (by omega) rfl hpt hpa
        omega)
  have hra : isLargeAngleTri G a L e = (a.mesh.getDownward e 1 L.triEdges).2 ((j + 2) % 3) :=
    hfirst
  apply hb
  have hrb : isLargeAngleTri G b L e = (a.mesh.getDownward e 1 L.triEdges).2 ((j + 2) % 3) := by
    unfold isLargeAngleTri
    rw [hm]
    exact hrj
  rw [hrb, ← hra, h0]

theorem getFlag_mono (a b : Adapt) (mask : List Flag)
    (h : ∀ y f, a.flags y f = true → b.flags y f = true) (y : Entity)
    (hy : getFlag a y mask = true) : getFlag b y mask = true := by
  simp only [getFlag, List.any_eq_true] at hy ⊢
  obtain ⟨f, hf, hv⟩ := hy
  exact ⟨f, hf, h y f hv⟩

theorem setFlag_flags_mono (a : Adapt) (x : Entity) (mask : List Flag) (y : Entity) (f : Flag)
    (h : a.flags y f = true) : (setFlag a x mask).flags y f = true := by
  simp only [setFlag]
  split_ifs <;> simp [h]

/-- What a pass of the triangle loop that runs to its end guarantees: the mesh
and the tags are untouched, the count has not decreased, no flag has been
cleared, and `isLargeAngleTri` returns the null handle on every face it was
asked about. -/
theorem markEdgesOppLargeAnglesTri_sweep_spec (G : AngleGeometry R) (L : Entity → AngleLocals) :
    ∀ (es : List Entity) (a : Adapt) (c : Int) (a1 : Adapt) (c1 : Int),
    markEdgesOppLargeAnglesTri.sweep G L es (a, c) = .ok (a1, c1) →
    a1.mesh = a.mesh ∧ a1.tags = a.tags ∧ c ≤ c1 ∧
      (∀ y f, a.flags y f = true → a1.flags y f = true) ∧
      ∀ e, e ∈ es → hasTwoEntitiesOnBoundary a.mesh e 1 = true →
        isLargeAngleTri G a1 (L e) e = 0 := by
  intro es
  induction es with
  | nil =>
    intro a c a1 c1 h
    simp only [markEdgesOppLargeAnglesTri.sweep, Except.ok.injEq, Prod.mk.injEq] at h
    obtain ⟨rfl, rfl⟩ := h
    exact ⟨rfl, rfl, le_refl _, fun _ _ h => h, fun _ he => absurd he (List.not_mem_nil _)⟩
  | cons e es ih =>
    intro a c a1 c1 h
    simp only [markEdgesOppLargeAnglesTri.sweep] at h
    by_cases h2 : hasTwoEntitiesOnBoundary a.mesh e 1 = false
    · rw [if_pos h2] at h
      obtain ⟨hm, ht, hc, hf, hq⟩ := ih a c a1 c1 h
      refine ⟨hm, ht, hc, hf, ?_⟩
      intro e1 he1 hb
      rcases List.mem_cons.mp he1 with rfl | he1
      · rw [h2] at hb; exact absurd hb (by simp)
      · exact hq e1 he1 hb
    · rw [if_neg h2] at h
      by_cases hx : isLargeAngleTri G a (L e) e ≠ 0
      · rw [if_pos hx] at h
        by_cases hty : a.mesh.type (isLargeAngleTri G a (L e) e) ≠ 1
        · rw [if_pos hty] at h; exact absurd h (by simp)
        · rw [if_neg hty] at h
          obtain ⟨hm, ht, hc, hf, hq⟩ := ih _ _ a1 c1 h
          have hm1 : a1.mesh = a.mesh := hm
          have hc1 : c ≤ c1 := by
            split_ifs at hc <;> omega
          have hf1 : ∀ y f, a.flags y f = true → a1.flags y f = true := fun y f hy =>
            hf y f (setFlag_flags_mono _ _ _ y f (setFlag_flags_mono _ _ _ y f hy))
          refine ⟨hm1, ht, hc1, hf1, ?_⟩
          intro e1 he1 hb
          rcases List.mem_cons.mp he1 with rfl | he1
          · apply isLargeAngleTri_after_mark G a a1 (L e1) e1 hm1 hx
            apply getFlag_mono _ a1 _ hf
            rw [getFlag_split_marked]
            simp
          · exact hq e1 he1 hb
      · rw [if_neg hx] at h
        obtain ⟨hm, ht, hc, hf, hq⟩ := ih a c a1 c1 h
        refine ⟨hm, ht, hc, hf, ?_⟩
        intro e1 he1 hb
        rcases List.mem_cons.mp he1 with rfl | he1
        · exact isLargeAngleTri_stable G a a1 (L e1) e1 hm
            (fun y hy => getFlag_mono a a1 _ hf y hy) (not_not.mp hx)
        · exact hq e1 he1 hb

/-- A pass of the triangle loop over faces on which `isLargeAngleTri` returns
the null handle changes nothing. -/
theorem markEdgesOppLargeAnglesTri_sweep_quiet (G : AngleGeometry R) (L : Entity → AngleLocals)
    (a : Adapt) (c : Int) : ∀ (es : List Entity),
    (∀ e, e ∈ es → hasTwoEntitiesOnBoundary a.mesh e 1 = true →
      isLargeAngleTri G a (L e) e = 0) →
    markEdgesOppLargeAnglesTri.sweep G L es (a, c) = .ok (a, c) := by
  intro es
  induction es with
  | nil => intro _; rfl
  | cons e es ih =>
    intro h
    have hrest := ih (fun e1 he1 hb => h e1 (List.mem_cons_of_mem _ he1) hb)
    simp only [markEdgesOppLargeAnglesTri.sweep]
    by_cases h2 : hasTwoEntitiesOnBoundary a.mesh e 1 = false
    · rw [if_pos h2]; exact hrest
    · rw [if_neg h2]
      have h0 := h e (List.mem_cons_self _ _) (by simpa using h2)
      rw [if_neg (by simp [h0])]
      exact hrest

/-- The state a pass of the triangle loop ends in is a fixed point of the pass. -/
theorem markEdgesOppLargeAnglesTri_sweep_fixed (G : AngleGeometry R) (L : Entity → AngleLocals)
    (es : List Entity) (a : Adapt) (c : Int) (a1 : Adapt) (c1 c2 : Int)
    (h : markEdgesOppLargeAnglesTri.sweep G L es (a, c) = .ok (a1, c1)) :
    markEdgesOppLargeAnglesTri.sweep G L es (a1, c2) = .ok (a1, c2) := by
  obtain ⟨hm, _, _, _, hq⟩ := markEdgesOppLargeAnglesTri_sweep_spec G L es a c a1 c1 h
  apply markEdgesOppLargeAnglesTri_sweep_quiet
  intro e he hb
  rw [hm] at hb
  exact hq e he hb

/-- With room for two passes, the loop of `markEdgesOppLargeAnglesTri` ends with
the result of its first pass. -/
theorem markEdgesOppLargeAnglesTri_loop_eq (G : AngleGeometry R) (L : Entity → AngleLocals)
    (fuel : Nat) (hfuel : 2 ≤ fuel) (a : Adapt) (c : Int) :
    markEdgesOppLargeAnglesTri.loop G L fuel (a, c) =
      some (markEdgesOppLargeAnglesTri.sweep G L (a.mesh.entities 2) (a, c)) := by
  obtain ⟨f, rfl⟩ : ∃ f, fuel = f + 2 := ⟨fuel - 2, by omega⟩
  simp only [markEdgesOppLargeAnglesTri.loop]
  cases h : markEdgesOppLargeAnglesTri.sweep G L (a.mesh.entities 2) (a, c) with
  | error x => rfl
  | ok r =>
    obtain ⟨a1, c1⟩ := r
    simp only
    by_cases hc : c1 > c
    · rw [if_pos hc]
      obtain ⟨hm, _⟩ := markEdgesOppLargeAnglesTri_sweep_spec G L _ a c a1 c1 h
      have hfix := markEdgesOppLargeAnglesTri_sweep_fixed G L _ a c a1 c1 c1 h
      rw [hm, hfix]
      simp
    · rw [if_neg hc]

/-- What a pass of the tetrahedron loop that runs to its end guarantees: the
mesh and the tags are untouched, the count has not decreased, no flag has been
cleared, and every edge `isLargeAngleTet` returns carries `SPLIT`. -/
theorem markEdgesOppLargeAnglesTet_sweep_spec (T : Tables) (G : AngleGeometry R)
    (L : Entity → AngleLocals) :
    ∀ (es : List Entity) (a : Adapt) (c : Int) (a1 : Adapt) (c1 : Int),
    markEdgesOppLargeAnglesTet.sweep T G L es (a, c) = .ok (a1, c1) →
    a1.mesh = a.mesh ∧ a1.tags = a.tags ∧ c ≤ c1 ∧
      (∀ y f, a.flags y f = true → a1.flags y f = true) ∧
      ∀ e, e ∈ es → isLargeAngleTet T G a.mesh (L e) e = 0 ∨
        getFlag a1 (isLargeAngleTet T G a.mesh (L e) e) [Flag.SPLIT] = true := by
  intro es
  induction es with
  | nil =>
    intro a c a1 c1 h
    simp only [markEdgesOppLargeAnglesTet.sweep, Except.ok.injEq, Prod.mk.injEq] at h
    obtain ⟨rfl, rfl⟩ := h
    exact ⟨rfl, rfl, le_refl _, fun _ _ h => h, fun _ he => absurd he (List.not_mem_nil _)⟩
  | cons e es ih =>
    intro a c a1 c1 h
    simp only [markEdgesOppLargeAnglesTet.sweep] at h
    by_cases hx : isLargeAngleTet T G a.mesh (L e) e ≠ 0 ∧
        getFlag a (isLargeAngleTet T G a.mesh (L e) e) [Flag.SPLIT] = false
    · rw [if_pos hx] at h
      by_cases hty : a.mesh.type (isLargeAngleTet T G a.mesh (L e) e) ≠ 1
      · rw [if_pos hty] at h; exact absurd h (by simp)
      · rw [if_neg hty] at h
        obtain ⟨hm, ht, hc, hf, hq⟩ := ih _ _ a1 c1 h
        have hm1 : a1.mesh = a.mesh := hm
        have hc1 : c ≤ c1 := by
          split_ifs at hc <;> omega
        have hf1 : ∀ y f, a.flags y f = true → a1.flags y f = true := fun y f hy =>
          hf y f (setFlag_flags_mono _ _ _ y f (setFlag_flags_mono _ _ _ y f hy))
        refine ⟨hm1, ht, hc1, hf1, ?_⟩
        intro e1 he1
        rcases List.mem_cons.mp he1 with rfl | he1
        · right
          apply getFlag_mono _ a1 _ hf
          rw [getFlag_split_marked]
          simp
        · exact hq e1 he1
    · rw [if_neg hx] at h
      obtain ⟨hm, ht, hc, hf, hq⟩ := ih a c a1 c1 h
      refine ⟨hm, ht, hc, hf, ?_⟩
      intro e1 he1
      rcases List.mem_cons.mp he1 with rfl | he1
      · by_cases h0 : isLargeAngleTet T G a.mesh (L e1) e1 = 0
        · exact Or.inl h0
        · right
          have hs : getFlag a (isLargeAngleTet T G a.mesh (L e1) e1) [Flag.SPLIT] = true := by
            cases hg : getFlag a (isLargeAngleTet T G a.mesh (L e1) e1) [Flag.SPLIT]
            · exact absurd ⟨h0, hg⟩ hx
            · rfl
          exact getFlag_mono a a1 _ hf _ hs
      · exact hq e1 he1

/-- A pass of the tetrahedron loop over regions whose returned edges all carry
`SPLIT` changes nothing. -/
theorem markEdgesOppLargeAnglesTet_sweep_quiet (T : Tables) (G : AngleGeometry R)
    (L : Entity → AngleLocals) (a : Adapt) (c : Int) : ∀ (es : List Entity),
    (∀ e, e ∈ es → isLargeAngleTet T G a.mesh (L e) e = 0 ∨
      getFlag a (isLargeAngleTet T G a.mesh (L e) e) [Flag.SPLIT] = true) →
    markEdgesOppLargeAnglesTet.sweep T G L es (a, c) = .ok (a, c) := by
  intro es
  induction es with
  | nil => intro _; rfl
  | cons e es ih =>
    intro h
    have hrest := ih (fun e1 he1 => h e1 (List.mem_cons_of_mem _ he1))
    simp only [markEdgesOppLargeAnglesTet.sweep]
    have hno : ¬ (isLargeAngleTet T G a.mesh (L e) e ≠ 0 ∧
        getFlag a (isLargeAngleTet T G a.mesh (L e) e) [Flag.SPLIT] = false) := by
      rintro ⟨h0, hg⟩
      rcases h e (List.mem_cons_self _ _) with h1 | h1
      · exact h0 h1
      · rw [hg] at h1; exact Bool.false_ne_true h1
    rw [if_neg hno]
    exact hrest

/-- The state a pass of the tetrahedron loop ends in is a fixed point of the
pass. -/
theorem markEdgesOppLargeAnglesTet_sweep_fixed (T : Tables) (G : AngleGeometry R)
    (L : Entity → AngleLocals) (es : List Entity) (a : Adapt) (c : Int) (a1 : Adapt)
    (c1 c2 : Int) (h : markEdgesOppLargeAnglesTet.sweep T G L es (a, c) = .ok (a1, c1)) :
    markEdgesOppLargeAnglesTet.sweep T G L es (a1, c2) = .ok (a1, c2) := by
  obtain ⟨hm, _, _, _, hq⟩ := markEdgesOppLargeAnglesTet_sweep_spec T G L es a c a1 c1 h
  apply markEdgesOppLargeAnglesTet_sweep_quiet
  intro e he
  rw [hm]
  exact hq e he

/-- With room for two passes, the loop of `markEdgesOppLargeAnglesTet` ends with
the result of its first pass. -/
theorem markEdgesOppLargeAnglesTet_loop_eq (T : Tables) (G : AngleGeometry R)
    (L : Entity → AngleLocals) (fuel : Nat) (hfuel : 2 ≤ fuel) (a : Adapt) (c : Int) :
    markEdgesOppLargeAnglesTet.loop T G L fuel (a, c) =
      some (markEdgesOppLargeAnglesTet.sweep T G L (a.mesh.entities 3) (a, c)) := by
  obtain ⟨f, rfl⟩ : ∃ f, fuel = f + 2 := ⟨fuel - 2, by omega⟩
  simp only [markEdgesOppLargeAnglesTet.loop]
  cases h : markEdgesOppLargeAnglesTet.sweep T G L (a.mesh.entities 3) (a, c) with
  | error x => rfl
  | ok r =>
    obtain ⟨a1, c1⟩ := r
    simp only
    by_cases hc : c1 > c
    · rw [if_pos hc]
      obtain ⟨hm, _⟩ := markEdgesOppLargeAnglesTet_sweep_spec T G L _ a c a1 c1 h
      have hfix := markEdgesOppLargeAnglesTet_sweep_fixed T G L _ a c a1 c1 c1 h
      rw [hm, hfix]
      simp
    · rw [if_neg hc]

/-- Repeating a pass that reproduces its own result. -/
theorem iterate_bind_fixed {σ : Type} (f : σ → Except Abort σ)
    (hfix : ∀ s s1, f s = .ok s1 → f s1 = .ok s1) (s : σ) :
    ∀ N, 1 ≤ N → (fun r : Except Abort σ => r.bind f)^[N] (.ok s) = f s := by
  intro N hN
  obtain ⟨n, rfl⟩ : ∃ n, N = n + 1 := ⟨N - 1, by omega⟩
  induction n with
  | zero => rfl
  | succ n ih =>
    rw [Function.iterate_succ_apply']
    rw [ih (by omega)]
    cases h : f s with
    | error x => rfl
    | ok s1 => exact hfix s s1 h

/-- A result of the triangle loop is the result of its last pass. -/
theorem markEdgesOppLargeAnglesTri_loop_last (G : AngleGeometry R) (L : Entity → AngleLocals)
    (a1 : Adapt) (c1 : Int) : ∀ (fuel : Nat) (a : Adapt) (c : Int),
    markEdgesOppLargeAnglesTri.loop G L fuel (a, c) = some (.ok (a1, c1)) →
    ∃ b cb, markEdgesOppLargeAnglesTri.sweep G L (b.mesh.entities 2) (b, cb) = .ok (a1, c1) := by
  intro fuel
  induction fuel with
  | zero => intro a c h; simp [markEdgesOppLargeAnglesTri.loop] at h
  | succ fuel ih =>
    intro a c h
    simp only [markEdgesOppLargeAnglesTri.loop] at h
    cases hs : markEdgesOppLargeAnglesTri.sweep G L (a.mesh.entities 2) (a, c) with
    | error x => rw [hs] at h; simp at h
    | ok r =>
      obtain ⟨a2, c2⟩ := r
      rw [hs] at h
      simp only at h
      by_cases hc : c2 > c
      · rw [if_pos hc] at h
        exact ih a2 c2 h
      · rw [if_neg hc] at h
        simp only [Option.some.injEq, Except.ok.injEq, Prod.mk.injEq] at h
        obtain ⟨rfl, rfl⟩ := h
        exact ⟨a, c, hs⟩

/-- A result of the tetrahedron loop is the result of its last pass. -/
theorem markEdgesOppLargeAnglesTet_loop_last (T : Tables) (G : AngleGeometry R)
    (L : Entity → AngleLocals) (a1 : Adapt) (c1 : Int) : ∀ (fuel : Nat) (a : Adapt) (c : Int),
    markEdgesOppLargeAnglesTet.loop T G L fuel (a, c) = some (.ok (a1, c1)) →
    ∃ b cb, markEdgesOppLargeAnglesTet.sweep T G L (b.mesh.entities 3) (b, cb) = .ok (a1, c1) := by
  intro fuel
  induction fuel with
  | zero => intro a c h; simp [markEdgesOppLargeAnglesTet.loop] at h
  | succ fuel ih =>
    intro a c h
    simp only [markEdgesOppLargeAnglesTet.loop] at h
    cases hs : markEdgesOppLargeAnglesTet.sweep T G L (a.mesh.entities 3) (a, c) with
    | error x => rw [hs] at h; simp at h
    | ok r =>
      obtain ⟨a2, c2⟩ := r
      rw [hs] at h
      simp only at h
      by_cases hc : c2 > c
      · rw [if_pos hc] at h
        exact ih a2 c2 h
      · rw [if_neg hc] at h
        simp only [Option.some.injEq, Except.ok.injEq, Prod.mk.injEq] at h
        obtain ⟨rfl, rfl⟩ := h
        exact ⟨a, c, hs⟩

theorem sample_tri_first_pass :
    markEdgesOppLargeAnglesTri.sweep reflexGeometry sampleAngleLocals
        (reflexAdapt.mesh.entities 2) (reflexAdapt, 0)
      = .ok (setFlag (setFlag reflexAdapt 13 [Flag.SPLIT]) 13 [Flag.BAD_QUALITY], 1) := by
  have h1 : reflexAdapt.mesh.entities 2 = [50] := by decide
  have h2 : hasTwoEntitiesOnBoundary reflexAdapt.mesh 50 1 = true := by decide
  have h3 : isLargeAngleTri reflexGeometry reflexAdapt (sampleAngleLocals 50) 50 = 13 := by
    decide!
  have h4 : reflexAdapt.mesh.type 13 = 1 := by decide
  have h5 : reflexAdapt.mesh.owned 13 = true := by decide
  rw [h1]
  simp [markEdgesOppLargeAnglesTri.sweep, h2, h3, h4, h5]

theorem sample_tri_marking :
    markEdgesOppLargeAnglesTri sampleCollaborators reflexGeometry sampleAngleLocals 2 reflexAdapt
      = some (.ok (1, setFlag (setFlag reflexAdapt 13 [Flag.SPLIT]) 13 [Flag.BAD_QUALITY])) := by
  unfold markEdgesOppLargeAnglesTri
  rw [markEdgesOppLargeAnglesTri_loop_eq _ _ 2 (le_refl 2), sample_tri_first_pass]
  rfl

theorem sample_tet_first_pass :
    markEdgesOppLargeAnglesTet.sweep sampleTables reflexGeometry sampleAngleLocals
        (wedgeAdapt.mesh.entities 3) (wedgeAdapt, 0)
      = .ok (setFlag (setFlag wedgeAdapt 16 [Flag.SPLIT]) 16 [Flag.BAD_QUALITY], 1) := by
  have h1 : wedgeAdapt.mesh.entities 3 = [100] := by decide
  have h3 : isLargeAngleTet sampleTables reflexGeometry wedgeAdapt.mesh (sampleAngleLocals 100)
      100 = 16 := by
    decide!
  have h4 : wedgeAdapt.mesh.type 16 = 1 := by decide
  have h5 : wedgeAdapt.mesh.owned 16 = true := by decide
  have h6 : getFlag wedgeAdapt 16 [Flag.SPLIT] = false := by decide
  rw [h1]
  simp [markEdgesOppLargeAnglesTet.sweep, h3, h4, h5, h6]

theorem sample_tet_marking :
    markEdgesOppLargeAnglesTet sampleCollaborators sampleTables reflexGeometry sampleAngleLocals 2
        wedgeAdapt
      = some (.ok (1, setFlag (setFlag wedgeAdapt 16 [Flag.SPLIT]) 16 [Flag.BAD_QUALITY])) := by
  unfold markEdgesOppLargeAnglesTet
  rw [markEdgesOppLargeAnglesTet_loop_eq _ _ _ 2 (le_refl 2), sample_tet_first_pass]
  rfl

/-- C18. The loop of `markEdgesOppLargeAnglesTri` terminates: with room for two
passes it returns (a count or an abort), and more room changes nothing. The
running count never decreases over a pass. The flags and the count reach their
fixed point with the first pass: `N ≥ 1` passes in a row end as one pass does,
and a further pass on that state changes neither a flag nor the count; this
holds on every mesh, whatever the number `N` of reflex faces it has. -/
theorem markEdgesOppLargeAnglesTri_converges (C : Collaborators) (G : AngleGeometry R)
    (L : Entity → AngleLocals) (a : Adapt) (N fuel : Nat) (hN : 1 ≤ N) (hfuel : 2 ≤ fuel) :
    (markEdgesOppLargeAnglesTri C G L fuel a ≠ none ∧
      markEdgesOppLargeAnglesTri C G L fuel a = markEdgesOppLargeAnglesTri C G L 2 a) ∧
    (∀ (es : List Entity) (b : Adapt) (c : Int) (b1 : Adapt) (c1 : Int),
      markEdgesOppLargeAnglesTri.sweep G L es (b, c) = .ok (b1, c1) → c ≤ c1) ∧
    ((fun r : Except Abort (Adapt × Int) =>
        r.bind (markEdgesOppLargeAnglesTri.sweep G L (a.mesh.entities 2)))^[N] (.ok (a, 0))
      = markEdgesOppLargeAnglesTri.sweep G L (a.mesh.entities 2) (a, 0)) ∧
    (∀ (a1 : Adapt) (c1 : Int),
      markEdgesOppLargeAnglesTri.sweep G L (a.mesh.entities 2) (a, 0) = .ok (a1, c1) →
      markEdgesOppLargeAnglesTri.sweep G L (a.mesh.entities 2) (a1, c1) = .ok (a1, c1)) := by
  refine ⟨⟨?_, ?_⟩, ?_, ?_, ?_⟩
  · unfold markEdgesOppLargeAnglesTri
    rw [markEdgesOppLargeAnglesTri_loop_eq G L fuel hfuel]
    simp
  · unfold markEdgesOppLargeAnglesTri
    rw [markEdgesOppLargeAnglesTri_loop_eq G L fuel hfuel,
      markEdgesOppLargeAnglesTri_loop_eq G L 2 (le_refl 2)]
  · intro es b c b1 c1 h
    exact (markEdgesOppLargeAnglesTri_sweep_spec G L es b c b1 c1 h).2.2.1
  · apply iterate_bind_fixed _ _ _ N hN
    rintro ⟨b, c⟩ ⟨b1, c1⟩ h
    exact markEdgesOppLargeAnglesTri_sweep_fixed G L _ b c b1 c1 c1 h
  · intro a1 c1 h
    exact markEdgesOppLargeAnglesTri_sweep_fixed G L _ a 0 a1 c1 c1 h

theorem markEdgesOppLargeAnglesTri_converges_witness :
    (1 ≤ 3) ∧ (2 ≤ 5) ∧
    ((markEdgesOppLargeAnglesTri sampleCollaborators reflexGeometry sampleAngleLocals 5
          reflexAdapt ≠ none ∧
      markEdgesOppLargeAnglesTri sampleCollaborators reflexGeometry sampleAngleLocals 5
          reflexAdapt
        = markEdgesOppLargeAnglesTri sampleCollaborators reflexGeometry sampleAngleLocals 2
          reflexAdapt) ∧
    (∀ (es : List Entity) (b : Adapt) (c : Int) (b1 : Adapt) (c1 : Int),
      markEdgesOppLargeAnglesTri.sweep reflexGeometry sampleAngleLocals es (b, c) = .ok (b1, c1) →
      c ≤ c1) ∧
    ((fun r : Except Abort (Adapt × Int) =>
        r.bind (markEdgesOppLargeAnglesTri.sweep reflexGeometry sampleAngleLocals
          (reflexAdapt.mesh.entities 2)))^[3] (.ok (reflexAdapt, 0))
      = markEdgesOppLargeAnglesTri.sweep reflexGeometry sampleAngleLocals
          (reflexAdapt.mesh.entities 2) (reflexAdapt, 0)) ∧
    (∀ (a1 : Adapt) (c1 : Int),
      markEdgesOppLargeAnglesTri.sweep reflexGeometry sampleAngleLocals
          (reflexAdapt.mesh.entities 2) (reflexAdapt, 0) = .ok (a1, c1) →
      markEdgesOppLargeAnglesTri.sweep reflexGeometry sampleAngleLocals
          (reflexAdapt.mesh.entities 2) (a1, c1) = .ok (a1, c1))) :=
  ⟨by decide, by decide,
    markEdgesOppLargeAnglesTri_converges sampleCollaborators reflexGeometry sampleAngleLocals
      reflexAdapt 3 5 (by decide) (by decide)⟩

/-- C19. Once `markEdgesOppLargeAnglesTri` (respectively
`markEdgesOppLargeAnglesTet`) has returned, one more pass over the same mesh
hands back the adapter it is given and the count it is given: no `SPLIT`, no
`BAD_QUALITY` and no other flag is set, whether or not the edges flagged last
were owned. -/
theorem markEdgesOppLargeAngles_fixed_point (C : Collaborators) (T : Tables)
    (G : AngleGeometry R) (L : Entity → AngleLocals) (fuel : Nat) (a : Adapt) :
    (∀ (n : Int) (a1 : Adapt),
      markEdgesOppLargeAnglesTri C G L fuel a = some (.ok (n, a1)) →
      ∀ c, markEdgesOppLargeAnglesTri.sweep G L (a1.mesh.entities 2) (a1, c) = .ok (a1, c)) ∧
    (∀ (n : Int) (a1 : Adapt),
      markEdgesOppLargeAnglesTet C T G L fuel a = some (.ok (n, a1)) →
      ∀ c, markEdgesOppLargeAnglesTet.sweep T G L (a1.mesh.entities 3) (a1, c) = .ok (a1, c)) := by
  constructor
  · intro n a1 h c
    unfold markEdgesOppLargeAnglesTri at h
    cases hl : markEdgesOppLargeAnglesTri.loop G L fuel (a, 0) with
    | none => rw [hl] at h; simp at h
    | some r =>
      cases r with
      | error x => rw [hl] at h; simp [Except.map] at h
      | ok s =>
        obtain ⟨a2, c2⟩ := s
        rw [hl] at h
        simp only [Option.map_some', Except.map, Option.some.injEq, Except.ok.injEq,
          Prod.mk.injEq] at h
        obtain ⟨_, rfl⟩ := h
        obtain ⟨b, cb, hb⟩ := markEdgesOppLargeAnglesTri_loop_last G L a2 c2 fuel a 0 hl
        have hm := (markEdgesOppLargeAnglesTri_sweep_spec G L _ b cb a2 c2 hb).1
        rw [hm]
        exact markEdgesOppLargeAnglesTri_sweep_fixed G L _ b cb a2 c2 c hb
  · intro n a1 h c
    unfold markEdgesOppLargeAnglesTet at h
    cases hl : markEdgesOppLargeAnglesTet.loop T G L fuel (a, 0) with
    | none => rw [hl] at h; simp at h
    | some r =>
      cases r with
      | error x => rw [hl] at h; simp [Except.map] at h
      | ok s =>
        obtain ⟨a2, c2⟩ := s
        rw [hl] at h
        simp only [Option.map_some', Except.map, Option.some.injEq, Except.ok.injEq,
          Prod.mk.injEq] at h
        obtain ⟨_, rfl⟩ := h
        obtain ⟨b, cb, hb⟩ := markEdgesOppLargeAnglesTet_loop_last T G L a2 c2 fuel a 0 hl
        have hm := (markEdgesOppLargeAnglesTet_sweep_spec T G L _ b cb a2 c2 hb).1
        rw [hm]
        exact markEdgesOppLargeAnglesTet_sweep_fixed T G L _ b cb a2 c2 c hb

theorem markEdgesOppLargeAngles_fixed_point_witness :
    (markEdgesOppLargeAnglesTri sampleCollaborators reflexGeometry sampleAngleLocals 2 reflexAdapt
        = some (.ok (1, setFlag (setFlag reflexAdapt 13 [Flag.SPLIT]) 13 [Flag.BAD_QUALITY]))) ∧
    (∀ c, markEdgesOppLargeAnglesTri.sweep reflexGeometry sampleAngleLocals
        ((setFlag (setFlag reflexAdapt 13 [Flag.SPLIT]) 13 [Flag.BAD_QUALITY]).mesh.entities 2)
        (setFlag (setFlag reflexAdapt 13 [Flag.SPLIT]) 13 [Flag.BAD_QUALITY], c)
      = .ok (setFlag (setFlag reflexAdapt 13 [Flag.SPLIT]) 13 [Flag.BAD_QUALITY], c)) ∧
    (markEdgesOppLargeAnglesTet sampleCollaborators sampleTables reflexGeometry sampleAngleLocals
        2 wedgeAdapt
        = some (.ok (1, setFlag (setFlag wedgeAdapt 16 [Flag.SPLIT]) 16 [Flag.BAD_QUALITY]))) ∧
    (∀ c, markEdgesOppLargeAnglesTet.sweep sampleTables reflexGeometry sampleAngleLocals
        ((setFlag (setFlag wedgeAdapt 16 [Flag.SPLIT]) 16 [Flag.BAD_QUALITY]).mesh.entities 3)
        (setFlag (setFlag wedgeAdapt 16 [Flag.SPLIT]) 16 [Flag.BAD_QUALITY], c)
      = .ok (setFlag (setFlag wedgeAdapt 16 [Flag.SPLIT]) 16 [Flag.BAD_QUALITY], c)) :=
  ⟨sample_tri_marking,
    (markEdgesOppLargeAngles_fixed_point sampleCollaborators sampleTables reflexGeometry
      sampleAngleLocals 2 reflexAdapt).1 _ _ sample_tri_marking,
    sample_tet_marking,
    (markEdgesOppLargeAngles_fixed_point sampleCollaborators sampleTables reflexGeometry
      sampleAngleLocals 2 wedgeAdapt).2 _ _ sample_tet_marking⟩

end Detector

/-! ## Properties of `EdgeReshaper::apply` -/

section ReshaperApply

variable {R : Type} [LinearOrderedField R]

/-- When the shape order is not 2, `repositionEdge` fails at once. -/
theorem EdgeReshaper.repositionEdge_of_order (T : Tables) (N : Numerics R) (Q : Quality R)
    (m : Mesh) (simplex : Entity) (L : Locals) (pts : Points R) (edge : Entity)
    (hP : m.order ≠ 2) :
    EdgeReshaper.repositionEdge T N Q m simplex L pts edge = .ok (false, pts) := by
  unfold EdgeReshaper.repositionEdge
  rw [if_pos hP]

/-- When the shape order is not 2, the loop of `apply` changes nothing. -/
theorem EdgeReshaper.applyFrom_of_order (T : Tables) (N : Numerics R) (Q : Quality R)
    (L : Nat → Locals) (rs : EdgeReshaper) (a : Adapt) (pts : Points R)
    (hP : a.mesh.order ≠ 2) : ∀ (k i : Nat),
    EdgeReshaper.applyFrom T N Q L rs k i (a, pts) = .ok (rs, a, pts) := by
  intro k
  induction k with
  | zero => intro i; rfl
  | succ k ih =>
    intro i
    simp only [EdgeReshaper.applyFrom]
    by_cases hb : isBoundaryEntity a.mesh (rs.edges i) = true
    · rw [if_pos hb]; exact ih (i + 1)
    · rw [if_neg hb, EdgeReshaper.repositionEdge_of_order T N Q a.mesh _ _ pts _ hP]
      exact ih (i + 1)

/-- `repositionEdge` writes at most the control point of the edge it is given. -/
theorem EdgeReshaper.repositionEdge_frame (T : Tables) (N : Numerics R) (Q : Quality R)
    (m : Mesh) (simplex : Entity) (L : Locals) (pts pts1 : Points R) (edge : Entity) (b : Bool)
    (h : EdgeReshaper.repositionEdge T N Q m simplex L pts edge = .ok (b, pts1)) :
    ∀ x, x ≠ edge → pts1 x = pts x := by
  intro x hx
  unfold EdgeReshaper.repositionEdge at h
  by_cases hP : m.order ≠ 2
  · rw [if_pos hP] at h
    simp only [Except.ok.injEq, Prod.mk.injEq] at h
    rw [← h.2]
  · rw [if_neg hP] at h
    cases hcfg : EdgeReshaper.configuration T N Q m simplex L pts edge with
    | error e => rw [hcfg] at h; simp at h
    | ok c =>
      rw [hcfg] at h
      simp only at h
      by_cases hv : c.validity > 1 / 10 ^ 10
      · rw [if_pos hv] at h
        simp only [Except.ok.injEq, Prod.mk.injEq] at h
        rw [← h.2]
      · rw [if_neg hv] at h
        split_ifs at h
        · simp only [Except.ok.injEq, Prod.mk.injEq] at h
          rw [← h.2]
          simp [setPoint, hx]
        · simp only [Except.ok.injEq, Prod.mk.injEq] at h
          rw [← h.2]
          simp [setPoint, hx]

/-- The traced loop computes what the loop of `apply` computes. -/
theorem EdgeReshaper.applyFromTraced_fst (T : Tables) (N : Numerics R) (Q : Quality R)
    (L : Nat → Locals) (rs : EdgeReshaper) : ∀ (k i : Nat) (a : Adapt) (pts : Points R),
    (EdgeReshaper.applyFromTraced T N Q L rs k i (a, pts)).1
      = EdgeReshaper.applyFrom T N Q L rs k i (a, pts) := by
  intro k
  induction k with
  | zero => intro i a pts; rfl
  | succ k ih =>
    intro i a pts
    simp only [EdgeReshaper.applyFromTraced, EdgeReshaper.applyFrom]
    by_cases hb : isBoundaryEntity a.mesh (rs.edges i) = true
    · rw [if_pos hb, if_pos hb]; exact ih (i + 1) a pts
    · rw [if_neg hb, if_neg hb]
      cases hr : EdgeReshaper.repositionEdge T N Q a.mesh rs.simplex (L i) pts (rs.edges i) with
      | error e => rfl
      | ok r =>
        obtain ⟨b, pts1⟩ := r
        cases b
        · exact ih (i + 1) a pts1
        · rfl

/-- The edges on which the loop of `apply` calls `repositionEdge` are candidate
edges that are not on the boundary. -/
theorem EdgeReshaper.applyFromTraced_calls (T : Tables) (N : Numerics R) (Q : Quality R)
    (L : Nat → Locals) (rs : EdgeReshaper) : ∀ (k i : Nat) (a : Adapt) (pts : Points R) (x : Entity),
    x ∈ (EdgeReshaper.applyFromTraced T N Q L rs k i (a, pts)).2 →
    isBoundaryEntity a.mesh x = false ∧ ∃ j, i ≤ j ∧ j < i + k ∧ x = rs.edges j := by
  intro k
  induction k with
  | zero => intro i a pts x hx; simp [EdgeReshaper.applyFromTraced] at hx
  | succ k ih =>
    intro i a pts x hx
    simp only [EdgeReshaper.applyFromTraced] at hx
    by_cases hb : isBoundaryEntity a.mesh (rs.edges i) = true
    · rw [if_pos hb] at hx
      obtain ⟨h1, j, h2, h3, h4⟩ := ih (i + 1) a pts x hx
      exact ⟨h1, j, by omega, by omega, h4⟩
    · rw [if_neg hb] at hx
      have hbf : isBoundaryEntity a.mesh (rs.edges i) = false := by simpa using hb
      cases hr : EdgeReshaper.repositionEdge T N Q a.mesh rs.simplex (L i) pts (rs.edges i) with
      | error e =>
        rw [hr] at hx
        simp only [List.mem_singleton] at hx
        subst hx
        exact ⟨hbf, i, le_refl i, by omega, rfl⟩
      | ok r =>
        obtain ⟨b, pts1⟩ := r
        rw [hr] at hx
        cases b
        · simp only [List.mem_cons] at hx
          rcases hx with rfl | hx
          · exact ⟨hbf, i, le_refl i, by omega, rfl⟩
          · obtain ⟨h1, j, h2, h3, h4⟩ := ih (i + 1) a pts1 x hx
            exact ⟨h1, j, by omega, by omega, h4⟩
        · simp only [List.mem_singleton] at hx
          subst hx
          exact ⟨hbf, i, le_refl i, by omega, rfl⟩

/-- The loop of `apply` leaves the control point of every boundary entity as
it was. -/
theorem EdgeReshaper.applyFrom_boundary_points (T : Tables) (N : Numerics R) (Q : Quality R)
    (L : Nat → Locals) (rs : EdgeReshaper) : ∀ (k i : Nat) (a : Adapt) (pts : Points R)
    (rs1 : EdgeReshaper) (a1 : Adapt) (pts1 : Points R),
    EdgeReshaper.applyFrom T N Q L rs k i (a, pts) = .ok (rs1, a1, pts1) →
    ∀ e, isBoundaryEntity a.mesh e = true → pts1 e = pts e := by
  intro k
  induction k with
  | zero =>
    intro i a pts rs1 a1 pts1 h e _
    simp only [EdgeReshaper.applyFrom, Except.ok.injEq, Prod.mk.injEq] at h
    rw [← h.2.2]
  | succ k ih =>
    intro i a pts rs1 a1 pts1 h e he
    simp only [EdgeReshaper.applyFrom] at h
    by_cases hb : isBoundaryEntity a.mesh (rs.edges i) = true
    · rw [if_pos hb] at h
      exact ih (i + 1) a pts rs1 a1 pts1 h e he
    · rw [if_neg hb] at h
      have hne : e ≠ rs.edges i := by
        rintro rfl
        exact hb he
      cases hr : EdgeReshaper.repositionEdge T N Q a.mesh rs.simplex (L i) pts (rs.edges i) with
      | error x => rw [hr] at h; simp at h
      | ok r =>
        obtain ⟨b, pts2⟩ := r
        have hfr := EdgeReshaper.repositionEdge_frame T N Q a.mesh _ _ pts pts2 _ b hr e hne
        rw [hr] at h
        cases b
        · simp only at h
          rw [ih (i + 1) a pts2 rs1 a1 pts1 h e he, hfr]
        · simp only [Except.ok.injEq, Prod.mk.injEq] at h
          rw [← h.2.2, hfr]

/-- C11. On a mesh whose shape order is not 2, `repositionEdge` returns failure
for every element and edge and hands back the coordinates it was given, and
`EdgeReshaper::apply` returns the reshaper, the adapter and the coordinates as
they were: no tag and no flag is cleared, `nr` is unchanged, no point is
written. -/
theorem EdgeReshaper_apply_other_order (T : Tables) (N : Numerics R) (Q : Quality R)
    (L : Nat → Locals) (rs : EdgeReshaper) (a : Adapt) (pts : Points R)
    (hP : a.mesh.order ≠ 2) :
    (∀ (simplex edge : Entity) (Lc : Locals) (p : Points R),
      EdgeReshaper.repositionEdge T N Q a.mesh simplex Lc p edge = .ok (false, p)) ∧
    EdgeReshaper.apply T N Q L rs a pts = .ok (rs, a, pts) :=
  ⟨fun simplex edge Lc p => EdgeReshaper.repositionEdge_of_order T N Q a.mesh simplex Lc p edge hP,
    EdgeReshaper.applyFrom_of_order T N Q L rs a pts hP _ _⟩

theorem EdgeReshaper_apply_other_order_witness :
    cubicTetAdapt.mesh.order ≠ 2 ∧
    ((∀ (simplex edge : Entity) (Lc : Locals) (p : Points ℚ),
      EdgeReshaper.repositionEdge sampleTables sampleNumerics (constQuality 0) cubicTetAdapt.mesh
        simplex Lc p edge = .ok (false, p)) ∧
    EdgeReshaper.apply sampleTables sampleNumerics (constQuality 0) (fun _ => sampleLocals)
        sampleReshaper cubicTetAdapt (samplePoints (-1))
      = .ok (sampleReshaper, cubicTetAdapt, samplePoints (-1))) :=
  ⟨by decide,
    EdgeReshaper_apply_other_order sampleTables sampleNumerics (constQuality 0)
      (fun _ => sampleLocals) sampleReshaper cubicTetAdapt (samplePoints (-1)) (by decide)⟩

theorem sample_boundary_reposition :
    EdgeReshaper.repositionEdge sampleTables sampleNumerics (constQuality 0) boundaryTetMesh 100
        sampleLocals (samplePoints (-1)) 11
      = .ok (true, setPoint (samplePoints (-1)) 11
          (EdgeReshaper.newPoint sampleNumerics ⟨⟨0, 0, 0⟩, ⟨-1, 0, 0⟩, ⟨1, 0, 0⟩, 1, -1⟩)) := by
  have hc : EdgeReshaper.configuration sampleTables sampleNumerics (constQuality 0)
      boundaryTetMesh 100 sampleLocals (samplePoints (-1)) 11
      = .ok ⟨⟨0, 0, 0⟩, ⟨-1, 0, 0⟩, ⟨1, 0, 0⟩, 1, -1⟩ := by
    simp [EdgeReshaper.configuration, findIn, findInFrom, Mesh.getDownward, Buffer.fill,
      boundaryTetMesh, tetMesh, sampleLocals, constBuffer, samplePoints, sampleTables, entry,
      constQuality, Vec3.sub, Vec3.cross, Vec3.dot, Vec3.getLength, sampleNumerics,
      sample_sqrt_one]
  unfold EdgeReshaper.repositionEdge
  rw [hc]
  simp [boundaryTetMesh, tetMesh, constQuality]
  norm_num

theorem sample_boundary_apply :
    EdgeReshaper.apply sampleTables sampleNumerics (constQuality 0) (fun _ => sampleLocals)
        sampleReshaper boundaryTetAdapt (samplePoints (-1))
      = .ok ({ sampleReshaper with nr := 1 },
          clearFlag (clearTag boundaryTetAdapt 100) 11 [Flag.COLLAPSE, Flag.BAD_QUALITY],
          setPoint (samplePoints (-1)) 11
            (EdgeReshaper.newPoint sampleNumerics ⟨⟨0, 0, 0⟩, ⟨-1, 0, 0⟩, ⟨1, 0, 0⟩, 1, -1⟩)) := by
  have h0 : isBoundaryEntity boundaryTetAdapt.mesh (sampleReshaper.edges 0) = true := by decide
  have h1 : isBoundaryEntity boundaryTetAdapt.mesh (sampleReshaper.edges 1) = false := by decide
  have e1 : sampleReshaper.edges (0 + 1) = 11 := by decide
  have hs : sampleReshaper.simplex = 100 := rfl
  have hm : boundaryTetAdapt.mesh = boundaryTetMesh := rfl
  have hne : sampleReshaper.ne.toNat = 2 := by decide
  unfold EdgeReshaper.apply
  rw [hne]
  simp only [EdgeReshaper.applyFrom, h0, if_true]
  rw [if_neg (by rw [h1]; simp), e1, hs, hm, sample_boundary_reposition]
  rfl

/-- C12. `EdgeReshaper::apply` calls `repositionEdge` only on candidate edges
that are not classified on the model boundary, and when it returns, the control
point of every entity on the model boundary is the one it had before. -/
theorem EdgeReshaper_apply_boundary (T : Tables) (N : Numerics R) (Q : Quality R)
    (L : Nat → Locals) (rs : EdgeReshaper) (a : Adapt) (pts : Points R) :
    (EdgeReshaper.applyFromTraced T N Q L rs rs.ne.toNat 0 (a, pts)).1
        = EdgeReshaper.apply T N Q L rs a pts ∧
    (∀ x, x ∈ (EdgeReshaper.applyFromTraced T N Q L rs rs.ne.toNat 0 (a, pts)).2 →
      isBoundaryEntity a.mesh x = false) ∧
    (∀ (rs1 : EdgeReshaper) (a1 : Adapt) (pts1 : Points R),
      EdgeReshaper.apply T N Q L rs a pts = .ok (rs1, a1, pts1) →
      ∀ e, isBoundaryEntity a.mesh e = true → pts1 e = pts e) :=
  ⟨EdgeReshaper.applyFromTraced_fst T N Q L rs _ _ a pts,
    fun x hx => (EdgeReshaper.applyFromTraced_calls T N Q L rs _ _ a pts x hx).1,
    fun rs1 a1 pts1 h => EdgeReshaper.applyFrom_boundary_points T N Q L rs _ _ a pts rs1 a1 pts1 h⟩

theorem EdgeReshaper_apply_boundary_witness :
    EdgeReshaper.apply sampleTables sampleNumerics (constQuality 0) (fun _ => sampleLocals)
        sampleReshaper boundaryTetAdapt (samplePoints (-1))
      = .ok ({ sampleReshaper with nr := 1 },
          clearFlag (clearTag boundaryTetAdapt 100) 11 [Flag.COLLAPSE, Flag.BAD_QUALITY],
          setPoint (samplePoints (-1)) 11
            (EdgeReshaper.newPoint sampleNumerics ⟨⟨0, 0, 0⟩, ⟨-1, 0, 0⟩, ⟨1, 0, 0⟩, 1, -1⟩)) ∧
    isBoundaryEntity boundaryTetAdapt.mesh 12 = true ∧
    setPoint (samplePoints (-1)) 11
        (EdgeReshaper.newPoint sampleNumerics ⟨⟨0, 0, 0⟩, ⟨-1, 0, 0⟩, ⟨1, 0, 0⟩, 1, -1⟩) 12
      = samplePoints (-1) 12 :=
  ⟨sample_boundary_apply, by decide,
    (EdgeReshaper_apply_boundary sampleTables sampleNumerics (constQuality 0)
      (fun _ => sampleLocals) sampleReshaper boundaryTetAdapt (samplePoints (-1))).2.2
      _ _ _ sample_boundary_apply 12 (by decide)⟩

end ReshaperApply

/-! ## Properties of the fix driver -/

section Driver

variable {R : Type} [LinearOrderedField R] {X : Type}

/-- The shape of every result of `fixLargeBoundaryAngles`: both marking loops
have returned, the value is `0`, and `splitEdges` has been called, once and
last, exactly when the sum of the two counts is not zero. -/
theorem fixLargeBoundaryAngles_result (C : Collaborators) (T : Tables) (G : AngleGeometry R)
    (L : Entity → AngleLocals) (E : Engines X) (fuel : Nat) (w : World X)
    (r : Int × World X) (tr : List Event)
    (h : fixLargeBoundaryAngles C T G L E fuel w = some (.ok r, tr)) :
    ∃ n1 a1 n2 a2,
      markEdgesOppLargeAnglesTet C T G L fuel w.adapt = some (.ok (n1, a1)) ∧
      markEdgesOppLargeAnglesTri C G L fuel a1 = some (.ok (n2, a2)) ∧
      (n1 + n2 = 0 → r = (0, { w with adapt := a2 }) ∧ tr = [Event.markTet, Event.markTri]) ∧
      (n1 + n2 ≠ 0 → r = (0, E.splitEdges { w with adapt := a2 }) ∧
        tr = [Event.markTet, Event.markTri, Event.split]) := by
  unfold fixLargeBoundaryAngles at h
  cases h1 : markEdgesOppLargeAnglesTet C T G L fuel w.adapt with
  | none => rw [h1] at h; simp at h
  | some r1 =>
    cases r1 with
    | error x => rw [h1] at h; simp at h
    | ok s1 =>
      obtain ⟨n1, a1⟩ := s1
      rw [h1] at h
      simp only at h
      cases h2 : markEdgesOppLargeAnglesTri C G L fuel a1 with
      | none => rw [h2] at h; simp at h
      | some r2 =>
        cases r2 with
        | error x => rw [h2] at h; simp at h
        | ok s2 =>
          obtain ⟨n2, a2⟩ := s2
          rw [h2] at h
          simp only at h
          refine ⟨n1, a1, n2, a2, rfl, h2, ?_, ?_⟩
          · intro h0
            rw [if_pos h0] at h
            simp only [Option.some.injEq, Prod.mk.injEq, Except.ok.injEq] at h
            exact ⟨h.1.symm, h.2.symm⟩
          · intro h0
            rw [if_neg h0] at h
            simp only [Option.some.injEq, Prod.mk.injEq, Except.ok.injEq] at h
            exact ⟨h.1.symm, h.2.symm⟩

/-- With room for two passes in each marking loop, `fixLargeBoundaryAngles`
ends, with a value or an abort. -/
theorem fixLargeBoundaryAngles_total (C : Collaborators) (T : Tables) (G : AngleGeometry R)
    (L : Entity → AngleLocals) (E : Engines X) (fuel : Nat) (hfuel : 2 ≤ fuel) (w : World X) :
    fixLargeBoundaryAngles C T G L E fuel w ≠ none := by
  have htet : ∀ a, ∃ r, markEdgesOppLargeAnglesTet C T G L fuel a = some r := by
    intro a
    unfold markEdgesOppLargeAnglesTet
    rw [markEdgesOppLargeAnglesTet_loop_eq T G L fuel hfuel]
    exact ⟨_, rfl⟩
  have htri : ∀ a, ∃ r, markEdgesOppLargeAnglesTri C G L fuel a = some r := by
    intro a
    unfold markEdgesOppLargeAnglesTri
    rw [markEdgesOppLargeAnglesTri_loop_eq G L fuel hfuel]
    exact ⟨_, rfl⟩
  unfold fixLargeBoundaryAngles
  obtain ⟨r1, h1⟩ := htet w.adapt
  rw [h1]
  cases r1 with
  | error x => simp
  | ok s1 =>
    obtain ⟨n1, a1⟩ := s1
    obtain ⟨r2, h2⟩ := htri a1
    simp only [h2]
    cases r2 with
    | error x => simp
    | ok s2 =>
      obtain ⟨n2, a2⟩ := s2
      simp only
      split_ifs <;> simp

theorem sample_tet_marking_flat :
    markEdgesOppLargeAnglesTet sampleCollaborators sampleTables reflexGeometry sampleAngleLocals 2
        reflexAdapt = some (.ok (0, reflexAdapt)) := by
  rfl

theorem sample_fix_angles :
    fixLargeBoundaryAngles sampleCollaborators sampleTables reflexGeometry sampleAngleLocals
        sampleEngines 2 ⟨reflexAdapt, ()⟩
      = some (.ok (0, sampleEngines.splitEdges
            ⟨setFlag (setFlag reflexAdapt 13 [Flag.SPLIT]) 13 [Flag.BAD_QUALITY], ()⟩),
          [Event.markTet, Event.markTri, Event.split]) := by
  unfold fixLargeBoundaryAngles
  simp only [sample_tet_marking_flat, sample_tri_marking]
  rfl

/-- C13, as amended. `fixLargeBoundaryAngles` returns `0` whenever it returns.
The total of the two marking loops (tetrahedron count plus triangle count, each
a sum over the processes) is not returned: it decides whether `splitEdges` is
called, which happens exactly when it is not zero. -/
theorem fixLargeBoundaryAngles_returns_zero (C : Collaborators) (T : Tables)
    (G : AngleGeometry R) (L : Entity → AngleLocals) (E : Engines X) (fuel : Nat) (w : World X)
    (r : Int × World X) (tr : List Event)
    (h : fixLargeBoundaryAngles C T G L E fuel w = some (.ok r, tr)) :
    r.1 = 0 ∧
    ∃ n1 a1 n2 a2,
      markEdgesOppLargeAnglesTet C T G L fuel w.adapt = some (.ok (n1, a1)) ∧
      markEdgesOppLargeAnglesTri C G L fuel a1 = some (.ok (n2, a2)) ∧
      (Event.split ∈ tr ↔ n1 + n2 ≠ 0) := by
  obtain ⟨n1, a1, n2, a2, h1, h2, hz, hnz⟩ := fixLargeBoundaryAngles_result C T G L E fuel w r tr h
  by_cases h0 : n1 + n2 = 0
  · obtain ⟨hr, htr⟩ := hz h0
    refine ⟨by rw [hr], n1, a1, n2, a2, h1, h2, ?_⟩
    rw [htr]
    simp [h0]
  · obtain ⟨hr, htr⟩ := hnz h0
    refine ⟨by rw [hr], n1, a1, n2, a2, h1, h2, ?_⟩
    rw [htr]
    simp [h0]

theorem fixLargeBoundaryAngles_returns_zero_witness :
    fixLargeBoundaryAngles sampleCollaborators sampleTables reflexGeometry sampleAngleLocals
        sampleEngines 2 ⟨reflexAdapt, ()⟩
      = some (.ok (0, sampleEngines.splitEdges
            ⟨setFlag (setFlag reflexAdapt 13 [Flag.SPLIT]) 13 [Flag.BAD_QUALITY], ()⟩),
          [Event.markTet, Event.markTri, Event.split]) ∧
    ((0 : Int) = 0 ∧
    ∃ n1 a1 n2 a2,
      markEdgesOppLargeAnglesTet sampleCollaborators sampleTables reflexGeometry
        sampleAngleLocals 2 reflexAdapt = some (.ok (n1, a1)) ∧
      markEdgesOppLargeAnglesTri sampleCollaborators reflexGeometry sampleAngleLocals 2 a1
        = some (.ok (n2, a2)) ∧
      (Event.split ∈ [Event.markTet, Event.markTri, Event.split] ↔ n1 + n2 ≠ 0)) :=
  ⟨sample_fix_angles,
    fixLargeBoundaryAngles_returns_zero sampleCollaborators sampleTables reflexGeometry
      sampleAngleLocals sampleEngines 2 ⟨reflexAdapt, ()⟩ _ _ sample_fix_angles⟩

/-- C13, as stated, fails. On the triangle `50` with a reflex corner between
its two boundary edges, the triangle loop flags the owned interior edge `13`
(it carried no `SPLIT` before) and reports the count `1`, the split operator is
called, and `fixLargeBoundaryAngles` returns `0`. -/
theorem fixLargeBoundaryAngles_zero_after_flagging :
    (markEdgesOppLargeAnglesTri sampleCollaborators reflexGeometry sampleAngleLocals 2
        reflexAdapt).map (Except.map (fun r => r.1)) = some (.ok 1) ∧
    (fixLargeBoundaryAngles sampleCollaborators sampleTables reflexGeometry sampleAngleLocals
        sampleEngines 2 ⟨reflexAdapt, ()⟩).map
        (fun r => (r.1.map (fun s => (s.1, getFlag s.2.adapt 13 [Flag.SPLIT],
          s.2.adapt.mesh.owned 13)), r.2))
      = some (.ok (0, true, true), [Event.markTet, Event.markTri, Event.split]) ∧
    getFlag reflexAdapt 13 [Flag.SPLIT] = false := by
  refine ⟨?_, ?_, by decide⟩
  · rw [sample_tri_marking]; rfl
  · rw [sample_fix_angles]; rfl

/-- C17. When `fixLargeBoundaryAngles` returns, it has called the tetrahedron
marking loop once, then the triangle marking loop once, and then `splitEdges`
exactly once if the sum of their two counts is not zero and not at all if it is
zero; nothing is called after the split. With room for two passes in each
marking loop it always ends. -/
theorem fixLargeBoundaryAngles_single_pass (C : Collaborators) (T : Tables)
    (G : AngleGeometry R) (L : Entity → AngleLocals) (E : Engines X) (fuel : Nat) (w : World X)
    (r : Int × World X) (tr : List Event)
    (h : fixLargeBoundaryAngles C T G L E fuel w = some (.ok r, tr)) :
    (∀ fuel1, 2 ≤ fuel1 → fixLargeBoundaryAngles C T G L E fuel1 w ≠ none) ∧
    ∃ n1 a1 n2 a2,
      markEdgesOppLargeAnglesTet C T G L fuel w.adapt = some (.ok (n1, a1)) ∧
      markEdgesOppLargeAnglesTri C G L fuel a1 = some (.ok (n2, a2)) ∧
      (n1 + n2 ≠ 0 → tr = [Event.markTet, Event.markTri, Event.split] ∧
        tr.count Event.split = 1 ∧ r.2 = E.splitEdges { w with adapt := a2 }) ∧
      (n1 + n2 = 0 → tr = [Event.markTet, Event.markTri] ∧
        tr.count Event.split = 0 ∧ r.2 = { w with adapt := a2 }) ∧
      tr.count Event.markTet = 1 ∧ tr.count Event.markTri = 1 := by
  refine ⟨fun fuel1 hf => fixLargeBoundaryAngles_total C T G L E fuel1 hf w, ?_⟩
  obtain ⟨n1, a1, n2, a2, h1, h2, hz, hnz⟩ := fixLargeBoundaryAngles_result C T G L E fuel w r tr h
  refine ⟨n1, a1, n2, a2, h1, h2, ?_, ?_, ?_⟩
  · intro h0
    obtain ⟨hr, htr⟩ := hnz h0
    rw [hr, htr]
    exact ⟨rfl, by decide, rfl⟩
  · intro h0
    obtain ⟨hr, htr⟩ := hz h0
    rw [hr, htr]
    exact ⟨rfl, by decide, rfl⟩
  · by_cases h0 : n1 + n2 = 0
    · rw [(hz h0).2]; exact ⟨by decide, by decide⟩
    · rw [(hnz h0).2]; exact ⟨by decide, by decide⟩

theorem fixLargeBoundaryAngles_single_pass_witness :
    fixLargeBoundaryAngles sampleCollaborators sampleTables reflexGeometry sampleAngleLocals
        sampleEngines 2 ⟨reflexAdapt, ()⟩
      = some (.ok (0, sampleEngines.splitEdges
            ⟨setFlag (setFlag reflexAdapt 13 [Flag.SPLIT]) 13 [Flag.BAD_QUALITY], ()⟩),
          [Event.markTet, Event.markTri, Event.split]) ∧
    ((∀ fuel1, 2 ≤ fuel1 →
      fixLargeBoundaryAngles sampleCollaborators sampleTables reflexGeometry sampleAngleLocals
        sampleEngines fuel1 ⟨reflexAdapt, ()⟩ ≠ none) ∧
    ∃ n1 a1 n2 a2,
      markEdgesOppLargeAnglesTet sampleCollaborators sampleTables reflexGeometry
        sampleAngleLocals 2 reflexAdapt = some (.ok (n1, a1)) ∧
      markEdgesOppLargeAnglesTri sampleCollaborators reflexGeometry sampleAngleLocals 2 a1
        = some (.ok (n2, a2)) ∧
      (n1 + n2 ≠ 0 →
        [Event.markTet, Event.markTri, Event.split] = [Event.markTet, Event.markTri, Event.split] ∧
        [Event.markTet, Event.markTri, Event.split].count Event.split = 1 ∧
        sampleEngines.splitEdges
            ⟨setFlag (setFlag reflexAdapt 13 [Flag.SPLIT]) 13 [Flag.BAD_QUALITY], ()⟩
          = sampleEngines.splitEdges { (⟨reflexAdapt, ()⟩ : World Unit) with adapt := a2 }) ∧
      (n1 + n2 = 0 →
        [Event.markTet, Event.markTri, Event.split] = [Event.markTet, Event.markTri] ∧
        [Event.markTet, Event.markTri, Event.split].count Event.split = 0 ∧
        sampleEngines.splitEdges
            ⟨setFlag (setFlag reflexAdapt 13 [Flag.SPLIT]) 13 [Flag.BAD_QUALITY], ()⟩
          = { (⟨reflexAdapt, ()⟩ : World Unit) with adapt := a2 }) ∧
      [Event.markTet, Event.markTri, Event.split].count Event.markTet = 1 ∧
      [Event.markTet, Event.markTri, Event.split].count Event.markTri = 1) :=
  ⟨sample_fix_angles,
    fixLargeBoundaryAngles_single_pass sampleCollaborators sampleTables reflexGeometry
      sampleAngleLocals sampleEngines 2 ⟨reflexAdapt, ()⟩ _ _ sample_fix_angles⟩

theorem sample_fix_invalid :
    fixInvalidEdges sampleCollaborators sampleTables (fun _ => constBuffer 77)
        (fun _ => constBuffer 78) (constBuffer 0) sampleEngines ⟨tetAdapt, ()⟩
      = (.ok (6, ⟨markedTetAdapt, ()⟩), [Event.reposition, Event.collapse, Event.swap]) := by
  rfl

/-- C15. If the tagging pass `markInvalidEntities` reports `0` invalid elements,
`markEdgesToFix` returns `0` and hands back the adapter exactly as the tagging
pass left it (it sets no flag), and `fixInvalidEdges` returns `0` with the same
state and without calling the reposition, collapse or swap stage. -/
theorem fixInvalidEdges_nothing_invalid (C : Collaborators) (T : Tables)
    (ed0 faces0 : Entity → Buffer) (edges0 : Buffer) (E : Engines X) (w : World X)
    (flag : List Flag) (h : (C.markInvalidEntities w.adapt).1 = 0) :
    markEdgesToFix C T ed0 faces0 edges0 w.adapt flag
        = .ok (0, (C.markInvalidEntities w.adapt).2) ∧
    fixInvalidEdges C T ed0 faces0 edges0 E w
      = (.ok (0, { w with adapt := (C.markInvalidEntities w.adapt).2 }), []) := by
  have hm : ∀ fl, markEdgesToFix C T ed0 faces0 edges0 w.adapt fl
      = .ok (0, (C.markInvalidEntities w.adapt).2) := by
    intro fl
    unfold markEdgesToFix
    simp only
    rw [if_pos h]
  refine ⟨hm flag, ?_⟩
  unfold fixInvalidEdges
  rw [hm]
  simp

theorem fixInvalidEdges_nothing_invalid_witness :
    (quietCollaborators.markInvalidEntities (⟨tetAdapt, ()⟩ : World Unit).adapt).1 = 0 ∧
    (markEdgesToFix quietCollaborators sampleTables (fun _ => constBuffer 77)
        (fun _ => constBuffer 78) (constBuffer 0) (⟨tetAdapt, ()⟩ : World Unit).adapt
        [Flag.BAD_QUALITY, Flag.COLLAPSE]
        = .ok (0, (quietCollaborators.markInvalidEntities (⟨tetAdapt, ()⟩ : World Unit).adapt).2) ∧
    fixInvalidEdges quietCollaborators sampleTables (fun _ => constBuffer 77)
        (fun _ => constBuffer 78) (constBuffer 0) sampleEngines ⟨tetAdapt, ()⟩
      = (.ok (0, { (⟨tetAdapt, ()⟩ : World Unit) with
            adapt := (quietCollaborators.markInvalidEntities
              (⟨tetAdapt, ()⟩ : World Unit).adapt).2 }), [])) :=
  ⟨rfl,
    fixInvalidEdges_nothing_invalid quietCollaborators sampleTables (fun _ => constBuffer 77)
      (fun _ => constBuffer 78) (constBuffer 0) sampleEngines ⟨tetAdapt, ()⟩
      [Flag.BAD_QUALITY, Flag.COLLAPSE] rfl⟩

end Driver

/-! ## The tag encoding -/

/-- C20. For a tag above `1` the decoded index `(tag-2) % 6` lies in `0..5` and
the tag is `6*dim + index + 2` with `dim = (tag-2)/6`; a tag in `2..25` decodes
to a `dim` in `0..3`; two tags above `1` with the same decoding are equal; and
for `dim` in `0..3` and `index` in `0..5` the tag `6*dim + index + 2` lies in
`2..25` and decodes to `(dim, index)`. Decoding is thus a bijection between the
tags `2..25` and the pairs `(dim, index)`. -/
theorem tag_decode_bijection (tag tag1 dim index : Int) (h : 1 < tag) (h1 : 1 < tag1)
    (hd0 : 0 ≤ dim) (hd3 : dim ≤ 3) (hi0 : 0 ≤ index) (hi5 : index ≤ 5) :
    (tagDim tag = (tag - 2) / 6 ∧ tagIndex tag = (tag - 2) % 6 ∧
      0 ≤ tagIndex tag ∧ tagIndex tag ≤ 5 ∧ tag = 6 * tagDim tag + tagIndex tag + 2) ∧
    (tag ≤ 25 → 0 ≤ tagDim tag ∧ tagDim tag ≤ 3) ∧
    (tagDim tag = tagDim tag1 → tagIndex tag = tagIndex tag1 → tag = tag1) ∧
    (2 ≤ 6 * dim + index + 2 ∧ 6 * dim + index + 2 ≤ 25 ∧
      tagDim (6 * dim + index + 2) = dim ∧ tagIndex (6 * dim + index + 2) = index) := by
  have e1 := tagDim_eq tag h
  have e2 := tagIndex_eq tag h
  have e3 := tagDim_eq tag1 h1
  have e4 := tagIndex_eq tag1 h1
  have e5 := tagDim_eq (6 * dim + index + 2) (by omega)
  have e6 := tagIndex_eq (6 * dim + index + 2) (by omega)
  refine ⟨⟨e1, e2, ?_, ?_, ?_⟩, ?_, ?_, ?_, ?_, ?_, ?_⟩
  · rw [e2]; omega
  · rw [e2]; omega
  · rw [e1, e2]; omega
  · intro h25; rw [e1]; omega
  · rw [e1, e2, e3, e4]; omega
  · omega
  · omega
  · rw [e5]; omega
  · rw [e6]; omega

theorem tag_decode_bijection_witness :
    ((1 : Int) < 17) ∧ ((1 : Int) < 9) ∧ ((0 : Int) ≤ 3) ∧ ((3 : Int) ≤ 3) ∧ ((0 : Int) ≤ 5) ∧
    ((5 : Int) ≤ 5) ∧
    ((tagDim 17 = (17 - 2) / 6 ∧ tagIndex 17 = (17 - 2) % 6 ∧
      0 ≤ tagIndex 17 ∧ tagIndex 17 ≤ 5 ∧ (17 : Int) = 6 * tagDim 17 + tagIndex 17 + 2) ∧
    ((17 : Int) ≤ 25 → 0 ≤ tagDim 17 ∧ tagDim 17 ≤ 3) ∧
    (tagDim 17 = tagDim 9 → tagIndex 17 = tagIndex 9 → (17 : Int) = 9) ∧
    (2 ≤ (6 * 3 + 5 + 2 : Int) ∧ (6 * 3 + 5 + 2 : Int) ≤ 25 ∧
      tagDim (6 * 3 + 5 + 2) = 3 ∧ tagIndex (6 * 3 + 5 + 2) = 5)) :=
  ⟨by decide, by decide, by decide, by decide, by decide, by decide,
    tag_decode_bijection 17 9 3 5 (by decide) (by decide) (by decide) (by decide) (by decide)
      (by decide)⟩

/-! ## Further properties of the defect classifier -/

/-- C21. On a 2-D mesh, for a triangle with three distinct downward edges and a
vertex index `i` in `0..2`, `markEdges` called with the tag `2 + i` returns `2`
and stores the edges `ed[i]` and `ed[(i+2) % 3]` in the slots `0` and `1`, leaving
the other slots alone. The two edges are distinct, and when edge `j` of the
triangle joins its vertices `j` and `(j+1) % 3` (three distinct vertices), they
are exactly the edges of the triangle that contain the vertex `i`. -/
theorem markEdges_vertex_tag_2d (T : Tables) (m : Mesh) (e : Entity) (i : Nat)
    (edges ed0 faces0 : Buffer) (x v : Nat → Entity)
    (hmd : m.dimension = 2) (hi : i < 3)
    (hed : m.down e 1 = [x 0, x 1, x 2]) (hnd : [x 0, x 1, x 2].Nodup)
    (hvd : [v 0, v 1, v 2].Nodup)
    (hjoin : ∀ j, j < 3 → m.down (x j) 0 = [v j, v ((j + 1) % 3)]) :
    ∃ buf, markEdges T m e (2 + (i : Int)) edges ed0 faces0 = .ok (2, buf) ∧
      buf 0 = x i ∧ buf 1 = x ((i + 2) % 3) ∧ (∀ k, 2 ≤ k → buf k = edges k) ∧
      buf 0 ≠ buf 1 ∧
      ∀ j, j < 3 → (v i ∈ m.down (x j) 0 ↔ (x j = buf 0 ∨ x j = buf 1)) := by
  have htag : (1 : Int) < 2 + (i : Int) := by omega
  have hdim : tagDim (2 + (i : Int)) = 0 := by rw [tagDim_eq _ htag]; omega
  have hidx : (tagIndex (2 + (i : Int))).toNat = i := by rw [tagIndex_eq _ htag]; omega
  have h1 : ¬ (2 + (i : Int) ≤ 1) := by omega
  have hfill : ∀ k, k < 3 → ed0.fill (m.down e 1) k = x k := by
    intro k hk
    rw [hed]
    interval_cases k <;> simp [Buffer.fill]
  have hi2 : (i + 2) % 3 < 3 := Nat.mod_lt _ (by decide)
  refine ⟨(edges.set 0 (ed0.fill (m.down e 1) i)).set 1 (ed0.fill (m.down e 1) ((i + 2) % 3)),
    ?_, ?_, ?_, ?_, ?_, ?_⟩
  · simp [markEdges, h1, hdim, hidx, hmd, Mesh.getDownward]
  · simp [Buffer.set, hfill i hi]
  · simp [Buffer.set, hfill _ hi2]
  · intro k hk
    simp [Buffer.set, show k ≠ 1 by omega, show k ≠ 0 by omega]
  · have hb0 : ((edges.set 0 (ed0.fill (m.down e 1) i)).set 1
        (ed0.fill (m.down e 1) ((i + 2) % 3))) 0 = x i := by
      simp [Buffer.set, hfill i hi]
    have hb1 : ((edges.set 0 (ed0.fill (m.down e 1) i)).set 1
        (ed0.fill (m.down e 1) ((i + 2) % 3))) 1 = x ((i + 2) % 3) := by
      simp [Buffer.set, hfill _ hi2]
    rw [hb0, hb1]
    simp only [List.nodup_cons, List.mem_cons, List.mem_singleton, List.not_mem_nil,
      not_or, List.nodup_nil, and_true, not_false_eq_true, or_false] at hnd
    obtain ⟨⟨x01, x02⟩, x12⟩ := hnd
    clear hidx hdim htag h1
    interval_cases i
    · exact x02
    · exact Ne.symm x01
    · exact Ne.symm x12
  · intro j hj
    have hb0 : ((edges.set 0 (ed0.fill (m.down e 1) i)).set 1
        (ed0.fill (m.down e 1) ((i + 2) % 3))) 0 = x i := by
      simp [Buffer.set, hfill i hi]
    have hb1 : ((edges.set 0 (ed0.fill (m.down e 1) i)).set 1
        (ed0.fill (m.down e 1) ((i + 2) % 3))) 1 = x ((i + 2) % 3) := by
      simp [Buffer.set, hfill _ hi2]
    rw [hjoin j hj, hb0, hb1]
    simp only [List.nodup_cons, List.mem_cons, List.mem_singleton, List.not_mem_nil,
      not_or, List.nodup_nil, and_true, not_false_eq_true, or_false] at hnd hvd ⊢
    obtain ⟨⟨x01, x02⟩, x12⟩ := hnd
    obtain ⟨⟨v01, v02⟩, v12⟩ := hvd
    have x10 := Ne.symm x01
    have x20 := Ne.symm x02
    have x21 := Ne.symm x12
    have v10 := Ne.symm v01
    have v20 := Ne.symm v02
    have v21 := Ne.symm v12
    clear hidx hdim htag h1 hb0 hb1 hjoin hfill
    interval_cases i <;> interval_cases j <;>
      simp [x01, x02, x12, x10, x20, x21, v01, v02, v12, v10, v20, v21]

theorem markEdges_vertex_tag_2d_witness :
    ∃ buf, markEdges sampleTables triMesh 50 (2 + ((1 : Nat) : Int)) (constBuffer 9)
        (constBuffer 77) (constBuffer 78) = .ok (2, buf) ∧
      buf 0 = (fun j => 11 + j) 1 ∧ buf 1 = (fun j => 11 + j) ((1 + 2) % 3) ∧
      (∀ k, 2 ≤ k → buf k = constBuffer 9 k) ∧
      buf 0 ≠ buf 1 ∧
      ∀ j, j < 3 → ((fun j => 1 + j) 1 ∈ triMesh.down ((fun j => 11 + j) j) 0 ↔
        ((fun j => 11 + j) j = buf 0 ∨ (fun j => 11 + j) j = buf 1)) :=
  markEdges_vertex_tag_2d sampleTables triMesh 50 1 (constBuffer 9) (constBuffer 77)
    (constBuffer 78) (fun j => 11 + j) (fun j => 1 + j) (by decide) (by decide) (by decide)
    (by decide) (by decide) (by decide)

/-! ## Further properties of the boundary-angle detector -/

section DetectorResults

variable {R : Type} [LinearOrderedField R]

/-- The search for the first edge index whose two faces are on the boundary
returns `-1` when there is none in its range and the first one otherwise. -/
theorem findBoundaryFacePair_spec (T : Tables) (m : Mesh) (faces : Buffer) : ∀ (k i : Nat),
    (findBoundaryFacePair T m faces k i = -1 ∧
      ∀ t, i ≤ t → t < i + k →
        ¬ (isBoundaryEntity m (faces (T.edgeFaces t 0)) = true ∧
          isBoundaryEntity m (faces (T.edgeFaces t 1)) = true)) ∨
    (∃ j : Nat, findBoundaryFacePair T m faces k i = (j : Int) ∧ i ≤ j ∧ j < i + k ∧
      (isBoundaryEntity m (faces (T.edgeFaces j 0)) = true ∧
        isBoundaryEntity m (faces (T.edgeFaces j 1)) = true) ∧
      ∀ t, i ≤ t → t < j →
        ¬ (isBoundaryEntity m (faces (T.edgeFaces t 0)) = true ∧
          isBoundaryEntity m (faces (T.edgeFaces t 1)) = true)) := by
  intro k
  induction k with
  | zero =>
    intro i
    left
    exact ⟨rfl, fun t h1 h2 => by omega⟩
  | succ k ih =>
    intro i
    simp only [findBoundaryFacePair]
    by_cases hp : isBoundaryEntity m (faces (T.edgeFaces i 0)) = true ∧
        isBoundaryEntity m (faces (T.edgeFaces i 1)) = true
    · rw [if_pos hp]
      right
      exact ⟨i, rfl, le_refl i, by omega, hp, fun t h1 h2 => by omega⟩
    · rw [if_neg hp]
      rcases ih (i + 1) with ⟨h1, h2⟩ | ⟨j, h1, h2, h3, h4, h5⟩
      · left
        refine ⟨h1, ?_⟩
        intro t ht1 ht2
        by_cases hti : t = i
        · subst hti; exact hp
        · exact h2 t (by omega) (by omega)
      · right
        refine ⟨j, h1, by omega, by omega, h4, ?_⟩
        intro t ht1 ht2
        by_cases hti : t = i
        · subst hti; exact hp
        · exact h5 t (by omega) ht2

/-- The sampling loop reports a nearly coplanar pair of normals exactly when
one of its samples has one. -/
theorem nearlyCoplanarFrom_iff (G : AngleGeometry R) (edge leftFace rightFace : Entity) :
    ∀ (k i : Nat), nearlyCoplanarFrom G edge leftFace rightFace k i = true ↔
      ∃ s, i ≤ s ∧ s < i + k ∧
        |(G.sampleNormal leftFace edge s).dot (G.sampleNormal rightFace edge s)| > 9 / 10 := by
  intro k
  induction k with
  | zero =>
    intro i
    simp only [nearlyCoplanarFrom]
    constructor
    · intro h; exact absurd h (by simp)
    · rintro ⟨s, h1, h2, _⟩; omega
  | succ k ih =>
    intro i
    simp only [nearlyCoplanarFrom]
    by_cases hp : |(G.sampleNormal leftFace edge i).dot (G.sampleNormal rightFace edge i)|
        > 9 / 10
    · rw [if_pos hp]
      exact ⟨fun _ => ⟨i, le_refl i, by omega, hp⟩, fun _ => rfl⟩
    · rw [if_neg hp, ih (i + 1)]
      constructor
      · rintro ⟨s, h1, h2, h3⟩
        exact ⟨s, by omega, by omega, h3⟩
      · rintro ⟨s, h1, h2, h3⟩
        by_cases hsi : s = i
        · subst hsi; exact absurd h3 hp
        · exact ⟨s, by omega, by omega, h3⟩

/-- C22. Whenever `isLargeAngleTri` returns an edge (a non-null handle), there
is an `i` in `0..2` such that the edges `i` and `(i+1) % 3` of the face are both
on the boundary and the corner at the vertex `(i+1) % 3` was judged large, and
the returned edge is the edge `(i+2) % 3`: it is not on the boundary, it does
not carry `SPLIT`, and, edge `j` joining the vertices `j` and `(j+1) % 3`,
neither of its two vertices is the flagged vertex `(i+1) % 3`. When these tests
pass at no `i` in `0..2`, the function returns the null handle. -/
theorem isLargeAngleTri_returns (G : AngleGeometry R) (a : Adapt) (L : AngleLocals)
    (e : Entity) :
    (isLargeAngleTri G a L e ≠ 0 →
      ∃ i, i < 3 ∧
        isBoundaryEntity a.mesh ((a.mesh.getDownward e 1 L.triEdges).2 i) = true ∧
        isBoundaryEntity a.mesh ((a.mesh.getDownward e 1 L.triEdges).2 ((i + 1) % 3)) = true ∧
        isCornerTriAngleLarge G a.mesh L e ((i + 1) % 3) = true ∧
        isLargeAngleTri G a L e = (a.mesh.getDownward e 1 L.triEdges).2 ((i + 2) % 3) ∧
        isBoundaryEntity a.mesh (isLargeAngleTri G a L e) = false ∧
        getFlag a (isLargeAngleTri G a L e) [Flag.SPLIT] = false ∧
        (i + 2) % 3 ≠ (i + 1) % 3 ∧ ((i + 2) % 3 + 1) % 3 ≠ (i + 1) % 3) ∧
    ((∀ i, i < 3 →
        ¬ (isBoundaryEntity a.mesh ((a.mesh.getDownward e 1 L.triEdges).2 i) = true ∧
          isBoundaryEntity a.mesh ((a.mesh.getDownward e 1 L.triEdges).2 ((i + 1) % 3)) = true ∧
          isCornerTriAngleLarge G a.mesh L e ((i + 1) % 3) = true ∧
          getFlag a ((a.mesh.getDownward e 1 L.triEdges).2 ((i + 2) % 3)) [Flag.SPLIT] = false ∧
          isBoundaryEntity a.mesh ((a.mesh.getDownward e 1 L.triEdges).2 ((i + 2) % 3))
            = false)) →
      isLargeAngleTri G a L e = 0) := by
  constructor
  · intro h
    obtain ⟨i, _, hi3, hp, hr⟩ := isLargeAngleTriFrom_sound G a L e _ 3 0 h
    have hr1 : isLargeAngleTri G a L e = (a.mesh.getDownward e 1 L.triEdges).2 ((i + 2) % 3) := hr
    simp only [isLargeAngleTri.passes, Bool.and_eq_true, Bool.not_eq_true'] at hp
    obtain ⟨⟨⟨⟨p1, p2⟩, p3⟩, p4⟩, p5⟩ := hp
    refine ⟨i, by omega, p1, p2, p3, hr1, ?_, ?_, by omega, by omega⟩
    · rw [hr1]; exact p5
    · rw [hr1]; exact p4
  · intro hnone
    by_contra h
    obtain ⟨i, _, hi3, hp, _⟩ := isLargeAngleTriFrom_sound G a L e _ 3 0 h
    simp only [isLargeAngleTri.passes, Bool.and_eq_true, Bool.not_eq_true'] at hp
    obtain ⟨⟨⟨⟨p1, p2⟩, p3⟩, p4⟩, p5⟩ := hp
    exact hnone i (by omega) ⟨p1, p2, p3, p4, p5⟩

theorem isLargeAngleTri_returns_witness :
    isLargeAngleTri reflexGeometry reflexAdapt (sampleAngleLocals 50) 50 ≠ 0 ∧
    ∃ i, i < 3 ∧
      isBoundaryEntity reflexAdapt.mesh
        ((reflexAdapt.mesh.getDownward 50 1 (sampleAngleLocals 50).triEdges).2 i) = true ∧
      isBoundaryEntity reflexAdapt.mesh
        ((reflexAdapt.mesh.getDownward 50 1 (sampleAngleLocals 50).triEdges).2 ((i + 1) % 3))
        = true ∧
      isCornerTriAngleLarge reflexGeometry reflexAdapt.mesh (sampleAngleLocals 50) 50
        ((i + 1) % 3) = true ∧
      isLargeAngleTri reflexGeometry reflexAdapt (sampleAngleLocals 50) 50
        = (reflexAdapt.mesh.getDownward 50 1 (sampleAngleLocals 50).triEdges).2 ((i + 2) % 3) ∧
      isBoundaryEntity reflexAdapt.mesh
        (isLargeAngleTri reflexGeometry reflexAdapt (sampleAngleLocals 50) 50) = false ∧
      getFlag reflexAdapt (isLargeAngleTri reflexGeometry reflexAdapt (sampleAngleLocals 50) 50)
        [Flag.SPLIT] = false ∧
      (i + 2) % 3 ≠ (i + 1) % 3 ∧ ((i + 2) % 3 + 1) % 3 ≠ (i + 1) % 3 :=
  have h : isLargeAngleTri reflexGeometry reflexAdapt (sampleAngleLocals 50) 50 ≠ 0 := by
    decide!
  ⟨h, (isLargeAngleTri_returns reflexGeometry reflexAdapt (sampleAngleLocals 50) 50).1 h⟩

/-- C23. `isLargeAngleTet` returns the null handle when no edge index `i` in
`0..5` has both faces `faces[edgeFaces[i][0]]` and `faces[edgeFaces[i][1]]` on
the boundary, and when the edge at the first such index is not itself on the
boundary. When it returns an edge, there is a first such index, the edge at it
is on the boundary, the returned edge is `edges[oppEdges[index]]`, and at one of
the `P+1` sample points along the shared edge `|leftN . rightN|` exceeds `0.9`. -/
theorem isLargeAngleTet_returns (T : Tables) (G : AngleGeometry R) (m : Mesh)
    (L : AngleLocals) (e : Entity) :
    ((∀ i, i < 6 →
        ¬ (isBoundaryEntity m ((m.getDownward e 2 L.faces).2 (T.edgeFaces i 0)) = true ∧
          isBoundaryEntity m ((m.getDownward e 2 L.faces).2 (T.edgeFaces i 1)) = true)) →
      isLargeAngleTet T G m L e = 0) ∧
    (∀ idx, idx < 6 →
      (isBoundaryEntity m ((m.getDownward e 2 L.faces).2 (T.edgeFaces idx 0)) = true ∧
        isBoundaryEntity m ((m.getDownward e 2 L.faces).2 (T.edgeFaces idx 1)) = true) →
      (∀ t, t < idx →
        ¬ (isBoundaryEntity m ((m.getDownward e 2 L.faces).2 (T.edgeFaces t 0)) = true ∧
          isBoundaryEntity m ((m.getDownward e 2 L.faces).2 (T.edgeFaces t 1)) = true)) →
      isBoundaryEntity m ((m.getDownward e 1 L.tetEdges).2 idx) = false →
      isLargeAngleTet T G m L e = 0) ∧
    (isLargeAngleTet T G m L e ≠ 0 →
      ∃ idx, idx < 6 ∧
        (isBoundaryEntity m ((m.getDownward e 2 L.faces).2 (T.edgeFaces idx 0)) = true ∧
          isBoundaryEntity m ((m.getDownward e 2 L.faces).2 (T.edgeFaces idx 1)) = true) ∧
        (∀ t, t < idx →
          ¬ (isBoundaryEntity m ((m.getDownward e 2 L.faces).2 (T.edgeFaces t 0)) = true ∧
            isBoundaryEntity m ((m.getDownward e 2 L.faces).2 (T.edgeFaces t 1)) = true)) ∧
        isBoundaryEntity m ((m.getDownward e 1 L.tetEdges).2 idx) = true ∧
        isLargeAngleTet T G m L e = (m.getDownward e 1 L.tetEdges).2 (T.oppEdges idx) ∧
        ∃ s, s < (m.order + 1).toNat ∧
          |(G.sampleNormal ((m.getDownward e 2 L.faces).2 (T.edgeFaces idx 0))
                ((m.getDownward e 1 L.tetEdges).2 idx) s).dot
              (G.sampleNormal ((m.getDownward e 2 L.faces).2 (T.edgeFaces idx 1))
                ((m.getDownward e 1 L.tetEdges).2 idx) s)| > 9 / 10) := by
  have hspec := findBoundaryFacePair_spec T m (m.getDownward e 2 L.faces).2 6 0
  refine ⟨?_, ?_, ?_⟩
  · intro hnone
    rcases hspec with ⟨h1, _⟩ | ⟨j, _, _, hj6, hp, _⟩
    · simp [isLargeAngleTet, h1]
    · exact absurd hp (hnone j (by omega))
  · intro idx hidx hp hfirst hnb
    rcases hspec with ⟨_, h2⟩ | ⟨j, h1, _, hj6, hpj, hfj⟩
    · exact absurd hp (h2 idx (by omega) (by omega))
    · have hji : j = idx := by
        rcases Nat.lt_trichotomy j idx with h | h | h
        · exact absurd hpj (hfirst j h)
        · exact h
        · exact absurd hp (hfj idx (by omega) h)
      subst hji
      have hneg : ¬ ((j : Int) < 0) := by omega
      simp only [isLargeAngleTet, h1, hneg, if_false, Int.toNat_ofNat, hnb, if_true]
  · intro hres
    rcases hspec with ⟨h1, _⟩ | ⟨j, h1, _, hj6, hpj, hfj⟩
    · exact absurd (by simp [isLargeAngleTet, h1]) hres
    · have hneg : ¬ ((j : Int) < 0) := by omega
      simp only [isLargeAngleTet, h1, hneg, if_false, Int.toNat_ofNat] at hres ⊢
      by_cases hb : isBoundaryEntity m ((m.getDownward e 1 L.tetEdges).2 j) = false
      · rw [if_pos hb] at hres
        exact absurd rfl hres
      · rw [if_neg hb] at hres ⊢
        by_cases hc : nearlyCoplanarFrom G ((m.getDownward e 1 L.tetEdges).2 j)
            ((m.getDownward e 2 L.faces).2 (T.edgeFaces j 0))
            ((m.getDownward e 2 L.faces).2 (T.edgeFaces j 1)) (m.order + 1).toNat 0 = true
        · rw [if_pos hc]
          obtain ⟨s, _, hs, hgt⟩ := (nearlyCoplanarFrom_iff G _ _ _ _ 0).mp hc
          exact ⟨j, by omega, hpj, fun t ht => hfj t (by omega) ht, by simpa using hb, rfl,
            s, by omega, hgt⟩
        · rw [if_neg hc] at hres
          exact absurd rfl hres

theorem isLargeAngleTet_returns_witness :
    isLargeAngleTet sampleTables reflexGeometry wedgeTetMesh (sampleAngleLocals 100) 100 ≠ 0 ∧
    ∃ idx, idx < 6 ∧
      (isBoundaryEntity wedgeTetMesh ((wedgeTetMesh.getDownward 100 2
            (sampleAngleLocals 100).faces).2 (sampleTables.edgeFaces idx 0)) = true ∧
        isBoundaryEntity wedgeTetMesh ((wedgeTetMesh.getDownward 100 2
            (sampleAngleLocals 100).faces).2 (sampleTables.edgeFaces idx 1)) = true) ∧
      (∀ t, t < idx →
        ¬ (isBoundaryEntity wedgeTetMesh ((wedgeTetMesh.getDownward 100 2
              (sampleAngleLocals 100).faces).2 (sampleTables.edgeFaces t 0)) = true ∧
          isBoundaryEntity wedgeTetMesh ((wedgeTetMesh.getDownward 100 2
              (sampleAngleLocals 100).faces).2 (sampleTables.edgeFaces t 1)) = true)) ∧
      isBoundaryEntity wedgeTetMesh
        ((wedgeTetMesh.getDownward 100 1 (sampleAngleLocals 100).tetEdges).2 idx) = true ∧
      isLargeAngleTet sampleTables reflexGeometry wedgeTetMesh (sampleAngleLocals 100) 100
        = (wedgeTetMesh.getDownward 100 1 (sampleAngleLocals 100).tetEdges).2
            (sampleTables.oppEdges idx) ∧
      ∃ s, s < (wedgeTetMesh.order + 1).toNat ∧
        |(reflexGeometry.sampleNormal ((wedgeTetMesh.getDownward 100 2
              (sampleAngleLocals 100).faces).2 (sampleTables.edgeFaces idx 0))
              ((wedgeTetMesh.getDownward 100 1 (sampleAngleLocals 100).tetEdges).2 idx) s).dot
            (reflexGeometry.sampleNormal ((wedgeTetMesh.getDownward 100 2
              (sampleAngleLocals 100).faces).2 (sampleTables.edgeFaces idx 1))
              ((wedgeTetMesh.getDownward 100 1 (sampleAngleLocals 100).tetEdges).2 idx) s)|
          > 9 / 10 :=
  have h : isLargeAngleTet sampleTables reflexGeometry wedgeTetMesh (sampleAngleLocals 100) 100
      ≠ 0 := by
    decide!
  ⟨h, (isLargeAngleTet_returns sampleTables reflexGeometry wedgeTetMesh (sampleAngleLocals 100)
    100).2.2 h⟩

/-- C25. Each of the two marking loops makes at most two passes over the mesh:
with room for two passes it ends, with the result of its first pass. A pass
changes flags only (the mesh and the tags are as before), the tests of
`isLargeAngleTri` pass at one corner of a face at most, and the state a pass ends
in is reproduced by the next pass: no edge is flagged and the count stays. -/
theorem markEdgesOppLargeAngles_two_passes (T : Tables) (G : AngleGeometry R)
    (L : Entity → AngleLocals) (a : Adapt) (c : Int) :
    (markEdgesOppLargeAnglesTri.loop G L 2 (a, c)
        = some (markEdgesOppLargeAnglesTri.sweep G L (a.mesh.entities 2) (a, c)) ∧
      markEdgesOppLargeAnglesTet.loop T G L 2 (a, c)
        = some (markEdgesOppLargeAnglesTet.sweep T G L (a.mesh.entities 3) (a, c))) ∧
    (∀ (es : List Entity) (a1 : Adapt) (c1 c2 : Int),
      markEdgesOppLargeAnglesTri.sweep G L es (a, c) = .ok (a1, c1) →
      a1.mesh = a.mesh ∧ a1.tags = a.tags ∧
        markEdgesOppLargeAnglesTri.sweep G L es (a1, c2) = .ok (a1, c2)) ∧
    (∀ (es : List Entity) (a1 : Adapt) (c1 c2 : Int),
      markEdgesOppLargeAnglesTet.sweep T G L es (a, c) = .ok (a1, c1) →
      a1.mesh = a.mesh ∧ a1.tags = a.tags ∧
        markEdgesOppLargeAnglesTet.sweep T G L es (a1, c2) = .ok (a1, c2)) ∧
    (∀ (b : Adapt) (Lf : AngleLocals) (f : Entity) (edges : Buffer) (i j : Nat), i < 3 → j < 3 →
      b.mesh = a.mesh →
      isLargeAngleTri.passes G a Lf f edges i = true →
      isLargeAngleTri.passes G b Lf f edges j = true → i = j) := by
  refine ⟨⟨markEdgesOppLargeAnglesTri_loop_eq G L 2 (le_refl 2) a c,
    markEdgesOppLargeAnglesTet_loop_eq T G L 2 (le_refl 2) a c⟩, ?_, ?_, ?_⟩
  · intro es a1 c1 c2 h
    obtain ⟨hm, ht, _⟩ := markEdgesOppLargeAnglesTri_sweep_spec G L es a c a1 c1 h
    exact ⟨hm, ht, markEdgesOppLargeAnglesTri_sweep_fixed G L es a c a1 c1 c2 h⟩
  · intro es a1 c1 c2 h
    obtain ⟨hm, ht, _⟩ := markEdgesOppLargeAnglesTet_sweep_spec T G L es a c a1 c1 h
    exact ⟨hm, ht, markEdgesOppLargeAnglesTet_sweep_fixed T G L es a c a1 c1 c2 h⟩
  · intro b Lf f edges i j hi hj hm h1 h2
    exact isLargeAngleTri_passes_unique G a b Lf f edges i j hi hj hm h1 h2

theorem markEdgesOppLargeAngles_two_passes_witness :
    markEdgesOppLargeAnglesTri.sweep reflexGeometry sampleAngleLocals
        (reflexAdapt.mesh.entities 2) (reflexAdapt, 0)
      = .ok (setFlag (setFlag reflexAdapt 13 [Flag.SPLIT]) 13 [Flag.BAD_QUALITY], 1) ∧
    ((setFlag (setFlag reflexAdapt 13 [Flag.SPLIT]) 13 [Flag.BAD_QUALITY]).mesh = reflexAdapt.mesh ∧
      (setFlag (setFlag reflexAdapt 13 [Flag.SPLIT]) 13 [Flag.BAD_QUALITY]).tags
        = reflexAdapt.tags ∧
      markEdgesOppLargeAnglesTri.sweep reflexGeometry sampleAngleLocals
          (reflexAdapt.mesh.entities 2)
          (setFlag (setFlag reflexAdapt 13 [Flag.SPLIT]) 13 [Flag.BAD_QUALITY], 1)
        = .ok (setFlag (setFlag reflexAdapt 13 [Flag.SPLIT]) 13 [Flag.BAD_QUALITY], 1)) :=
  ⟨sample_tri_first_pass,
    (markEdgesOppLargeAngles_two_passes sampleTables reflexGeometry sampleAngleLocals reflexAdapt
      0).2.1 _ _ 1 1 sample_tri_first_pass⟩

end DetectorResults

theorem Buffer.fill_mem (buf : Buffer) (l : List Entity) (k : Nat) (h : k < l.length) :
    buf.fill l k ∈ l := by
  have : l[k]? = some (l.get ⟨k, h⟩) := by simp
  rw [Buffer.fill_of_getElem? buf l k _ this]
  exact List.get_mem l k h

/-- C26, as amended. On a 3-D mesh, for a tetrahedron (six edges, four faces of
three edges each) and a table `vertEdges` with entries below `6`, every array
index `markEdges` uses on a tag in `2..25` is smaller than the number of entries
behind it exactly when the tag is neither `18` nor `19`. On a 2-D mesh, for a
triangle (three edges, itself as its only face), this holds exactly for the tags
`2, 3, 4` (vertex), `8, 9, 10` (edge) and `14` (face): on every other tag in
`2..25` some index is not below the number of entries behind it. -/
theorem markEdges_indexChecks_in_range (T : Tables) (m : Mesh) (e : Entity) (tag : Int)
    (faces0 : Buffer) (h2 : 2 ≤ tag) (h25 : tag ≤ 25) :
    (m.dimension = 3 → (m.down e 1).length = 6 → (m.down e 2).length = 4 →
      (∀ f, f ∈ m.down e 2 → (m.down f 1).length = 3) →
      (∀ v k, v < 4 → k < 3 → T.vertEdges v k < 6) →
      ((∀ p, p ∈ markEdges.indexChecks T m e tag faces0 → p.1 < p.2) ↔
        (tag ≠ 18 ∧ tag ≠ 19))) ∧
    (m.dimension = 2 → (m.down e 1).length = 3 → m.down e 2 = [e] →
      ((∀ p, p ∈ markEdges.indexChecks T m e tag faces0 → p.1 < p.2) ↔
        (tag = 2 ∨ tag = 3 ∨ tag = 4 ∨ tag = 8 ∨ tag = 9 ∨ tag = 10 ∨ tag = 14))) := by
  have h1 : ¬ tag ≤ 1 := by omega
  have hd := tagDim_eq tag (by omega)
  have hi := tagIndex_eq tag (by omega)
  constructor
  · intro hmd he hf hfe hT
    constructor
    · intro hall
      by_contra hneg
      have htag : tag = 18 ∨ tag = 19 := by omega
      have d2 : tagDim tag = 2 := by omega
      have hmd2 : ¬ m.dimension = 2 := by omega
      have hmem : ((tagIndex tag).toNat, (m.down e 2).length)
          ∈ markEdges.indexChecks T m e tag faces0 := by
        simp only [markEdges.indexChecks, h1, if_false, d2,
          show ¬ ((2 : Int) = 0) by decide, show ¬ ((2 : Int) = 1) by decide, if_true]
        exact List.mem_cons_self _ _
      have hlt := hall _ hmem
      simp only [hf] at hlt
      omega
    · rintro ⟨h18, h19⟩ p hp
      have hmd2 : ¬ m.dimension = 2 := by omega
      simp only [markEdges.indexChecks, h1, if_false, hmd2] at hp
      by_cases d0 : tagDim tag = 0
      · simp only [d0, if_true] at hp
        by_cases hi4 : tagIndex tag < 4
        · have hlt : (tagIndex tag).toNat < 4 := by omega
          simp only [hi4, if_true, he, List.mem_cons, List.mem_singleton, List.not_mem_nil,
            or_false] at hp
          rcases hp with rfl | rfl | rfl | rfl
          · exact hlt
          · exact hT _ 0 hlt (by decide)
          · exact hT _ 1 hlt (by decide)
          · exact hT _ 2 hlt (by decide)
        · simp [hi4] at hp
      · by_cases d1 : tagDim tag = 1
        · simp only [d1, if_true, he, List.mem_singleton] at hp
          simp only [show ¬ ((1 : Int) = 0) by decide, if_false, List.mem_singleton] at hp
          subst hp
          show (tagIndex tag).toNat < 6
          omega
        · by_cases d2 : tagDim tag = 2
          · have hidx : (tagIndex tag).toNat < 4 := by omega
            have hmem := Buffer.fill_mem faces0 (m.down e 2) (tagIndex tag).toNat (by omega)
            have hnf := hfe _ hmem
            simp only [d2, show ¬ ((2 : Int) = 0) by decide, show ¬ ((2 : Int) = 1) by decide,
              if_false, if_true, Mesh.getDownward, hnf, hf, List.mem_cons, List.mem_singleton,
              List.not_mem_nil, or_false] at hp
            rcases hp with rfl | rfl | rfl | rfl
            · exact hidx
            · decide
            · decide
            · decide
          · have d3 : tagDim tag = 3 := by omega
            simp only [d3, show ¬ ((3 : Int) = 0) by decide, show ¬ ((3 : Int) = 1) by decide,
              show ¬ ((3 : Int) = 2) by decide, if_false, if_true, he, List.mem_singleton] at hp
            subst hp
            decide
  · intro hmd he hf
    constructor
    · intro hall
      by_contra hneg
      by_cases d0 : tagDim tag = 0
      · have hmem : ((tagIndex tag).toNat, (m.down e 1).length)
            ∈ markEdges.indexChecks T m e tag faces0 := by
          simp only [markEdges.indexChecks, h1, if_false, d0, hmd, if_true]
          exact List.mem_cons_self _ _
        have hlt := hall _ hmem
        simp only [he] at hlt
        omega
      · by_cases d1 : tagDim tag = 1
        · have hmem : ((tagIndex tag).toNat, (m.down e 1).length)
              ∈ markEdges.indexChecks T m e tag faces0 := by
            simp only [markEdges.indexChecks, h1, if_false, d1,
              show ¬ ((1 : Int) = 0) by decide, if_true]
            exact List.mem_singleton_self _
          have hlt := hall _ hmem
          simp only [he] at hlt
          omega
        · by_cases d2 : tagDim tag = 2
          · have hmem : ((tagIndex tag).toNat, (m.down e 2).length)
                ∈ markEdges.indexChecks T m e tag faces0 := by
              simp only [markEdges.indexChecks, h1, if_false, d2,
                show ¬ ((2 : Int) = 0) by decide, show ¬ ((2 : Int) = 1) by decide, if_true]
              exact List.mem_cons_self _ _
            have hlt := hall _ hmem
            simp only [hf, List.length_singleton] at hlt
            omega
          · have d3 : tagDim tag = 3 := by omega
            have hmem : (5, (m.down e 1).length)
                ∈ markEdges.indexChecks T m e tag faces0 := by
              simp only [markEdges.indexChecks, h1, if_false, d3,
                show ¬ ((3 : Int) = 0) by decide, show ¬ ((3 : Int) = 1) by decide,
                show ¬ ((3 : Int) = 2) by decide, if_true]
              exact List.mem_singleton_self _
            have hlt := hall _ hmem
            simp only [he] at hlt
            omega
    · intro htag p hp
      simp only [markEdges.indexChecks, h1, if_false, hmd, if_true] at hp
      by_cases d0 : tagDim tag = 0
      · have hlt : (tagIndex tag).toNat < 3 := by omega
        simp only [d0, if_true, he, List.mem_cons, List.mem_singleton, List.not_mem_nil,
          or_false] at hp
        rcases hp with rfl | rfl
        · exact hlt
        · exact Nat.mod_lt _ (by decide)
      · by_cases d1 : tagDim tag = 1
        · have hlt : (tagIndex tag).toNat < 3 := by omega
          simp only [d1, show ¬ ((1 : Int) = 0) by decide, if_false, if_true, he,
            List.mem_singleton] at hp
          subst hp
          exact hlt
        · have d2 : tagDim tag = 2 := by omega
          have hidx : (tagIndex tag).toNat = 0 := by omega
          simp only [d2, show ¬ ((2 : Int) = 0) by decide, show ¬ ((2 : Int) = 1) by decide,
            if_false, if_true, Mesh.getDownward, hidx, hf, Buffer.fill, List.getElem?_cons_zero,
            Option.getD_some, he, List.length_singleton, List.mem_cons, List.mem_singleton,
            List.not_mem_nil, or_false] at hp
          rcases hp with rfl | rfl | rfl | rfl <;> decide

theorem sampleTables_vertEdges_lt (v k : Nat) (hv : v < 4) (hk : k < 3) :
    sampleTables.vertEdges v k < 6 := by
  interval_cases v <;> interval_cases k <;> decide

theorem markEdges_indexChecks_in_range_witness :
    ((2 : Int) ≤ 15) ∧ ((15 : Int) ≤ 25) ∧
    tetMesh.dimension = 3 ∧ (tetMesh.down 100 1).length = 6 ∧ (tetMesh.down 100 2).length = 4 ∧
    (∀ f, f ∈ tetMesh.down 100 2 → (tetMesh.down f 1).length = 3) ∧
    (∀ v k, v < 4 → k < 3 → sampleTables.vertEdges v k < 6) ∧
    ((15 : Int) ≠ 18) ∧ ((15 : Int) ≠ 19) ∧
    (∀ p, p ∈ markEdges.indexChecks sampleTables tetMesh 100 15 (constBuffer 78) → p.1 < p.2) ∧
    triMesh.dimension = 2 ∧ (triMesh.down 50 1).length = 3 ∧ triMesh.down 50 2 = [50] ∧
    ¬ (∀ p, p ∈ markEdges.indexChecks sampleTables triMesh 50 11 (constBuffer 78) →
      p.1 < p.2) :=
  ⟨by decide, by decide, by decide, by decide, by decide, by decide, sampleTables_vertEdges_lt,
    by decide, by decide,
    ((markEdges_indexChecks_in_range sampleTables tetMesh 100 15 (constBuffer 78) (by decide)
      (by decide)).1 (by decide) (by decide) (by decide) (by decide)
      sampleTables_vertEdges_lt).mpr ⟨by decide, by decide⟩,
    by decide, by decide, by decide,
    fun hall => absurd
      (((markEdges_indexChecks_in_range sampleTables triMesh 50 11 (constBuffer 78) (by decide)
        (by decide)).2 (by decide) (by decide) (by decide)).mp hall) (by decide)⟩

/-- C26, as stated, fails. On the triangle `50` of a 2-D mesh, whose adjacency
query returns the three edges `11, 12, 13`, the tag `5` (vertex, index `3`) makes
`markEdges` read `ed[3]`: the index `3` is not below the `3` entries returned,
and slot `0` of the buffer receives the content the array held before (`77`),
next to the edge `13` in slot `1`. -/
theorem markEdges_vertex_tag_out_of_range :
    markEdges.indexChecks sampleTables triMesh 50 5 (constBuffer 78) = [(3, 3), (2, 3)] ∧
    (markEdges sampleTables triMesh 50 5 (constBuffer 9) (constBuffer 77)
        (constBuffer 78)).map (fun r => (r.1, r.2 0, r.2 1)) = .ok (2, 77, 13) ∧
    77 ∉ triMesh.down 50 1 := by
  decide

/-! ## The new control point of `repositionEdge` -/

section NewPoint

/-- In a configuration `repositionEdge` has computed, `validity` is the dot
product of the flagged edge vector with the normal and `length` is the length
of the normal. -/
theorem EdgeReshaper.configuration_fields {R : Type} [LinearOrderedField R] (T : Tables)
    (N : Numerics R) (Q : Quality R) (m : Mesh) (simplex : Entity) (L : Locals)
    (pts : Points R) (edge : Entity) (c : Configuration R)
    (hc : EdgeReshaper.configuration T N Q m simplex L pts edge = .ok c) :
    c.validity = c.flagged.dot c.normal ∧ c.length = c.normal.getLength N := by
  unfold EdgeReshaper.configuration at hc
  simp only at hc
  split_ifs at hc <;> simp only [Except.ok.injEq, reduceCtorEq] at hc <;> subst hc <;>
    exact ⟨rfl, rfl⟩

theorem real_sample_configuration :
    EdgeReshaper.configuration sampleTables ⟨Real.sqrt, Real.sin, Real.pi⟩ (unitQuality 0)
        tetMesh 100 sampleLocals
        (pivotPoints (⟨0, 3 / 5, 4 / 5⟩ : Vec3 ℝ) ⟨0, 1, 0⟩ ⟨0, 0, 1⟩) 11
      = .ok ⟨⟨0, 0, 0⟩, ⟨0, 3 / 5, 4 / 5⟩, ⟨1, 0, 0⟩, 1, 0⟩ := by
  simp [EdgeReshaper.configuration, findIn, findInFrom, Mesh.getDownward, Buffer.fill, tetMesh,
    sampleLocals, constBuffer, pivotPoints, sampleTables, entry, unitQuality, Vec3.sub,
    Vec3.cross, Vec3.dot, Vec3.getLength]

theorem Vec3.dot_self_nonneg {R : Type} [LinearOrderedField R] (a : Vec3 R) : 0 ≤ a.dot a := by
  unfold Vec3.dot
  nlinarith [mul_self_nonneg a.x, mul_self_nonneg a.y, mul_self_nonneg a.z]

theorem Vec3.dot_self_eq_zero {R : Type} [LinearOrderedField R] (a : Vec3 R) :
    a.dot a = 0 ↔ a = ⟨0, 0, 0⟩ := by
  constructor
  · intro h
    unfold Vec3.dot at h
    have hx : a.x = 0 := by nlinarith [mul_self_nonneg a.x, mul_self_nonneg a.y, mul_self_nonneg a.z]
    have hy : a.y = 0 := by nlinarith [mul_self_nonneg a.x, mul_self_nonneg a.y, mul_self_nonneg a.z]
    have hz : a.z = 0 := by nlinarith [mul_self_nonneg a.x, mul_self_nonneg a.y, mul_self_nonneg a.z]
    cases a
    simp_all
  · intro h
    rw [h]
    simp [Vec3.dot]

/-- The normal component of the step from the pivot to the new point, for a
normal of length `len` with `len * len = normal . normal` and `len ≠ 0`. -/
theorem EdgeReshaper.newPoint_normal_component {R : Type} [LinearOrderedField R]
    (N : Numerics R) (c : Configuration R) (hv : c.validity = c.flagged.dot c.normal)
    (hlen : c.length * c.length = c.normal.dot c.normal) (h0 : c.length ≠ 0) :
    ((EdgeReshaper.newPoint N c).sub c.pivotPoint).dot (c.normal.divide c.length)
      = c.flagged.getLength N * N.sin (N.pi / 9) := by
  have hnn : c.normal.x * c.normal.x + c.normal.y * c.normal.y + c.normal.z * c.normal.z
      = c.length * c.length := by
    rw [hlen]; rfl
  have hvv : c.validity
      = c.flagged.x * c.normal.x + c.flagged.y * c.normal.y + c.flagged.z * c.normal.z := by
    rw [hv]; rfl
  simp only [EdgeReshaper.newPoint, Vec3.sub, Vec3.add, Vec3.scale, Vec3.divide, Vec3.dot]
  generalize c.flagged.getLength N * N.sin (N.pi / 9) = k
  rw [hvv]
  field_simp
  linear_combination (c.length * k - (c.flagged.x * c.normal.x + c.flagged.y * c.normal.y
    + c.flagged.z * c.normal.z)) * hnn

/-- C28. In exact real arithmetic, for every configuration `repositionEdge` has
computed with a nonzero normal, the new point satisfies
`(newPoint - pivotPoint) . (normal/|normal|) = |flaggedEdgeVector| * sin(pi/9)`:
its signed distance from the plane through the pivot spanned by the other two
edge vectors is not negative, and `validity` does not occur in it. -/
theorem repositionEdge_new_point_distance (T : Tables) (N : Numerics ℝ) (Q : Quality ℝ)
    (m : Mesh) (simplex : Entity) (L : Locals) (pts : Points ℝ) (edge : Entity)
    (c : Configuration ℝ) (hsqrt : N.sqrt = Real.sqrt) (hsin : N.sin = Real.sin)
    (hpi : N.pi = Real.pi)
    (hc : EdgeReshaper.configuration T N Q m simplex L pts edge = .ok c)
    (hn : c.normal ≠ ⟨0, 0, 0⟩) :
    ((EdgeReshaper.newPoint N c).sub c.pivotPoint).dot (c.normal.divide c.length)
        = Real.sqrt (c.flagged.dot c.flagged) * Real.sin (Real.pi / 9) ∧
    0 ≤ ((EdgeReshaper.newPoint N c).sub c.pivotPoint).dot (c.normal.divide c.length) := by
  obtain ⟨hv, hl⟩ := EdgeReshaper.configuration_fields T N Q m simplex L pts edge c hc
  have hlen : c.length = Real.sqrt (c.normal.dot c.normal) := by
    rw [hl, Vec3.getLength, hsqrt]
  have hll : c.length * c.length = c.normal.dot c.normal := by
    rw [hlen]
    exact Real.mul_self_sqrt (Vec3.dot_self_nonneg _)
  have hpos : 0 < c.normal.dot c.normal := by
    rcases (Vec3.dot_self_nonneg c.normal).lt_or_eq with h | h
    · exact h
    · exact absurd ((Vec3.dot_self_eq_zero c.normal).mp h.symm) hn
  have h0 : c.length ≠ 0 := by
    rw [hlen]
    exact (Real.sqrt_pos.mpr hpos).ne'
  have key := EdgeReshaper.newPoint_normal_component N c hv hll h0
  rw [Vec3.getLength, hsqrt, hsin, hpi] at key
  refine ⟨key, ?_⟩
  rw [key]
  apply mul_nonneg (Real.sqrt_nonneg _)
  apply Real.sin_nonneg_of_nonneg_of_le_pi
  · positivity
  · have := Real.pi_pos
    linarith

theorem repositionEdge_new_point_distance_witness :
    EdgeReshaper.configuration sampleTables ⟨Real.sqrt, Real.sin, Real.pi⟩ (unitQuality 0)
        tetMesh 100 sampleLocals
        (pivotPoints (⟨0, 3 / 5, 4 / 5⟩ : Vec3 ℝ) ⟨0, 1, 0⟩ ⟨0, 0, 1⟩) 11
      = .ok ⟨⟨0, 0, 0⟩, ⟨0, 3 / 5, 4 / 5⟩, ⟨1, 0, 0⟩, 1, 0⟩ ∧
    ((⟨1, 0, 0⟩ : Vec3 ℝ) ≠ ⟨0, 0, 0⟩) ∧
    (((EdgeReshaper.newPoint ⟨Real.sqrt, Real.sin, Real.pi⟩
          (⟨⟨0, 0, 0⟩, ⟨0, 3 / 5, 4 / 5⟩, ⟨1, 0, 0⟩, 1, 0⟩ : Configuration ℝ)).sub
          ⟨0, 0, 0⟩).dot ((⟨1, 0, 0⟩ : Vec3 ℝ).divide 1)
        = Real.sqrt ((⟨0, 3 / 5, 4 / 5⟩ : Vec3 ℝ).dot ⟨0, 3 / 5, 4 / 5⟩)
            * Real.sin (Real.pi / 9) ∧
      0 ≤ ((EdgeReshaper.newPoint ⟨Real.sqrt, Real.sin, Real.pi⟩
          (⟨⟨0, 0, 0⟩, ⟨0, 3 / 5, 4 / 5⟩, ⟨1, 0, 0⟩, 1, 0⟩ : Configuration ℝ)).sub
          ⟨0, 0, 0⟩).dot ((⟨1, 0, 0⟩ : Vec3 ℝ).divide 1)) :=
  ⟨real_sample_configuration, by simp,
    repositionEdge_new_point_distance sampleTables ⟨Real.sqrt, Real.sin, Real.pi⟩ (unitQuality 0)
      tetMesh 100 sampleLocals (pivotPoints (⟨0, 3 / 5, 4 / 5⟩ : Vec3 ℝ) ⟨0, 1, 0⟩ ⟨0, 0, 1⟩) 11
      ⟨⟨0, 0, 0⟩, ⟨0, 3 / 5, 4 / 5⟩, ⟨1, 0, 0⟩, 1, 0⟩ rfl rfl rfl real_sample_configuration
      (by simp)⟩

/-- C24. With the edge nodes of the edges `11`, `13`, `14` of `tetMesh` at
`(0,3/5,4/5)`, `(0,1,0)`, `(0,0,1)` and the pivot at the origin, the flagged
edge vector lies in the plane of the other two (validity `0`, normal `(1,0,0)`
of length `1`). The new point is `(sin(pi/9), 3/5, 4/5)`: its distance from the
plane is `sin(pi/9)` and its distance from the pivot is `sqrt(1 + sin(pi/9)^2)`,
so the sine of its angle with the plane is not `sin(pi/9)`: the angle is not
the 20 degrees of the comment on line 275. -/
theorem repositionEdge_new_point_angle_sample :
    EdgeReshaper.configuration sampleTables ⟨Real.sqrt, Real.sin, Real.pi⟩ (unitQuality 0)
        tetMesh 100 sampleLocals
        (pivotPoints (⟨0, 3 / 5, 4 / 5⟩ : Vec3 ℝ) ⟨0, 1, 0⟩ ⟨0, 0, 1⟩) 11
      = .ok ⟨⟨0, 0, 0⟩, ⟨0, 3 / 5, 4 / 5⟩, ⟨1, 0, 0⟩, 1, 0⟩ ∧
    tetMesh.order = 2 ∧ ¬ ((0 : ℝ) > 1 / 10 ^ 10) ∧
    EdgeReshaper.newPoint ⟨Real.sqrt, Real.sin, Real.pi⟩
        (⟨⟨0, 0, 0⟩, ⟨0, 3 / 5, 4 / 5⟩, ⟨1, 0, 0⟩, 1, 0⟩ : Configuration ℝ)
      = ⟨Real.sin (Real.pi / 9), 3 / 5, 4 / 5⟩ ∧
    ((⟨Real.sin (Real.pi / 9), 3 / 5, 4 / 5⟩ : Vec3 ℝ).sub ⟨0, 0, 0⟩).dot
        ((⟨1, 0, 0⟩ : Vec3 ℝ).divide 1) = Real.sin (Real.pi / 9) ∧
    ((⟨Real.sin (Real.pi / 9), 3 / 5, 4 / 5⟩ : Vec3 ℝ).sub ⟨0, 0, 0⟩).getLength
        ⟨Real.sqrt, Real.sin, Real.pi⟩ = Real.sqrt (1 + Real.sin (Real.pi / 9) ^ 2) ∧
    ((⟨Real.sin (Real.pi / 9), 3 / 5, 4 / 5⟩ : Vec3 ℝ).sub ⟨0, 0, 0⟩).dot
        ((⟨1, 0, 0⟩ : Vec3 ℝ).divide 1)
      ≠ ((⟨Real.sin (Real.pi / 9), 3 / 5, 4 / 5⟩ : Vec3 ℝ).sub ⟨0, 0, 0⟩).getLength
          ⟨Real.sqrt, Real.sin, Real.pi⟩ * Real.sin (Real.pi / 9) := by
  have hs : 0 < Real.sin (Real.pi / 9) := by
    apply Real.sin_pos_of_pos_of_lt_pi
    · positivity
    · have := Real.pi_pos
      linarith
  have hone : Real.sqrt ((3 / 5 : ℝ) * (3 / 5) + 4 / 5 * (4 / 5)) = 1 := by
    rw [show ((3 / 5 : ℝ) * (3 / 5) + 4 / 5 * (4 / 5)) = 1 by norm_num]
    exact Real.sqrt_one
  have hlen : ((⟨Real.sin (Real.pi / 9), 3 / 5, 4 / 5⟩ : Vec3 ℝ).sub ⟨0, 0, 0⟩).getLength
      ⟨Real.sqrt, Real.sin, Real.pi⟩ = Real.sqrt (1 + Real.sin (Real.pi / 9) ^ 2) := by
    simp only [Vec3.getLength, Vec3.sub, Vec3.dot]
    congr 1
    ring
  have hdot : ((⟨Real.sin (Real.pi / 9), 3 / 5, 4 / 5⟩ : Vec3 ℝ).sub ⟨0, 0, 0⟩).dot
      ((⟨1, 0, 0⟩ : Vec3 ℝ).divide 1) = Real.sin (Real.pi / 9) := by
    simp [Vec3.sub, Vec3.dot, Vec3.divide]
  refine ⟨real_sample_configuration, rfl, by norm_num, ?_, hdot, hlen, ?_⟩
  · simp only [EdgeReshaper.newPoint, Vec3.getLength, Vec3.dot, Vec3.add, Vec3.scale,
      Vec3.divide]
    rw [show ((0 : ℝ) * 0 + 3 / 5 * (3 / 5) + 4 / 5 * (4 / 5)) = 1 by norm_num, Real.sqrt_one]
    simp
  · rw [hdot, hlen]
    intro h
    have h1 : Real.sqrt (1 + Real.sin (Real.pi / 9) ^ 2) = 1 := by
      have h2 : Real.sin (Real.pi / 9) * (Real.sqrt (1 + Real.sin (Real.pi / 9) ^ 2) - 1) = 0 := by
        linarith
      rcases mul_eq_zero.mp h2 with h3 | h3
      · exact absurd h3 hs.ne'
      · linarith
    have h4 : 1 + Real.sin (Real.pi / 9) ^ 2 = 1 := by
      have := Real.sq_sqrt (show (0 : ℝ) ≤ 1 + Real.sin (Real.pi / 9) ^ 2 by positivity)
      rw [h1] at this
      linarith
    nlinarith

/-- Coordinates in which the other two edge vectors at the pivot are parallel:
the configuration has the zero normal. -/
theorem real_degenerate_configuration :
    EdgeReshaper.configuration sampleTables ⟨Real.sqrt, Real.sin, Real.pi⟩ (unitQuality 0)
        tetMesh 100 sampleLocals
        (pivotPoints (⟨1, 0, 0⟩ : Vec3 ℝ) ⟨0, 1, 0⟩ ⟨0, 2, 0⟩) 11
      = .ok ⟨⟨0, 0, 0⟩, ⟨1, 0, 0⟩, ⟨0, 0, 0⟩, 0, 0⟩ := by
  simp [EdgeReshaper.configuration, findIn, findInFrom, Mesh.getDownward, Buffer.fill, tetMesh,
    sampleLocals, constBuffer, pivotPoints, sampleTables, entry, unitQuality, Vec3.sub,
    Vec3.cross, Vec3.dot, Vec3.getLength]

/-- C27 (counterexample). On `tetMesh` (shape order 2) with the edge nodes of
the edges `13` and `14` at `(0,1,0)` and `(0,2,0)`, the two other edge vectors
at the pivot are parallel: `repositionEdge` reaches the test of `validity` with
the zero normal, `length = 0` and `validity = 0`, and the test
`validity > 1e-10` does not reject. -/
theorem repositionEdge_zero_length_reached :
    EdgeReshaper.configuration sampleTables sampleNumerics (constQuality 0) tetMesh 100
        sampleLocals (pivotPoints (⟨1, 0, 0⟩ : Vec3 ℚ) ⟨0, 1, 0⟩ ⟨0, 2, 0⟩) 11
      = .ok ⟨⟨0, 0, 0⟩, ⟨1, 0, 0⟩, ⟨0, 0, 0⟩, 0, 0⟩ ∧
    tetMesh.order = 2 ∧ ¬ ((0 : ℚ) > 1 / 10 ^ 10) := by
  have h0 : Rat.sqrt 0 = 0 := by decide!
  refine ⟨?_, rfl, by norm_num⟩
  simp [EdgeReshaper.configuration, findIn, findInFrom, Mesh.getDownward, Buffer.fill, tetMesh,
    sampleLocals, constBuffer, pivotPoints, sampleTables, entry, constQuality, Vec3.sub,
    Vec3.cross, Vec3.dot, Vec3.getLength, sampleNumerics, h0]

/-- C27 (amended). In exact real arithmetic, `repositionEdge` does not test the
length of the normal. In every configuration it computes, `length` is zero
exactly when the normal is the zero vector; then `validity` is `0`, the test
`validity > 1e-10` does not reject, and for shape order 2 the new point is
computed and stored with `length = 0`. -/
theorem repositionEdge_zero_normal_not_rejected (T : Tables) (N : Numerics ℝ) (Q : Quality ℝ)
    (m : Mesh) (simplex : Entity) (L : Locals) (pts : Points ℝ) (edge : Entity)
    (c : Configuration ℝ) (hsqrt : N.sqrt = Real.sqrt)
    (hc : EdgeReshaper.configuration T N Q m simplex L pts edge = .ok c) :
    (c.length = 0 ↔ c.normal = ⟨0, 0, 0⟩) ∧
    (c.length = 0 → c.validity = 0 ∧ ¬ c.validity > 1 / 10 ^ 10) ∧
    (c.length = 0 → m.order = 2 →
      EdgeReshaper.repositionEdge T N Q m simplex L pts edge =
        if (m.adjacent edge 3).any
            (fun r => decide (Q.checkValidity m (setPoint pts edge (EdgeReshaper.newPoint N c)) r
              > 0))
        then .ok (false, setPoint (setPoint pts edge (EdgeReshaper.newPoint N c)) edge (pts edge))
        else .ok (true, setPoint pts edge (EdgeReshaper.newPoint N c))) := by
  obtain ⟨hv, hl⟩ := EdgeReshaper.configuration_fields T N Q m simplex L pts edge c hc
  have hlen : c.length = Real.sqrt (c.normal.dot c.normal) := by
    rw [hl, Vec3.getLength, hsqrt]
  have hiff : c.length = 0 ↔ c.normal = ⟨0, 0, 0⟩ := by
    rw [hlen, Real.sqrt_eq_zero (Vec3.dot_self_nonneg _)]
    exact Vec3.dot_self_eq_zero _
  have hval : c.length = 0 → c.validity = 0 := by
    intro h0
    rw [hv, hiff.mp h0]
    simp [Vec3.dot]
  refine ⟨hiff, fun h0 => ⟨hval h0, ?_⟩, fun h0 ho => ?_⟩
  · rw [hval h0]
    norm_num
  · have hnot : ¬ c.validity > 1 / 10 ^ 10 := by
      rw [hval h0]
      norm_num
    unfold EdgeReshaper.repositionEdge
    rw [if_neg (by simp [ho]), hc]
    simp only
    rw [if_neg hnot]

theorem repositionEdge_zero_normal_not_rejected_witness :
    EdgeReshaper.configuration sampleTables ⟨Real.sqrt, Real.sin, Real.pi⟩ (unitQuality 0)
        tetMesh 100 sampleLocals
        (pivotPoints (⟨1, 0, 0⟩ : Vec3 ℝ) ⟨0, 1, 0⟩ ⟨0, 2, 0⟩) 11
      = .ok ⟨⟨0, 0, 0⟩, ⟨1, 0, 0⟩, ⟨0, 0, 0⟩, 0, 0⟩ ∧
    (((0 : ℝ) = 0 ↔ (⟨0, 0, 0⟩ : Vec3 ℝ) = ⟨0, 0, 0⟩) ∧
      ((0 : ℝ) = 0 → (0 : ℝ) = 0 ∧ ¬ (0 : ℝ) > 1 / 10 ^ 10)) :=
  ⟨real_degenerate_configuration,
    (repositionEdge_zero_normal_not_rejected sampleTables ⟨Real.sqrt, Real.sin, Real.pi⟩
      (unitQuality 0) tetMesh 100 sampleLocals
      (pivotPoints (⟨1, 0, 0⟩ : Vec3 ℝ) ⟨0, 1, 0⟩ ⟨0, 2, 0⟩) 11
      ⟨⟨0, 0, 0⟩, ⟨1, 0, 0⟩, ⟨0, 0, 0⟩, 0, 0⟩ rfl real_degenerate_configuration).1,
    (repositionEdge_zero_normal_not_rejected sampleTables ⟨Real.sqrt, Real.sin, Real.pi⟩
      (unitQuality 0) tetMesh 100 sampleLocals
      (pivotPoints (⟨1, 0, 0⟩ : Vec3 ℝ) ⟨0, 1, 0⟩ ⟨0, 2, 0⟩) 11
      ⟨⟨0, 0, 0⟩, ⟨1, 0, 0⟩, ⟨0, 0, 0⟩, 0, 0⟩ rfl real_degenerate_configuration).2.1⟩

end NewPoint

end crv

namespace ph

/-! ## Block keys of the PHASTA output -/

theorem truncToInt_intCast (t : Int) : truncToInt (t : ℚ) = t := by
  simp [truncToInt]

theorem pred_mul_pred_even (p : Int) : ∃ t : Int, (p - 1) * (p - 2) = 2 * t := by
  rcases Int.even_or_odd p with ⟨a, ha⟩ | ⟨a, ha⟩
  · exact ⟨(p - 1) * (a - 1), by rw [ha]; ring⟩
  · exact ⟨a * (p - 2), by rw [ha]; ring⟩

/-- C29. For every polynomial order `p >= 1`, `getBlockKeyCommon` stores
`edgeModeN = p-1` and `faceModeN = (p-1)(p-2)/2` exactly: the product is even
and not negative, so `2 * faceModeN = (p-1)(p-2)` and the truncation loses
nothing (up to `p = 65537` the value is below `2^31`). It stores
`regionModeN = 0` for every order, the factor `1/3` being an integer division,
hence `nElementDOF = nv + nEdges*(p-1) + nFaces*(p-1)(p-2)/2`. -/
theorem getBlockKeyCommon_mode_counts (K : ElementTypes) (adjacentCount : Nat → Nat → Int)
    (type : Nat) (k : BlockKey) (p : Int) (hp : 1 ≤ p) :
    (getBlockKeyCommon K adjacentCount type k p).edgeModeN = p - 1 ∧
    0 ≤ (p - 1) * (p - 2) ∧ (p - 1) * (p - 2) % 2 = 0 ∧
    2 * (getBlockKeyCommon K adjacentCount type k p).faceModeN = (p - 1) * (p - 2) ∧
    (getBlockKeyCommon K adjacentCount type k p).faceModeN = (p - 1) * (p - 2) / 2 ∧
    (p ≤ 65537 → (getBlockKeyCommon K adjacentCount type k p).faceModeN < 2 ^ 31) ∧
    (∀ q : Int, (getBlockKeyCommon K adjacentCount type k q).regionModeN = 0) ∧
    (getBlockKeyCommon K adjacentCount type k p).nElementDOF
      = adjacentCount type 0 + adjacentCount type 1 * (p - 1)
        + adjacentCount type 2 * ((p - 1) * (p - 2) / 2) := by
  obtain ⟨t, ht⟩ := pred_mul_pred_even p
  have hnn : 0 ≤ (p - 1) * (p - 2) := by
    rcases hp.lt_or_eq with h | h
    · exact mul_nonneg (by omega) (by omega)
    · rw [← h]; norm_num
  have hface : (getBlockKeyCommon K adjacentCount type k p).faceModeN = t := by
    show truncToInt ((1 / 2 : ℚ) * ((p - 1 : Int) : ℚ) * ((p - 2 : Int) : ℚ)) = t
    have : (1 / 2 : ℚ) * ((p - 1 : Int) : ℚ) * ((p - 2 : Int) : ℚ) = ((t : Int) : ℚ) := by
      have h2 : (((p - 1) * (p - 2) : Int) : ℚ) = ((2 * t : Int) : ℚ) := by rw [ht]
      push_cast at h2 ⊢
      linarith
    rw [this, truncToInt_intCast]
  have hregion : ∀ q : Int, (getBlockKeyCommon K adjacentCount type k q).regionModeN = 0 := by
    intro q
    show (1 : Int).tdiv 3 * (q - 1) * (q - 2) * (q - 3) = 0
    have : (1 : Int).tdiv 3 = 0 := by decide
    rw [this]
    ring
  have hdiv : (p - 1) * (p - 2) / 2 = t := by
    rw [ht]
    exact Int.mul_ediv_cancel_left t (by norm_num)
  refine ⟨rfl, hnn, by rw [ht]; exact Int.mul_emod_right 2 t, by rw [hface, ht],
    by rw [hface, hdiv], ?_, hregion, ?_⟩
  · intro h
    rw [hface]
    have h1 : (p - 1) * (p - 2) ≤ 65536 * 65535 := by
      rcases hp.lt_or_eq with h' | h'
      · exact mul_le_mul (by omega) (by omega) (by omega) (by omega)
      · rw [← h']; norm_num
    omega
  · show adjacentCount type 0 + adjacentCount type 1 * (p - 1)
        + adjacentCount type 2 * (getBlockKeyCommon K adjacentCount type k p).faceModeN
        + (getBlockKeyCommon K adjacentCount type k p).regionModeN = _
    rw [hface, hregion, hdiv]
    ring

theorem getBlockKeyCommon_mode_counts_witness :
    (1 : Int) ≤ 3 ∧
    (getBlockKeyCommon sampleTypes sampleAdjacentCount 4 zeroKey 3).edgeModeN = 3 - 1 ∧
    2 * (getBlockKeyCommon sampleTypes sampleAdjacentCount 4 zeroKey 3).faceModeN
      = (3 - 1) * (3 - 2) ∧
    (getBlockKeyCommon sampleTypes sampleAdjacentCount 4 zeroKey 3).nElementDOF
      = sampleAdjacentCount 4 0 + sampleAdjacentCount 4 1 * (3 - 1)
        + sampleAdjacentCount 4 2 * ((3 - 1) * (3 - 2) / 2) :=
  ⟨by decide,
    (getBlockKeyCommon_mode_counts sampleTypes sampleAdjacentCount 4 zeroKey 3 (by decide)).1,
    (getBlockKeyCommon_mode_counts sampleTypes sampleAdjacentCount 4 zeroKey 3
      (by decide)).2.2.2.1,
    (getBlockKeyCommon_mode_counts sampleTypes sampleAdjacentCount 4 zeroKey 3
      (by decide)).2.2.2.2.2.2.2⟩

theorem BlockKey.lt_iff_lex (a b : BlockKey) :
    a.lt b = true ↔
      a.nElementVertices < b.nElementVertices ∨
      (a.nElementVertices = b.nElementVertices ∧
        (a.elementType < b.elementType ∨
          (a.elementType = b.elementType ∧
            (a.nBoundaryFaceEdges < b.nBoundaryFaceEdges ∨
              (a.nBoundaryFaceEdges = b.nBoundaryFaceEdges ∧
                a.polynomialOrder < b.polynomialOrder))))) := by
  unfold BlockKey.lt
  split_ifs with h1 h2 h3 <;> simp only [decide_eq_true_eq] <;> omega

/-- C30. `BlockKey::operator<` is the strict lexicographic order on the tuple
`(nElementVertices, elementType, nBoundaryFaceEdges, polynomialOrder)`: it is
irreflexive, asymmetric and transitive, two keys are incomparable in both
directions exactly when these four fields are equal, and so incomparability is
transitive: a strict weak ordering. -/
theorem BlockKey_lt_strict_weak_order (a b c : BlockKey) :
    (a.lt b = true ↔
      a.nElementVertices < b.nElementVertices ∨
      (a.nElementVertices = b.nElementVertices ∧
        (a.elementType < b.elementType ∨
          (a.elementType = b.elementType ∧
            (a.nBoundaryFaceEdges < b.nBoundaryFaceEdges ∨
              (a.nBoundaryFaceEdges = b.nBoundaryFaceEdges ∧
                a.polynomialOrder < b.polynomialOrder)))))) ∧
    a.lt a = false ∧
    (a.lt b = true → b.lt a = false) ∧
    (a.lt b = true → b.lt c = true → a.lt c = true) ∧
    ((a.lt b = false ∧ b.lt a = false) ↔
      (a.nElementVertices = b.nElementVertices ∧ a.elementType = b.elementType ∧
        a.nBoundaryFaceEdges = b.nBoundaryFaceEdges ∧
        a.polynomialOrder = b.polynomialOrder)) ∧
    (a.lt b = false ∧ b.lt a = false → b.lt c = false ∧ c.lt b = false →
      a.lt c = false ∧ c.lt a = false) := by
  have hab := BlockKey.lt_iff_lex a b
  have hba := BlockKey.lt_iff_lex b a
  have hbc := BlockKey.lt_iff_lex b c
  have hcb := BlockKey.lt_iff_lex c b
  have hac := BlockKey.lt_iff_lex a c
  have hca := BlockKey.lt_iff_lex c a
  have haa := BlockKey.lt_iff_lex a a
  simp only [← Bool.not_eq_true] at *
  rw [hab, hba, hbc, hcb, hac, hca, haa]
  refine ⟨Iff.rfl, ?_, ?_, ?_, ?_, ?_⟩ <;> omega

theorem BlockKey_lt_strict_weak_order_witness :
    BlockKey.lt ⟨4, 1, 3, 1, 0, 0, 0, 4⟩ ⟨4, 2, 3, 1, 1, 0, 0, 10⟩ = true ∧
    BlockKey.lt ⟨4, 2, 3, 1, 1, 0, 0, 10⟩ ⟨8, 1, 4, 2, 0, 0, 0, 8⟩ = true ∧
    BlockKey.lt ⟨4, 1, 3, 1, 0, 0, 0, 4⟩ ⟨8, 1, 4, 2, 0, 0, 0, 8⟩ = true ∧
    BlockKey.lt ⟨4, 2, 3, 1, 1, 0, 0, 10⟩ ⟨4, 1, 3, 1, 0, 0, 0, 4⟩ = false :=
  ⟨by decide, by decide,
    (BlockKey_lt_strict_weak_order ⟨4, 1, 3, 1, 0, 0, 0, 4⟩ ⟨4, 2, 3, 1, 1, 0, 0, 10⟩
      ⟨8, 1, 4, 2, 0, 0, 0, 8⟩).2.2.2.1 (by decide) (by decide),
    (BlockKey_lt_strict_weak_order ⟨4, 1, 3, 1, 0, 0, 0, 4⟩ ⟨4, 2, 3, 1, 1, 0, 0, 10⟩
      ⟨8, 1, 4, 2, 0, 0, 0, 8⟩).2.2.1 (by decide)⟩

end ph
